import Mathlib

/-! Enthalpy and drainage step of the ice-sheet model (`src/base/iMenthalpy.cc`).

A shallow embedding of `IceModel::getEnthalpyCTSColumn`,
`IceModel::drainageToBaseModelEnth` and `IceModel::enthalpyAndDrainageStep`,
followed by theorems about them.

Conventions of the embedding.

* `PetscScalar` (a C `double`) is modelled by the exact rationals `ℚ`; rounding,
  infinities and NaN are outside the model.  A theorem that depends on the value
  of a quotient assumes that the divisor is not zero.
* `PetscInt` is `Int`; loop counters that index arrays are natural numbers.
* C arrays are lists; `xs.getD k 0` reads entry `k` and `xs.set k v` writes it.
* A C++ reference parameter that the callee may overwrite is modelled by passing
  the old value in and returning the new value next to the error code.
* `CHKERRQ(ierr)` is an early return of `Except.error ierr`; so is the end of the
  program in `reportColumnSolveError`.  When the column loop stops with an error,
  the fields are reported as the columns completed before have left them.
* The enthalpy converter `EC`, the configuration database, the three column
  systems and the field access routines are implemented in other translation
  units (`enthalpyConverter`, `combinedSystem`, `bedrockOnlySystem`,
  `iceenthOnlySystem`, `iceModelVec`); they are parameters of the embedding
  (structures of functions).
* Output to the terminal or to files (`viewConstants`, `reportColumn`) and the
  `begin_access`/`end_access` brackets have no effect on the computed fields and
  are left out.
-/

namespace PISM

/-- The scalar type of the source (a C `double`), modelled by exact rationals. -/
abbrev PetscScalar := ℚ

/-- PETSc error codes; `0` is success. -/
abbrev PetscErrorCode := Int

/-- PETSc macro `PetscMin(a,b) = ((a)<(b)) ? (a) : (b)`. -/
def PetscMin (a b : PetscScalar) : PetscScalar := if a < b then a else b

/-- PETSc macro `PetscMax(a,b) = ((a)<(b)) ? (b) : (a)`. -/
def PetscMax (a b : PetscScalar) : PetscScalar := if a < b then b else a

/-- PETSc macro `PetscAbs(a) = ((a) >= 0) ? (a) : -(a)`. -/
def PetscAbs (a : PetscScalar) : PetscScalar := if a ≥ 0 then a else -a

/-- The values `config.get("...")` read by the functions of `iMenthalpy.cc`, together
with the global constant `secpera` (seconds per year) of `pism_const.hh`. -/
structure Config where
  surface_pressure : PetscScalar
  ice_density : PetscScalar
  ice_specific_heat_capacity : PetscScalar
  ice_thermal_conductivity : PetscScalar
  water_latent_heat_fusion : PetscScalar
  liquid_water_fraction_max : PetscScalar
  warm_base_flux_enthalpy_fraction : PetscScalar
  hmelt_max : PetscScalar
  secpera : PetscScalar

/-- The interface of `EnthalpyConverter` (`enthalpyConverter.hh`) as far as
`iMenthalpy.cc` calls it.  Methods that return a `PetscErrorCode` and write their
result through a reference take the old value of the referenced variable as their
last argument and return the error code together with its new value;
`getEnthPermissive` is only called with a fresh local variable as its target and
returns the error code and the value of that variable after the call. -/
structure EnthalpyConverter where
  getPressureFromDepth : PetscScalar → PetscScalar
  getMeltingTemp : PetscScalar → PetscScalar
  getEnthalpyCTS : PetscScalar → PetscScalar
  getWaterFractionLimited : PetscScalar → PetscScalar → PetscScalar
  isLiquified : PetscScalar → PetscScalar → Bool
  getAbsTemp : PetscScalar → PetscScalar → PetscScalar → PetscErrorCode × PetscScalar
  getEnthPermissive :
    PetscScalar → PetscScalar → PetscScalar → PetscErrorCode × PetscScalar
  getEnthAtWaterFraction :
    PetscScalar → PetscScalar → PetscScalar → PetscErrorCode × PetscScalar

/-! ## `IceModel::drainageToBaseModelEnth` -/

/-- Embedding of `IceModel::drainageToBaseModelEnth(omega_max, thickness, z, dz, enthalpy, Hdrained)`.
The last two arguments are C++ references: their values at entry are the arguments
`enthalpy` and `Hdrained`, their values at exit are the second and third component of
the result; the first component is the returned error code. -/
def drainageToBaseModelEnth (EC : EnthalpyConverter) (allowAboveMelting : Bool)
    (omega_max thickness z dz : PetscScalar) (enthalpy Hdrained : PetscScalar) :
    PetscErrorCode × PetscScalar × PetscScalar :=
  if allowAboveMelting = true then
    (1, enthalpy, Hdrained)
  else
    let p := EC.getPressureFromDepth (thickness - z)
    let omega := EC.getWaterFractionLimited enthalpy p
    if omega > omega_max then
      let r := EC.getEnthAtWaterFraction omega_max p enthalpy
      (r.1, r.2, (omega - omega_max) * dz)
    else
      (0, enthalpy, 0)

/-- The reference definition of the drainage model in the words of the
specification (`drainExcessLiquid`): the pair (new enthalpy, drained water thickness). -/
def drainExcessLiquid (EC : EnthalpyConverter)
    (omegaMax thickness levelDepth levelThickness enthalpy : PetscScalar) :
    PetscScalar × PetscScalar :=
  let p := EC.getPressureFromDepth (thickness - levelDepth)
  let omega := EC.getWaterFractionLimited enthalpy p
  if omega > omegaMax then
    ((EC.getEnthAtWaterFraction omegaMax p enthalpy).2, (omega - omegaMax) * levelThickness)
  else
    (enthalpy, 0)

/-! ## `IceModel::getEnthalpyCTSColumn` -/

/-- The quotient `2 k / denom` of `getEnthalpyCTSColumn` at a level with vertical
velocity `wk`. -/
def lambdaRatio (cfg : Config) (dzEQ wk : PetscScalar) : PetscScalar :=
  2 * cfg.ice_thermal_conductivity /
    ((PetscAbs wk + (1 / 1000000) / cfg.secpera)
      * (cfg.ice_density * cfg.ice_specific_heat_capacity) * dzEQ)

/-- One pass of the body of the first loop of `getEnthalpyCTSColumn` at level `k`;
the state is `(*lambda, *Enth_s)`. -/
def ctsLevel (cfg : Config) (EC : EnthalpyConverter) (dzEQ : PetscScalar)
    (zlev : List PetscScalar) (thk : PetscScalar) (Enth w : List PetscScalar)
    (st : PetscScalar × List PetscScalar) (k : Nat) : PetscScalar × List PetscScalar :=
  let Enth_s := st.2.set k (EC.getEnthalpyCTS (EC.getPressureFromDepth (thk - zlev.getD k 0)))
  if Enth.getD k 0 > Enth_s.getD k 0 then
    (0, Enth_s)
  else
    (PetscMin st.1 (lambdaRatio cfg dzEQ (w.getD k 0)), Enth_s)

/-- The first `n` passes `k = 0, ..., n-1` of the first loop of `getEnthalpyCTSColumn`,
started with `*lambda = 1.0`. -/
def ctsLoop (cfg : Config) (EC : EnthalpyConverter) (dzEQ : PetscScalar)
    (zlev : List PetscScalar) (thk : PetscScalar) (Enth w : List PetscScalar)
    (Enth_s : List PetscScalar) : Nat → PetscScalar × List PetscScalar
  | 0 => (1, Enth_s)
  | n + 1 => ctsLevel cfg EC dzEQ zlev thk Enth w (ctsLoop cfg EC dzEQ zlev thk Enth w Enth_s n) n

/-- The first `n` passes of the loop `for (k = lo; k < Mz; k++) (*Enth_s)[k] = v`. -/
def fillFrom (lo : Int) (v : PetscScalar) (Enth_s : List PetscScalar) : Nat → List PetscScalar
  | 0 => Enth_s
  | n + 1 => (fillFrom lo v Enth_s n).set (lo + (n : Int)).toNat v

/-- Embedding of `IceModel::getEnthalpyCTSColumn(Mz, dzEQ, zlev, thk, ks, Enth, w, &lambda, &Enth_s)`:
the result is `(lambda, Enth_s)`; the argument `Enth_s` is the content of the output
buffer at entry.  The first loop runs for `k = 0, ..., ks`, the second for
`k = ks+1, ..., Mz-1`.  The function always returns error code `0`. -/
def getEnthalpyCTSColumn (cfg : Config) (EC : EnthalpyConverter)
    (Mz : Int) (dzEQ : PetscScalar) (zlev : List PetscScalar) (thk : PetscScalar) (ks : Int)
    (Enth w : List PetscScalar) (Enth_s : List PetscScalar) :
    PetscScalar × List PetscScalar :=
  let st := ctsLoop cfg EC dzEQ zlev thk Enth w Enth_s (ks + 1).toNat
  (st.1, fillFrom (ks + 1) (EC.getEnthalpyCTS cfg.surface_pressure) st.2 (Mz - (ks + 1)).toNat)

/-! ## Data of `IceModel::enthalpyAndDrainageStep` -/

/-- A two-dimensional field (`IceModelVec2`): one scalar per horizontal grid point. -/
abbrev IceModelVec2 := Int → Int → PetscScalar

/-- A three-dimensional field (`IceModelVec3`, `IceModelVec3Bedrock`): at each horizontal
grid point the column of values on the storage levels. -/
abbrev IceModelVec3 := Int → Int → List PetscScalar

/-- Write `v` at the point `(i,j)` of a two-dimensional field. -/
def IceModelVec2.write (f : IceModelVec2) (i j : Int) (v : PetscScalar) : IceModelVec2 :=
  fun a b => if a = i ∧ b = j then v else f a b

/-- Replace the column at the point `(i,j)` of a three-dimensional field. -/
def IceModelVec3.writeColumn (f : IceModelVec3) (i j : Int) (c : List PetscScalar) :
    IceModelVec3 :=
  fun a b => if a = i ∧ b = j then c else f a b

/-- The struct `planeStar`: the value of a field at a point and at its four neighbours. -/
structure planeStar where
  ij : PetscScalar
  ip1 : PetscScalar
  im1 : PetscScalar
  jp1 : PetscScalar
  jm1 : PetscScalar

/-- The access routines of `IceModelVec3` used by the step.  `getValColumn col n levels`
is `getValColumn(i,j,n,levels,dest)` for the stored column `col` at `(i,j)` and
yields the `n` entries of `dest`; `setValColumnPL col n levels vals` yields the stored
column after `setValColumnPL(i,j,n,levels,vals)`; `getPlaneStarZ f i j z` is the star
filled in by `f.getPlaneStarZ(i,j,z,&ss)`. -/
structure VecAccess where
  getValColumn : List PetscScalar → Int → List PetscScalar → PetscErrorCode × List PetscScalar
  setValColumnPL : List PetscScalar → Int → List PetscScalar → List PetscScalar →
    PetscErrorCode × List PetscScalar
  getPlaneStarZ : IceModelVec3 → Int → Int → PetscScalar → planeStar

/-- The fine vertical grid returned by `grid.get_fine_vertical_grid`. -/
structure FineGrid where
  fMz : Int
  fMbz : Int
  fdz : PetscScalar
  fzlev : List PetscScalar
  fzblev : List PetscScalar

/-- What `cbsys` has been given for the current column when `cbsys.solveThisColumn`
is called (`setIndicesAndClearThisColumn`, the column copies, `setSchemeParamsThisColumn`,
`setBoundaryValuesThisColumn`). -/
structure CombinedColumn where
  i : Int
  j : Int
  ks : Int
  Enth : List PetscScalar
  Enth_s : List PetscScalar
  u : List PetscScalar
  v : List PetscScalar
  w : List PetscScalar
  Sigma : List PetscScalar
  Tb : List PetscScalar
  isMarginal : Bool
  lambda : PetscScalar
  Enth_ks : PetscScalar
  Ghf : PetscScalar
  Rb : PetscScalar

/-- What `bosys` has been given for the current column when `bosys.solveThisColumn`
is called. -/
structure BedrockColumn where
  i : Int
  j : Int
  ks : Int
  Tb : List PetscScalar
  Tbtop : PetscScalar
  Ghf : PetscScalar

/-- What `iosys` has been given for the current column when `iosys.solveThisColumn`
is called; `a0`, `a1`, `rhs` are the arguments of `setLevel0EqnThisColumn`. -/
structure IceColumn where
  i : Int
  j : Int
  ks : Int
  Enth : List PetscScalar
  Enth_s : List PetscScalar
  u : List PetscScalar
  v : List PetscScalar
  w : List PetscScalar
  Sigma : List PetscScalar
  isMarginal : Bool
  lambda : PetscScalar
  Enth_ks : PetscScalar
  a0 : PetscScalar
  a1 : PetscScalar
  rhs : PetscScalar

/-- A call of `solveThisColumn` on one of the three column systems, with the data the
system holds at that moment. -/
inductive SystemCall where
  | combined (c : CombinedColumn)
  | bedrockOnly (c : BedrockColumn)
  | iceenthOnly (c : IceColumn)

/-- The three kinds of column system. -/
inductive SystemKind where
  | combined
  | bedrockOnly
  | iceenthOnly
  deriving DecidableEq, Repr

/-- The kind of system a call goes to. -/
def SystemCall.kind : SystemCall → SystemKind
  | .combined _ => .combined
  | .bedrockOnly _ => .bedrockOnly
  | .iceenthOnly _ => .iceenthOnly

/-- The column systems `cbsys`, `bosys`, `iosys` (classes `combinedSystemCtx`,
`bedrockOnlySystemCtx`, `iceenthOnlySystemCtx`).  Each `solve` stands for the setter
calls on the system followed by `solveThisColumn(&x)`: it receives the data set for the
column and the old content of the solution buffer, and returns the first non-zero
error code of these calls (or `0`) and the new content of the buffer. -/
structure ColumnSystems where
  initAllColumns : PetscErrorCode
  combinedSolve : CombinedColumn → List PetscScalar → PetscErrorCode × List PetscScalar
  bedrockSolve : BedrockColumn → List PetscScalar → PetscErrorCode × List PetscScalar
  extractHeatFluxFromSoln : List PetscScalar → PetscScalar
  iceenthSolve : IceColumn → List PetscScalar → PetscErrorCode × List PetscScalar

/-- The part of the `IceModel` object that `enthalpyAndDrainageStep` reads and does not
write: flags, configuration, converter, grid, input fields and coupler fields.  The
coupler results are `none` when the coupler pointer is `PETSC_NULL`; otherwise they hold
the error code of the coupler call and the field it fills. -/
structure IceModel where
  doColdIceMethods : Bool
  allowAboveMelting : Bool
  updateHmelt : Bool
  config : Config
  EC : EnthalpyConverter
  vec : VecAccess
  sys : ColumnSystems
  xs : Int
  xm : Nat
  ys : Int
  ym : Nat
  dx : PetscScalar
  dy : PetscScalar
  dtTempAge : PetscScalar
  get_fine_vertical_grid : PetscErrorCode × FineGrid
  surface : Option (PetscErrorCode × IceModelVec2)
  ocean : Option ((PetscErrorCode × IceModelVec2) × (PetscErrorCode × IceModelVec2))
  vH : IceModelVec2
  vRb : IceModelVec2
  vGhf : IceModelVec2
  is_floating : Int → Int → Bool
  checkThinNeigh : PetscScalar → PetscScalar → PetscScalar → PetscScalar →
    PetscScalar → PetscScalar → PetscScalar → PetscScalar → Bool
  Enth3 : IceModelVec3
  u3 : IceModelVec3
  v3 : IceModelVec3
  w3 : IceModelVec3
  Sigma3 : IceModelVec3

/-- The fields that `enthalpyAndDrainageStep` writes. -/
structure StepFields where
  Enthnew3 : IceModelVec3
  Tb3 : IceModelVec3
  vbasalMeltRate : IceModelVec2
  vHmelt : IceModelVec2

/-- The work arrays that live across the column loop: `Enthnew`, `Tbnew`, `xcombined`
(allocated before the loop) and `iosys.Enth_s`. -/
structure Scratch where
  Enthnew : List PetscScalar
  Tbnew : List PetscScalar
  xcombined : List PetscScalar
  Enth_s : List PetscScalar

deriving instance DecidableEq for Except

/-- The macro `CHKERRQ` applied to a call that returns an error code and a value. -/
def CHK {α : Type} (r : PetscErrorCode × α) : Except PetscErrorCode α :=
  if r.1 = 0 then .ok r.2 else .error r.1

/-! ## The pieces of the column loop body -/

/-- The first `n` passes of the loop `for (k = 0; k < n; k++) dest[k] = src[k + off]`
(lines 520-522 with `off = 0` and lines 530-532 with `off = fMbz-1`). -/
def copyFrom (src : List PetscScalar) (off : Int) (dest : List PetscScalar) :
    Nat → List PetscScalar
  | 0 => dest
  | n + 1 => (copyFrom src off dest n).set n (src.getD ((n : Int) + off).toNat 0)

/-- The constant `warm_dE = config.get("warm_base_flux_enthalpy_fraction") * L`. -/
def warm_dE (cfg : Config) : PetscScalar :=
  cfg.warm_base_flux_enthalpy_fraction * cfg.water_latent_heat_fusion

/-- The constant `C = ice_c * fdz / ice_k` of the lowest-level equation. -/
def fluxC (cfg : Config) (fdz : PetscScalar) : PetscScalar :=
  cfg.ice_specific_heat_capacity * fdz / cfg.ice_thermal_conductivity

/-- The blend fraction `alpha` of the warm base case (lines 634-637). -/
def warmBaseAlpha (cfg : Config) (Enth0 Enth_s0 : PetscScalar) : PetscScalar :=
  if Enth0 < Enth_s0 + warm_dE cfg then 1 - ((Enth0 - Enth_s0) / warm_dE cfg) else 0

/-- The right-hand side of the outflow row (lines 613-623). -/
def outflowRhs (M : IceModel) (i j : Int) (isMarginal : Bool)
    (Enth u v Sigma : List PetscScalar) : PetscScalar :=
  let rhs := Enth.getD 0 0
  if isMarginal = false then
    let ss := M.vec.getPlaneStarZ M.Enth3 i j 0
    let UpEnthu :=
      if u.getD 0 0 < 0 then u.getD 0 0 * (ss.ip1 - ss.ij) / M.dx
      else u.getD 0 0 * (ss.ij - ss.im1) / M.dx
    let UpEnthv :=
      if v.getD 0 0 < 0 then v.getD 0 0 * (ss.jp1 - ss.ij) / M.dy
      else v.getD 0 0 * (ss.ij - ss.jm1) / M.dy
    rhs + M.dtTempAge * ((Sigma.getD 0 0 / M.config.ice_density) - UpEnthu - UpEnthv)
  else
    rhs

/-- The row `(a0, a1, rhs)` before blending in the warm base case (lines 610-632): the
outflow row if `w[0] < 0`, the Dirichlet row otherwise. -/
def unblendedRow (M : IceModel) (fdz : PetscScalar) (i j : Int) (isMarginal : Bool)
    (Enth Enth_s w u v Sigma : List PetscScalar) : PetscScalar × PetscScalar × PetscScalar :=
  if w.getD 0 0 < 0 then
    let rhs := outflowRhs M i j isMarginal Enth u v Sigma
    let nuw0 := (M.dtTempAge / fdz) * w.getD 0 0
    (1 - nuw0, nuw0, rhs)
  else
    (1, 0, Enth_s.getD 0 0)

/-- The lowest-level equation at the bottom of the ice (lines 593-645): the arguments
`(a0, a1, rhs)` passed to `iosys.setLevel0EqnThisColumn` and the value of
`vbasalMeltRate(i,j)` afterwards, given its value `basalMeltRate` before. -/
def lowestLevelEqn (M : IceModel) (fdz : PetscScalar) (i j : Int) (isMarginal : Bool)
    (hf_base : PetscScalar) (Enth Enth_s w u v Sigma : List PetscScalar)
    (basalMeltRate : PetscScalar) :
    (PetscScalar × PetscScalar × PetscScalar) × PetscScalar :=
  if Enth.getD 0 0 < Enth_s.getD 0 0 then
    ((1, -1, fluxC M.config fdz * (hf_base + M.vRb i j)), basalMeltRate)
  else
    let b := unblendedRow M fdz i j isMarginal Enth Enth_s w u v Sigma
    let alpha := warmBaseAlpha M.config (Enth.getD 0 0) (Enth_s.getD 0 0)
    let rhs := (1 - alpha) * b.2.2 + alpha * (fluxC M.config fdz * (hf_base + M.vRb i j))
    let a0 := (1 - alpha) * b.1 + alpha * 1
    let a1 := (1 - alpha) * b.2.1 + alpha * (-1)
    ((a0, a1, rhs), basalMeltRate * (1 - alpha))

/-- The melt rate determined from the heat flux out of the base (lines 569-579). -/
def meltRateAtBase (M : IceModel) (shelfbmassflux : IceModelVec2) (i j : Int)
    (hf_base : PetscScalar) (Enth Enth_s : List PetscScalar) : PetscScalar :=
  if M.is_floating i j = true then
    shelfbmassflux i j
  else if Enth.getD 0 0 < Enth_s.getD 0 0 then
    0
  else
    (hf_base + M.vRb i j) / (M.config.ice_density * M.config.water_latent_heat_fusion)

/-- The state of the drainage loop (lines 666-676): the array `Enthnew`, the sum
`Hdrainedtotal` and the counter `liquifiedCount`. -/
structure DrainState where
  Enthnew : List PetscScalar
  Hdrainedtotal : PetscScalar
  liquifiedCount : Int
  deriving DecidableEq

/-- One pass of the drainage loop at level `k` (lines 668-675). -/
def drainLevel (M : IceModel) (fg : FineGrid) (i j : Int) (st : DrainState) (k : Nat) :
    Except PetscErrorCode DrainState :=
  let liquifiedCount :=
    if M.EC.isLiquified (st.Enthnew.getD k 0)
        (M.EC.getPressureFromDepth (M.vH i j - fg.fzlev.getD k 0)) = true
    then st.liquifiedCount + 1 else st.liquifiedCount
  let r := drainageToBaseModelEnth M.EC M.allowAboveMelting
    M.config.liquid_water_fraction_max (M.vH i j) (fg.fzlev.getD k 0) fg.fdz
    (st.Enthnew.getD k 0) 0
  if r.1 = 0 then
    .ok { Enthnew := st.Enthnew.set k r.2.1
          Hdrainedtotal := st.Hdrainedtotal + r.2.2
          liquifiedCount := liquifiedCount }
  else
    .error r.1

/-- The first `n` passes `k = 0, ..., n-1` of the drainage loop. -/
def drainLoop (M : IceModel) (fg : FineGrid) (i j : Int) (st : DrainState) :
    Nat → Except PetscErrorCode DrainState
  | 0 => .ok st
  | n + 1 =>
    match drainLoop M fg i j st n with
    | .error e => .error e
    | .ok s => drainLevel M fg i j s n

/-- The final value of `vHmelt(i,j)` (lines 698-711), given its value `Hmelt` before
and the local `Hmeltnew`. -/
def finalizeHmelt (M : IceModel) (i j : Int) (ks : Int) (Hmelt Hmeltnew : PetscScalar) :
    PetscScalar :=
  if M.updateHmelt = true then
    if M.is_floating i j = true then
      M.config.hmelt_max
    else if ks = 0 then
      0
    else
      PetscMax 0 (PetscMin M.config.hmelt_max Hmeltnew)
  else
    Hmelt

/-! ## The column loop body and the step -/

/-- The coupler fields `artm`, `shelfbmassflux`, `shelfbtemp` obtained before the loop. -/
structure Couplers where
  artm : IceModelVec2
  shelfbmassflux : IceModelVec2
  shelfbtemp : IceModelVec2

/-- The values at the end of the "major decision" (line 655): the work arrays, the
value of `vbasalMeltRate(i,j)`, the counter `liquifiedCount` and the calls of
`solveThisColumn` made for the column, in order. -/
structure SolveResult where
  Enthnew : List PetscScalar
  Tbnew : List PetscScalar
  xcombined : List PetscScalar
  basalMeltRate : PetscScalar
  liquifiedCount : Int
  calls : List SystemCall

/-- The cold base, grounded case with bedrock (lines 494-534). -/
def combinedCase (M : IceModel) (fg : FineGrid) (F : StepFields) (S : Scratch)
    (liquifiedCount : Int) (i j : Int) (ks : Int) (isMarginal : Bool)
    (lambda Enth_ks p_basal : PetscScalar) (Enth Enth_s w : List PetscScalar) :
    Except PetscErrorCode SolveResult := do
  let u ← CHK (M.vec.getValColumn (M.u3 i j) fg.fMz fg.fzlev)
  let v ← CHK (M.vec.getValColumn (M.v3 i j) fg.fMz fg.fzlev)
  let Sigma ← CHK (M.vec.getValColumn (M.Sigma3 i j) fg.fMz fg.fzlev)
  let Tb ← CHK (M.vec.getValColumn (F.Tb3 i j) fg.fMbz fg.fzblev)
  let c : CombinedColumn :=
    { i := i, j := j, ks := ks, Enth := Enth, Enth_s := Enth_s, u := u, v := v, w := w,
      Sigma := Sigma, Tb := Tb, isMarginal := isMarginal, lambda := lambda,
      Enth_ks := Enth_ks, Ghf := M.vGhf i j, Rb := M.vRb i j }
  let xcombined ← CHK (M.sys.combinedSolve c S.xcombined)
  let Tbnew := copyFrom xcombined 0 S.Tbnew (fg.fMbz - 1).toNat
  let r := M.EC.getAbsTemp (xcombined.getD (fg.fMbz - 1).toNat 0) p_basal
    (Tbnew.getD (fg.fMbz - 1).toNat 0)
  if r.1 = 1 ∨ r.1 = 0 then
    pure
      { Enthnew := copyFrom xcombined (fg.fMbz - 1) S.Enthnew fg.fMz.toNat
        Tbnew := Tbnew.set (fg.fMbz - 1).toNat r.2
        xcombined := xcombined
        basalMeltRate := 0
        liquifiedCount := if r.1 = 1 then liquifiedCount + 1 else liquifiedCount
        calls := [SystemCall.combined c] }
  else
    throw r.1

/-- The bedrock-only solve of all other cases (lines 540-567): the heat flux `hf_base`,
the array `Tbnew` and the call made, if any. -/
def bedrockOnlySolve (M : IceModel) (fg : FineGrid) (cp : Couplers) (F : StepFields)
    (S : Scratch) (i j : Int) (p_basal : PetscScalar) :
    Except PetscErrorCode (PetscScalar × List PetscScalar × List SystemCall) :=
  if fg.fMbz > 1 then do
    let Tb ← CHK (M.vec.getValColumn (F.Tb3 i j) fg.fMbz fg.fzblev)
    let Tbtop :=
      if M.is_floating i j = true then cp.shelfbtemp i j else M.EC.getMeltingTemp p_basal
    let c : BedrockColumn :=
      { i := i, j := j, ks := -1, Tb := Tb, Tbtop := Tbtop, Ghf := M.vGhf i j }
    let Tbnew ← CHK (M.sys.bedrockSolve c S.Tbnew)
    pure (M.sys.extractHeatFluxFromSoln Tbnew, Tbnew, [SystemCall.bedrockOnly c])
  else
    pure (M.vGhf i j, S.Tbnew, [])

/-- All other cases (lines 538-654): bedrock-only solve, melt rate, ice-only solve. -/
def otherCases (M : IceModel) (fg : FineGrid) (cp : Couplers) (F : StepFields) (S : Scratch)
    (liquifiedCount : Int) (i j : Int) (ks : Int) (isMarginal : Bool)
    (lambda Enth_ks p_basal : PetscScalar) (Enth Enth_s w : List PetscScalar) :
    Except PetscErrorCode SolveResult := do
  let b ← bedrockOnlySolve M fg cp F S i j p_basal
  let basalMeltRate := meltRateAtBase M cp.shelfbmassflux i j b.1 Enth Enth_s
  let u ← CHK (M.vec.getValColumn (M.u3 i j) fg.fMz fg.fzlev)
  let v ← CHK (M.vec.getValColumn (M.v3 i j) fg.fMz fg.fzlev)
  let Sigma ← CHK (M.vec.getValColumn (M.Sigma3 i j) fg.fMz fg.fzlev)
  let eq := lowestLevelEqn M fg.fdz i j isMarginal b.1 Enth Enth_s w u v Sigma basalMeltRate
  let c : IceColumn :=
    { i := i, j := j, ks := ks, Enth := Enth, Enth_s := Enth_s, u := u, v := v, w := w,
      Sigma := Sigma, isMarginal := isMarginal, lambda := lambda, Enth_ks := Enth_ks,
      a0 := eq.1.1, a1 := eq.1.2.1, rhs := eq.1.2.2 }
  let Enthnew ← CHK (M.sys.iceenthSolve c S.Enthnew)
  pure
    { Enthnew := Enthnew
      Tbnew := b.2.1
      xcombined := S.xcombined
      basalMeltRate := eq.2
      liquifiedCount := liquifiedCount
      calls := b.2.2 ++ [SystemCall.iceenthOnly c] }

/-- The condition of the "major decision" (line 492). -/
def coldGroundedWithBedrock (M : IceModel) (fg : FineGrid) (i j : Int)
    (Enth Enth_s : List PetscScalar) : Bool :=
  decide (Enth.getD 0 0 < Enth_s.getD 0 0) && decide (fg.fMbz > 1) && !(M.is_floating i j)

/-- The "major decision" (lines 491-655): the combined system if the base is cold, a
bedrock layer is present and the column is grounded, all other cases otherwise. -/
def majorDecision (M : IceModel) (fg : FineGrid) (cp : Couplers) (F : StepFields) (S : Scratch)
    (liquifiedCount : Int) (i j : Int) (ks : Int) (isMarginal : Bool)
    (lambda Enth_ks p_basal : PetscScalar) (Enth Enth_s w : List PetscScalar) :
    Except PetscErrorCode SolveResult :=
  if coldGroundedWithBedrock M fg i j Enth Enth_s = true then
    combinedCase M fg F S liquifiedCount i j ks isMarginal lambda Enth_ks p_basal Enth Enth_s w
  else
    otherCases M fg cp F S liquifiedCount i j ks isMarginal lambda Enth_ks p_basal Enth Enth_s w

/-- The filling of `Tbnew[0]` when there is no thermal layer (lines 685-693). -/
def fillTbnew (M : IceModel) (fg : FineGrid) (cp : Couplers) (i j : Int)
    (Enthnew Tbnew : List PetscScalar) : Except PetscErrorCode (List PetscScalar) :=
  if fg.fMbz = 1 then
    if M.is_floating i j = true then
      pure (Tbnew.set 0 (cp.shelfbtemp i j))
    else do
      let T ← CHK (M.EC.getAbsTemp (Enthnew.getD 0 0) (M.EC.getPressureFromDepth (M.vH i j))
        (Tbnew.getD 0 0))
      pure (Tbnew.set 0 T)
  else
    pure Tbnew

/-- What one pass of the column loop body leaves behind: the new stored columns of
`Enthnew3` and `Tb3` at `(i,j)`, the new values of `vbasalMeltRate(i,j)` and
`vHmelt(i,j)`, the work arrays, the two counters, and for reference the locals `ks`,
`lambda`, `Hmeltnew`, `Hdrainedtotal`, the melt rate before drainage is added and the
calls of `solveThisColumn`. -/
structure ColumnResult where
  Enthnew3col : List PetscScalar
  Tb3col : List PetscScalar
  basalMeltRate : PetscScalar
  Hmelt : PetscScalar
  scratch : Scratch
  vertSacrCount : PetscScalar
  liquifiedCount : Int
  ks : Int
  lambda : PetscScalar
  Hmeltnew : PetscScalar
  Hdrainedtotal : PetscScalar
  meltRateBeforeDrainage : PetscScalar
  calls : List SystemCall

/-- The body of the column loop of `enthalpyAndDrainageStep` at `(i,j)` (lines 466-711). -/
def columnStep (M : IceModel) (fg : FineGrid) (cp : Couplers) (F : StepFields) (S : Scratch)
    (vertSacrCount : PetscScalar) (liquifiedCount : Int) (i j : Int) :
    Except PetscErrorCode ColumnResult := do
  let ks : Int := ⌊M.vH i j / fg.fdz⌋
  let isMarginal := M.checkThinNeigh
    (M.vH (i+1) j) (M.vH (i+1) (j+1)) (M.vH i (j+1)) (M.vH (i-1) (j+1))
    (M.vH (i-1) j) (M.vH (i-1) (j-1)) (M.vH i (j-1)) (M.vH (i+1) (j-1))
  let p_basal := M.EC.getPressureFromDepth (M.vH i j)
  let p_ks := M.EC.getPressureFromDepth (M.vH i j - fg.fzlev.getD ks.toNat 0)
  let _ ← CHK (M.EC.getEnthPermissive (cp.artm i j) 0 M.config.surface_pressure)
  let Enth_ks ← CHK (M.EC.getEnthPermissive (cp.artm i j) 0 p_ks)
  let Enth ← CHK (M.vec.getValColumn (M.Enth3 i j) fg.fMz fg.fzlev)
  let w ← CHK (M.vec.getValColumn (M.w3 i j) fg.fMz fg.fzlev)
  let cts := getEnthalpyCTSColumn M.config M.EC fg.fMz fg.fdz fg.fzlev (M.vH i j) ks Enth w
    S.Enth_s
  let vertSacrCount := if cts.1 < 1 then vertSacrCount + 1 else vertSacrCount
  let sr ← majorDecision M fg cp F S liquifiedCount i j ks isMarginal cts.1 Enth_ks p_basal
    Enth cts.2 w
  let Hmeltnew :=
    if M.is_floating i j = false then F.vHmelt i j + sr.basalMeltRate * M.dtTempAge
    else F.vHmelt i j
  let ds ← drainLoop M fg i j
    { Enthnew := sr.Enthnew, Hdrainedtotal := 0, liquifiedCount := sr.liquifiedCount } ks.toNat
  let basalMeltRate :=
    if M.is_floating i j = false then sr.basalMeltRate + ds.Hdrainedtotal / M.dtTempAge
    else sr.basalMeltRate
  let Hmeltnew :=
    if M.is_floating i j = false then Hmeltnew + ds.Hdrainedtotal else Hmeltnew
  let Enthnew3col ← CHK (M.vec.setValColumnPL (F.Enthnew3 i j) fg.fMz fg.fzlev ds.Enthnew)
  let Tbnew ← fillTbnew M fg cp i j ds.Enthnew sr.Tbnew
  let Tb3col ← CHK (M.vec.setValColumnPL (F.Tb3 i j) fg.fMbz fg.fzblev Tbnew)
  pure
    { Enthnew3col := Enthnew3col
      Tb3col := Tb3col
      basalMeltRate := basalMeltRate
      Hmelt := finalizeHmelt M i j ks (F.vHmelt i j) Hmeltnew
      scratch :=
        { Enthnew := ds.Enthnew, Tbnew := Tbnew, xcombined := sr.xcombined, Enth_s := cts.2 }
      vertSacrCount := vertSacrCount
      liquifiedCount := ds.liquifiedCount
      ks := ks
      lambda := cts.1
      Hmeltnew := Hmeltnew
      Hdrainedtotal := ds.Hdrainedtotal
      meltRateBeforeDrainage := sr.basalMeltRate
      calls := sr.calls }

/-- The content of `iosys.Enth` after line 482: the previous enthalpy column at `(i,j)` on
the fine grid. -/
def iosysEnth (M : IceModel) (fg : FineGrid) (i j : Int) : List PetscScalar :=
  (M.vec.getValColumn (M.Enth3 i j) fg.fMz fg.fzlev).2

/-- The content of `iosys.w` after line 483: the vertical velocity column at `(i,j)` on the
fine grid. -/
def iosysW (M : IceModel) (fg : FineGrid) (i j : Int) : List PetscScalar :=
  (M.vec.getValColumn (M.w3 i j) fg.fMz fg.fzlev).2

/-- The pair `(lambda, iosys.Enth_s)` after the call of `getEnthalpyCTSColumn` at lines
486-487 for the column `(i,j)`, when `iosys.Enth_s` held `Enth_s` before. -/
def columnCTS (M : IceModel) (fg : FineGrid) (Enth_s : List PetscScalar) (i j : Int) :
    PetscScalar × List PetscScalar :=
  getEnthalpyCTSColumn M.config M.EC fg.fMz fg.fdz fg.fzlev (M.vH i j) ⌊M.vH i j / fg.fdz⌋
    (iosysEnth M fg i j) (iosysW M fg i j) Enth_s

/-- Every error code that a computation returns is non-zero. -/
def ErrorsNonzero {α : Type} (x : Except PetscErrorCode α) : Prop :=
  ∀ e, x = .error e → e ≠ 0

/-- The grid point `(i,j)` is owned by this processor: `xs <= i < xs+xm`, `ys <= j < ys+ym`. -/
def owned (M : IceModel) (i j : Int) : Prop :=
  M.xs ≤ i ∧ i < M.xs + (M.xm : Int) ∧ M.ys ≤ j ∧ j < M.ys + (M.ym : Int)

instance (M : IceModel) (i j : Int) : Decidable (owned M i j) := by
  unfold owned
  infer_instance

/-- The state carried through the column loop. -/
structure LoopState where
  fields : StepFields
  scratch : Scratch
  vertSacrCount : PetscScalar
  liquifiedCount : Int

/-- Store the results of the column `(i,j)` in the loop state. -/
def LoopState.store (st : LoopState) (i j : Int) (r : ColumnResult) : LoopState :=
  { fields :=
      { Enthnew3 := st.fields.Enthnew3.writeColumn i j r.Enthnew3col
        Tb3 := st.fields.Tb3.writeColumn i j r.Tb3col
        vbasalMeltRate := st.fields.vbasalMeltRate.write i j r.basalMeltRate
        vHmelt := st.fields.vHmelt.write i j r.Hmelt }
    scratch := r.scratch
    vertSacrCount := r.vertSacrCount
    liquifiedCount := r.liquifiedCount }

/-- The column loop over a list of grid points, in the order of the list.  It stops at
the first column whose body returns an error, with the state left by the columns
completed before it. -/
def columnLoop (M : IceModel) (fg : FineGrid) (cp : Couplers) :
    List (Int × Int) → LoopState → PetscErrorCode × LoopState
  | [], st => (0, st)
  | (i, j) :: rest, st =>
    match columnStep M fg cp st.fields st.scratch st.vertSacrCount st.liquifiedCount i j with
    | .error e => (e, st)
    | .ok r => columnLoop M fg cp rest (st.store i j r)

/-- The owned grid points in the order of the loops
`for (i = xs; i < xs+xm; ++i) for (j = ys; j < ys+ym; ++j)`. -/
def ownedColumns (M : IceModel) : List (Int × Int) :=
  (List.range M.xm).flatMap fun (a : Nat) =>
    (List.range M.ym).map fun (b : Nat) => (M.xs + (a : Int), M.ys + (b : Int))

/-- What `enthalpyAndDrainageStep` leaves behind: the returned error code, the fields
it writes, and the values of `*vertSacrCount` and `*liquifiedVol`. -/
structure StepResult where
  ierr : PetscErrorCode
  fields : StepFields
  vertSacrCount : PetscScalar
  liquifiedVol : PetscScalar

/-- Embedding of `IceModel::enthalpyAndDrainageStep(vertSacrCount, liquifiedVol)`.  The arguments
`F`, `vertSacrCount`, `liquifiedVol` are the written fields and the two referenced
variables at entry; `S` is the content of the freshly allocated work arrays. -/
def enthalpyAndDrainageStep (M : IceModel) (F : StepFields) (S : Scratch)
    (vertSacrCount liquifiedVol : PetscScalar) : StepResult :=
  let fail (e : PetscErrorCode) : StepResult :=
    { ierr := e, fields := F, vertSacrCount := vertSacrCount, liquifiedVol := liquifiedVol }
  if M.doColdIceMethods = true then fail 1
  else if M.get_fine_vertical_grid.1 ≠ 0 then fail M.get_fine_vertical_grid.1
  else
    let fg := M.get_fine_vertical_grid.2
    if fg.fMbz = 2 then fail 2
    else if M.sys.initAllColumns ≠ 0 then fail M.sys.initAllColumns
    else
      match M.surface with
      | none => fail 4
      | some artm =>
        if artm.1 ≠ 0 then fail artm.1
        else
          match M.ocean with
          | none => fail 5
          | some (massflux, temp) =>
            if massflux.1 ≠ 0 then fail massflux.1
            else if temp.1 ≠ 0 then fail temp.1
            else
              let cp : Couplers :=
                { artm := artm.2, shelfbmassflux := massflux.2, shelfbtemp := temp.2 }
              let out := columnLoop M fg cp (ownedColumns M)
                { fields := F, scratch := S, vertSacrCount := vertSacrCount,
                  liquifiedCount := 0 }
              if out.1 ≠ 0 then
                { ierr := out.1, fields := out.2.fields, vertSacrCount := out.2.vertSacrCount,
                  liquifiedVol := liquifiedVol }
              else
                { ierr := 0, fields := out.2.fields, vertSacrCount := out.2.vertSacrCount,
                  liquifiedVol := (out.2.liquifiedCount : PetscScalar) * fg.fdz * M.dx * M.dy }


/-! ## Concrete instances for evaluating the definitions -/

/-- A converter with latent heat `100`, heat capacity `2`, pressure equal to depth and
a linear melting curve, used to evaluate the definitions on concrete columns. -/
def sampleEC : EnthalpyConverter where
  getPressureFromDepth := fun d => if d > 0 then d else 0
  getMeltingTemp := fun p => 270 - p / 100
  getEnthalpyCTS := fun p => 140 - p / 50
  getWaterFractionLimited := fun E p =>
    if E ≥ 140 - p / 50 + 100 then 1
    else if E ≤ 140 - p / 50 then 0
    else (E - (140 - p / 50)) / 100
  isLiquified := fun E p => decide (E ≥ 140 - p / 50 + 100)
  getAbsTemp := fun E p _ =>
    if E ≥ 140 - p / 50 + 100 then (1, 270 - p / 100)
    else if E < 140 - p / 50 then (0, E / 2 + 200)
    else (0, 270 - p / 100)
  getEnthPermissive := fun T omega p =>
    if T < 270 - p / 100 then (0, 2 * (T - 200)) else (0, 140 - p / 50 + omega * 100)
  getEnthAtWaterFraction := fun omega p E =>
    if omega < 0 ∨ 1 < omega then (2, E) else (0, 140 - p / 50 + omega * 100)

/-- A configuration with small round numbers matching `sampleEC`. -/
def sampleConfig : Config where
  surface_pressure := 0
  ice_density := 10
  ice_specific_heat_capacity := 2
  ice_thermal_conductivity := 2
  water_latent_heat_fusion := 100
  liquid_water_fraction_max := 1 / 100
  warm_base_flux_enthalpy_fraction := 1 / 10
  hmelt_max := 2
  secpera := 100

/-- Field access on a storage grid that coincides with the fine grid: columns are
copied unchanged, and the star at height `0` reads entry `0` of the neighbouring columns. -/
def sampleVec : VecAccess where
  getValColumn := fun col _ _ => (0, col)
  setValColumnPL := fun _ _ _ vals => (0, vals)
  getPlaneStarZ := fun f i j _ =>
    { ij := (f i j).getD 0 0, ip1 := (f (i + 1) j).getD 0 0, im1 := (f (i - 1) j).getD 0 0,
      jp1 := (f i (j + 1)).getD 0 0, jm1 := (f i (j - 1)).getD 0 0 }

/-- Stand-ins for the three column systems: every solve leaves conduction and advection
out and adds the strain heating `dt * Sigma / rho = Sigma / 10` of one time step to the
ice enthalpy; the bedrock solves keep the bedrock temperatures and the bedrock-only solve
pins the top level to its boundary value. -/
def sampleSystems : ColumnSystems where
  initAllColumns := 0
  combinedSolve := fun c _ =>
    (0, c.Tb.take (c.Tb.length - 1) ++ List.zipWith (fun e s => e + s / 10) c.Enth c.Sigma)
  bedrockSolve := fun c _ => (0, c.Tb.set (c.Tb.length - 1) c.Tbtop)
  extractHeatFluxFromSoln := fun Tb =>
    (Tb.getD (Tb.length - 2) 0 - Tb.getD (Tb.length - 1) 0) / 10
  iceenthSolve := fun c _ => (0, List.zipWith (fun e s => e + s / 10) c.Enth c.Sigma)

/-- The fine grid of the sample model: three ice levels `0, 10, 20` and `fMbz` bedrock
levels with spacing `10`. -/
def sampleFineGrid (fMbz : Int) : FineGrid where
  fMz := 3
  fMbz := fMbz
  fdz := 10
  fzlev := [0, 10, 20]
  fzblev := (List.range fMbz.toNat).map fun k => ((k : PetscScalar) + 1 - (fMbz.toNat : PetscScalar)) * 10

/-- A one-column model: ice thickness `15` (so `ks = 1`), time step `1`, previous
enthalpy column `Enth`, strain heating column `Sigma`, vertical velocity `w0` at the
base; the column is floating or grounded, the bedrock has `fMbz` fine levels. -/
def sampleModel (floating updateHmelt : Bool) (fMbz : Int) (Enth Sigma : List PetscScalar)
    (w0 : PetscScalar) : IceModel where
  doColdIceMethods := false
  allowAboveMelting := false
  updateHmelt := updateHmelt
  config := sampleConfig
  EC := sampleEC
  vec := sampleVec
  sys := sampleSystems
  xs := 0
  xm := 1
  ys := 0
  ym := 1
  dx := 1000
  dy := 1000
  dtTempAge := 1
  get_fine_vertical_grid := (0, sampleFineGrid fMbz)
  surface := some (0, fun _ _ => 250)
  ocean := some ((0, fun _ _ => 5), (0, fun _ _ => 268))
  vH := fun _ _ => 15
  vRb := fun _ _ => 1
  vGhf := fun _ _ => 1 / 2
  is_floating := fun _ _ => floating
  checkThinNeigh := fun a b c d e f g h =>
    decide (a < 10 ∧ b < 10 ∧ c < 10 ∧ d < 10 ∧ e < 10 ∧ f < 10 ∧ g < 10 ∧ h < 10)
  Enth3 := fun _ _ => Enth
  u3 := fun _ _ => [0, 0, 0]
  v3 := fun _ _ => [0, 0, 0]
  w3 := fun _ _ => [w0, 0, 0]
  Sigma3 := fun _ _ => Sigma

/-- The written fields before the sample step: stored basal water `Hmelt` everywhere,
bedrock temperature `260` on `fMbz` levels. -/
def sampleFields (fMbz : Int) (Hmelt : PetscScalar) : StepFields where
  Enthnew3 := fun _ _ => [0, 0, 0]
  Tb3 := fun _ _ => List.replicate fMbz.toNat 260
  vbasalMeltRate := fun _ _ => 0
  vHmelt := fun _ _ => Hmelt

/-- The work arrays before the sample step. -/
def sampleScratch (fMbz : Int) : Scratch where
  Enthnew := [0, 0, 0]
  Tbnew := List.replicate fMbz.toNat 0
  xcombined := List.replicate (fMbz.toNat + 2) 0
  Enth_s := [0, 0, 0]

/-- The coupler fields of the sample model. -/
def sampleCouplers : Couplers where
  artm := fun _ _ => 250
  shelfbmassflux := fun _ _ => 5
  shelfbtemp := fun _ _ => 268

/-- The grounded one-column sample model with ice thickness `5`, less than the fine
spacing `10`, so that `ks = 0`; the flag `updateHmelt` is the argument. -/
def sampleModelThin (updateHmelt : Bool) : IceModel :=
  { sampleModel false updateHmelt 1 [130, 130, 120] [0, 0, 0] 0 with vH := fun _ _ => 5 }

/-- Stand-ins for the three column systems that fill the solution buffer handed to
them, whatever its size: the ice solves add the strain heating `Sigma / 10` of one time
step to the ice enthalpy, the bedrock solves keep the bedrock temperatures, the
bedrock-only solve pins the top level to its boundary value, and the combined solve puts
the bedrock levels below the top first and the ice levels after them. -/
def sampleSystemsInPlace : ColumnSystems where
  initAllColumns := 0
  combinedSolve := fun c x =>
    (0, (List.range x.length).map fun k =>
      if k + 1 < c.Tb.length then c.Tb.getD k 0
      else c.Enth.getD (k + 1 - c.Tb.length) 0 + c.Sigma.getD (k + 1 - c.Tb.length) 0 / 10)
  bedrockSolve := fun c x =>
    (0, (List.range x.length).map fun k =>
      if k + 1 = x.length then c.Tbtop else c.Tb.getD k 0)
  extractHeatFluxFromSoln := fun Tb =>
    (Tb.getD (Tb.length - 2) 0 - Tb.getD (Tb.length - 1) 0) / 10
  iceenthSolve := fun c x =>
    (0, (List.range x.length).map fun k => c.Enth.getD k 0 + c.Sigma.getD k 0 / 10)

/-- A model with the two owned columns `(0,0)` and `(1,0)` over three bedrock levels: the
first column is cold, the second has a warm base; both are grounded. -/
def sampleModelTwo : IceModel :=
  { sampleModel false true 3 [130, 130, 120] [0, 0, 0] 0 with
    sys := sampleSystemsInPlace
    xm := 2
    Enth3 := fun i _ => if i = 1 then [1447 / 10, 130, 120] else [130, 130, 120] }

/-- The grounded one-column sample model over a single bedrock level with a thin
neighbourhood: ice thickness `15` at `(0,0)` and `5` at the eight neighbours, so that
`isMarginal` is true for the column `(0,0)`; the base is warm and the basal velocity is
`-1` (outflow). -/
def sampleModelMarginal : IceModel :=
  { sampleModel false true 1 [1447 / 10, 130, 120] [20, 0, 0] (-1) with
    vH := fun i j => if i = 0 ∧ j = 0 then 15 else 5 }

/-! ## Counting fully melted levels -/

/-- The number of grid points of a list whose column gets `lambda < 1` from
`getEnthalpyCTSColumn`, when `iosys.Enth_s` holds `Enth_s` at the call. -/
def sacrificedColumns (M : IceModel) (fg : FineGrid) (Enth_s : List PetscScalar)
    (cols : List (Int × Int)) : Nat :=
  cols.countP fun p => decide ((columnCTS M fg Enth_s p.1 p.2).1 < 1)

/-! ## Comparing two runs of the loop body -/

/-- Two computations agree up to `R`: both return the same error code, or both succeed
with values related by `R`. -/
def ExceptRel {α β : Type} (R : α → β → Prop) :
    Except PetscErrorCode α → Except PetscErrorCode β → Prop
  | .ok a, .ok b => R a b
  | .error e, .error e' => e = e'
  | .ok _, .error _ => False
  | .error _, .ok _ => False

/-- What the loop body writes to the four fields at its column. -/
def ColumnResult.out (r : ColumnResult) :
    List PetscScalar × List PetscScalar × PetscScalar × PetscScalar :=
  (r.Enthnew3col, r.Tb3col, r.basalMeltRate, r.Hmelt)

/-- The work arrays have the sizes they are allocated with: `fMz` entries for `Enthnew`
and `iosys.Enth_s`, `fMbz` entries for `Tbnew`, `fMbz + fMz - 1` entries for `xcombined`. -/
def Sized (fg : FineGrid) (S : Scratch) : Prop :=
  S.Enthnew.length = fg.fMz.toNat ∧ S.Tbnew.length = fg.fMbz.toNat ∧
    S.Enth_s.length = fg.fMz.toNat ∧ S.xcombined.length = (fg.fMbz + fg.fMz - 1).toNat

instance (fg : FineGrid) (S : Scratch) : Decidable (Sized fg S) := by
  unfold Sized
  infer_instance

/-- The contract of the routines that fill a buffer handed to them: `solveThisColumn` of
the three column systems defines every entry of the solution buffer (its result does not
depend on what the buffer held before, and the buffer keeps its size), and `getAbsTemp`
always writes its result. -/
structure OverwritesBuffers (M : IceModel) : Prop where
  combined : ∀ c x y, x.length = y.length → M.sys.combinedSolve c x = M.sys.combinedSolve c y
  bedrock : ∀ c x y, x.length = y.length → M.sys.bedrockSolve c x = M.sys.bedrockSolve c y
  iceenth : ∀ c x y, x.length = y.length → M.sys.iceenthSolve c x = M.sys.iceenthSolve c y
  combined_length : ∀ c x, (M.sys.combinedSolve c x).2.length = x.length
  bedrock_length : ∀ c x, (M.sys.bedrockSolve c x).2.length = x.length
  iceenth_length : ∀ c x, (M.sys.iceenthSolve c x).2.length = x.length
  absTemp : ∀ E p a b, M.EC.getAbsTemp E p a = M.EC.getAbsTemp E p b

/-- Two results of the "major decision" agree in everything the rest of the loop body
uses: the array `Enthnew` (of `fMz` entries), the melt rate, and the array `Tbnew` (of
`fMbz` entries; when `fMbz == 1` its single entry is still to be filled); the arrays
`xcombined` have their allocated size. -/
def SolveRel (fg : FineGrid) (sr sr' : SolveResult) : Prop :=
  sr.Enthnew = sr'.Enthnew ∧ sr.Enthnew.length = fg.fMz.toNat ∧
    sr.basalMeltRate = sr'.basalMeltRate ∧
    sr.Tbnew.length = fg.fMbz.toNat ∧ sr'.Tbnew.length = fg.fMbz.toNat ∧
    (fg.fMbz ≠ 1 → sr.Tbnew = sr'.Tbnew) ∧
    sr.xcombined.length = (fg.fMbz + fg.fMz - 1).toNat ∧
    sr'.xcombined.length = (fg.fMbz + fg.fMz - 1).toNat

/-! ## The data of the ice-only system and of the drainage loop -/

/-- The content of `iosys.u` after line 586: the column of the horizontal velocity `u3` at
`(i,j)` on the fine grid. -/
def iosysU (M : IceModel) (fg : FineGrid) (i j : Int) : List PetscScalar :=
  (M.vec.getValColumn (M.u3 i j) fg.fMz fg.fzlev).2

/-- The content of `iosys.v` after line 587: the column of the horizontal velocity `v3` at
`(i,j)` on the fine grid. -/
def iosysV (M : IceModel) (fg : FineGrid) (i j : Int) : List PetscScalar :=
  (M.vec.getValColumn (M.v3 i j) fg.fMz fg.fzlev).2

/-- The content of `iosys.Sigma` after line 588: the strain heating column at `(i,j)` on
the fine grid. -/
def iosysSigma (M : IceModel) (fg : FineGrid) (i j : Int) : List PetscScalar :=
  (M.vec.getValColumn (M.Sigma3 i j) fg.fMz fg.fzlev).2

/-- The value of `isMarginal` for the column `(i,j)` (lines 469-471). -/
def isMarginalAt (M : IceModel) (i j : Int) : Bool :=
  M.checkThinNeigh
    (M.vH (i+1) j) (M.vH (i+1) (j+1)) (M.vH i (j+1)) (M.vH (i-1) (j+1))
    (M.vH (i-1) j) (M.vH (i-1) (j-1)) (M.vH i (j-1)) (M.vH (i+1) (j-1))

/-- The value that the call of `drainageToBaseModelEnth` at line 672 leaves in
`dHdrained` for the level `k` of the column `(i,j)`, when `Enthnew[k]` holds `E`. -/
def dHdrainedAt (M : IceModel) (fg : FineGrid) (i j : Int) (E : PetscScalar) (k : Nat) :
    PetscScalar :=
  (drainageToBaseModelEnth M.EC M.allowAboveMelting M.config.liquid_water_fraction_max
    (M.vH i j) (fg.fzlev.getD k 0) fg.fdz E 0).2.2

/-! ## Auxiliary facts -/

theorem getD_set_ne (l : List PetscScalar) (m k : Nat) (v : PetscScalar) (h : m ≠ k) :
    (l.set m v).getD k 0 = l.getD k 0 := by
  simp [List.getD_eq_getElem?_getD, List.getElem?_set_ne h]

theorem getD_set_self (l : List PetscScalar) (k : Nat) (v : PetscScalar) (h : k < l.length) :
    (l.set k v).getD k 0 = v := by
  simp [List.getD_eq_getElem?_getD, List.getElem?_set_self, h]

theorem PetscAbs_nonneg (a : PetscScalar) : 0 ≤ PetscAbs a := by
  unfold PetscAbs
  split
  · assumption
  · linarith

theorem lambdaRatio_nonneg (cfg : Config) (dzEQ wk : PetscScalar)
    (hk : 0 ≤ cfg.ice_thermal_conductivity)
    (hrc : 0 < cfg.ice_density * cfg.ice_specific_heat_capacity)
    (hdz : 0 < dzEQ) (hs : 0 < cfg.secpera) : 0 ≤ lambdaRatio cfg dzEQ wk := by
  unfold lambdaRatio
  have h1 : 0 < PetscAbs wk + (1 / 1000000) / cfg.secpera := by
    have := PetscAbs_nonneg wk
    have : 0 < (1 / 1000000 : PetscScalar) / cfg.secpera := by positivity
    linarith
  have h2 : 0 < (PetscAbs wk + (1 / 1000000) / cfg.secpera)
      * (cfg.ice_density * cfg.ice_specific_heat_capacity) * dzEQ := by positivity
  exact div_nonneg (by linarith) h2.le

/-! ## Facts about `getEnthalpyCTSColumn` -/

theorem ctsLoop_succ_snd (cfg : Config) (EC : EnthalpyConverter) (dzEQ : PetscScalar)
    (zlev : List PetscScalar) (thk : PetscScalar) (Enth w Enth_s : List PetscScalar) (n : Nat) :
    (ctsLoop cfg EC dzEQ zlev thk Enth w Enth_s (n + 1)).2 =
      (ctsLoop cfg EC dzEQ zlev thk Enth w Enth_s n).2.set n
        (EC.getEnthalpyCTS (EC.getPressureFromDepth (thk - zlev.getD n 0))) := by
  simp only [ctsLoop, ctsLevel]
  split <;> rfl

theorem ctsLoop_succ_fst (cfg : Config) (EC : EnthalpyConverter) (dzEQ : PetscScalar)
    (zlev : List PetscScalar) (thk : PetscScalar) (Enth w Enth_s : List PetscScalar) (n : Nat) :
    (ctsLoop cfg EC dzEQ zlev thk Enth w Enth_s (n + 1)).1 =
      if Enth.getD n 0 > (ctsLoop cfg EC dzEQ zlev thk Enth w Enth_s (n + 1)).2.getD n 0 then 0
      else PetscMin (ctsLoop cfg EC dzEQ zlev thk Enth w Enth_s n).1
        (lambdaRatio cfg dzEQ (w.getD n 0)) := by
  rw [ctsLoop_succ_snd]
  simp only [ctsLoop, ctsLevel]
  split <;> rfl

theorem ctsLoop_getD_stable (cfg : Config) (EC : EnthalpyConverter) (dzEQ : PetscScalar)
    (zlev : List PetscScalar) (thk : PetscScalar) (Enth w Enth_s : List PetscScalar)
    (k m : Nat) (h : k < m) :
    (ctsLoop cfg EC dzEQ zlev thk Enth w Enth_s m).2.getD k 0 =
      (ctsLoop cfg EC dzEQ zlev thk Enth w Enth_s (k + 1)).2.getD k 0 := by
  induction m with
  | zero => omega
  | succ m ih =>
    by_cases hk : k = m
    · subst hk; rfl
    · rw [ctsLoop_succ_snd, getD_set_ne _ _ _ _ (Ne.symm hk)]
      exact ih (by omega)

theorem fillFrom_getD (lo : Int) (v : PetscScalar) (l : List PetscScalar) (n k : Nat)
    (h : (k : Int) < lo) : (fillFrom lo v l n).getD k 0 = l.getD k 0 := by
  induction n with
  | zero => rfl
  | succ n ih =>
    simp only [fillFrom]
    rw [getD_set_ne _ _ _ _ (by omega)]
    exact ih

/-- The entry `k <= ks` of the returned `Enth_s` is the value that level `k` was
compared with in the loop. -/
theorem getEnthalpyCTSColumn_getD (cfg : Config) (EC : EnthalpyConverter)
    (Mz : Int) (dzEQ : PetscScalar) (zlev : List PetscScalar) (thk : PetscScalar) (ks : Int)
    (Enth w Enth_s : List PetscScalar) (k : Nat) (h : (k : Int) ≤ ks) :
    (getEnthalpyCTSColumn cfg EC Mz dzEQ zlev thk ks Enth w Enth_s).2.getD k 0 =
      (ctsLoop cfg EC dzEQ zlev thk Enth w Enth_s (k + 1)).2.getD k 0 := by
  simp only [getEnthalpyCTSColumn]
  rw [fillFrom_getD _ _ _ _ _ (by omega)]
  exact ctsLoop_getD_stable _ _ _ _ _ _ _ _ _ _ (by omega)

theorem ctsLoop_fst_eq_one (cfg : Config) (EC : EnthalpyConverter) (dzEQ : PetscScalar)
    (zlev : List PetscScalar) (thk : PetscScalar) (Enth w Enth_s : List PetscScalar) (n : Nat)
    (hcold : ∀ k, k < n →
      Enth.getD k 0 ≤ (ctsLoop cfg EC dzEQ zlev thk Enth w Enth_s (k + 1)).2.getD k 0)
    (hratio : ∀ k, k < n → 1 ≤ lambdaRatio cfg dzEQ (w.getD k 0)) :
    (ctsLoop cfg EC dzEQ zlev thk Enth w Enth_s n).1 = 1 := by
  induction n with
  | zero => rfl
  | succ n ih =>
    rw [ctsLoop_succ_fst, ih (fun k hk => hcold k (by omega)) (fun k hk => hratio k (by omega))]
    have h1 := hcold n (by omega)
    have h2 := hratio n (by omega)
    rw [if_neg (not_lt.mpr h1)]
    unfold PetscMin
    split
    · rfl
    · linarith

theorem ctsLoop_fst_bounds (cfg : Config) (EC : EnthalpyConverter) (dzEQ : PetscScalar)
    (zlev : List PetscScalar) (thk : PetscScalar) (Enth w Enth_s : List PetscScalar) (n : Nat)
    (hratio : ∀ wk, 0 ≤ lambdaRatio cfg dzEQ wk) :
    0 ≤ (ctsLoop cfg EC dzEQ zlev thk Enth w Enth_s n).1 ∧
      (ctsLoop cfg EC dzEQ zlev thk Enth w Enth_s n).1 ≤ 1 := by
  induction n with
  | zero => simp [ctsLoop]
  | succ n ih =>
    rw [ctsLoop_succ_fst]
    split
    · simp
    · have := hratio (w.getD n 0)
      unfold PetscMin
      split
      · exact ih
      · constructor <;> linarith [ih.1, ih.2]

theorem ctsLoop_fst_eq_zero (cfg : Config) (EC : EnthalpyConverter) (dzEQ : PetscScalar)
    (zlev : List PetscScalar) (thk : PetscScalar) (Enth w Enth_s : List PetscScalar) (n : Nat)
    (hratio : ∀ wk, 0 ≤ lambdaRatio cfg dzEQ wk)
    (k : Nat) (hk : k < n)
    (htemp : Enth.getD k 0 > (ctsLoop cfg EC dzEQ zlev thk Enth w Enth_s (k + 1)).2.getD k 0) :
    (ctsLoop cfg EC dzEQ zlev thk Enth w Enth_s n).1 = 0 := by
  induction n with
  | zero => omega
  | succ n ih =>
    rw [ctsLoop_succ_fst]
    split
    · rfl
    · rename_i hn
      have hkn : k < n := by
        rcases Nat.lt_succ_iff_lt_or_eq.mp hk with h | h
        · exact h
        · subst h; exact absurd htemp hn
      rw [ih hkn]
      have := hratio (w.getD n 0)
      unfold PetscMin
      split
      · rfl
      · linarith

/-! ## The drainage model -/

theorem drainageToBaseModelEnth_drain (EC : EnthalpyConverter)
    (omega_max thickness z dz enthalpy Hdrained : PetscScalar)
    (h : EC.getWaterFractionLimited enthalpy (EC.getPressureFromDepth (thickness - z))
      > omega_max) :
    drainageToBaseModelEnth EC false omega_max thickness z dz enthalpy Hdrained =
      ((EC.getEnthAtWaterFraction omega_max (EC.getPressureFromDepth (thickness - z))
          enthalpy).1,
        (EC.getEnthAtWaterFraction omega_max (EC.getPressureFromDepth (thickness - z))
          enthalpy).2,
        (EC.getWaterFractionLimited enthalpy (EC.getPressureFromDepth (thickness - z))
          - omega_max) * dz) := by
  simp only [drainageToBaseModelEnth, Bool.false_eq_true, if_false, if_pos h]

theorem drainageToBaseModelEnth_keep (EC : EnthalpyConverter)
    (omega_max thickness z dz enthalpy Hdrained : PetscScalar)
    (h : ¬ EC.getWaterFractionLimited enthalpy (EC.getPressureFromDepth (thickness - z))
      > omega_max) :
    drainageToBaseModelEnth EC false omega_max thickness z dz enthalpy Hdrained =
      (0, enthalpy, 0) := by
  simp only [drainageToBaseModelEnth, Bool.false_eq_true, if_false, if_neg h]

/-- C1: with `allowAboveMelting` unset (the function otherwise stops at once with error
code 1), for every `omega_max`, `thickness`, `z`, `dz`, `enthalpy` and every initial
content of `Hdrained`, the values that `drainageToBaseModelEnth` leaves in `enthalpy`
and `Hdrained` are those of the reference definition `drainExcessLiquid`: with
`p = getPressureFromDepth(thickness - z)` and `omega = getWaterFractionLimited(enthalpy, p)`,
if `omega > omega_max` the enthalpy is what `getEnthAtWaterFraction(omega_max, p, .)` puts
there and `Hdrained = (omega - omega_max) * dz`, otherwise the enthalpy is unchanged and
`Hdrained = 0`; the returned error code is that of `getEnthAtWaterFraction` in the first
case and `0` in the second. -/
theorem drainageToBaseModelEnth_eq_drainExcessLiquid (EC : EnthalpyConverter)
    (omega_max thickness z dz enthalpy Hdrained : PetscScalar) :
    (drainageToBaseModelEnth EC false omega_max thickness z dz enthalpy Hdrained).2 =
        drainExcessLiquid EC omega_max thickness z dz enthalpy ∧
      (drainageToBaseModelEnth EC false omega_max thickness z dz enthalpy Hdrained).1 =
        (if EC.getWaterFractionLimited enthalpy (EC.getPressureFromDepth (thickness - z))
            > omega_max
         then (EC.getEnthAtWaterFraction omega_max (EC.getPressureFromDepth (thickness - z))
            enthalpy).1
         else 0) := by
  by_cases h : EC.getWaterFractionLimited enthalpy (EC.getPressureFromDepth (thickness - z))
      > omega_max
  · rw [drainageToBaseModelEnth_drain _ _ _ _ _ _ _ h]
    simp only [drainExcessLiquid, if_pos h, and_self]
  · rw [drainageToBaseModelEnth_keep _ _ _ _ _ _ _ h]
    simp only [drainExcessLiquid, if_neg h, and_self]

/-- C2, counterexample: with a negative level thickness `dz = -1` and a liquid fraction
`1/2` above `omega_max = 1/100` the drained thickness returned is `-49/100 < 0`. -/
theorem drainage_negative_for_negative_dz :
    (drainageToBaseModelEnth sampleEC false (1 / 100) 10 0 (-1) (949 / 5) 0).2.2 = -(49 / 100) ∧
      (drainageToBaseModelEnth sampleEC false (1 / 100) 10 0 (-1) (949 / 5) 0).2.2 < 0 := by
  norm_num [drainageToBaseModelEnth, sampleEC]

/-- C2, amended: for every call of `drainageToBaseModelEnth` that runs (`allowAboveMelting`
unset) with a level thickness `dz >= 0`, whatever `omega_max`, `thickness`, `z` and
`enthalpy` are, the returned drained water thickness is `>= 0`. -/
theorem drainage_nonneg_of_dz_nonneg (EC : EnthalpyConverter)
    (omega_max thickness z dz enthalpy Hdrained : PetscScalar) (hdz : 0 ≤ dz) :
    0 ≤ (drainageToBaseModelEnth EC false omega_max thickness z dz enthalpy Hdrained).2.2 := by
  by_cases h : EC.getWaterFractionLimited enthalpy (EC.getPressureFromDepth (thickness - z))
      > omega_max
  · rw [drainageToBaseModelEnth_drain _ _ _ _ _ _ _ h]
    exact mul_nonneg (by linarith) hdz
  · rw [drainageToBaseModelEnth_keep _ _ _ _ _ _ _ h]

/-- Witness for `drainage_nonneg_of_dz_nonneg`: level thickness `10`. -/
theorem drainage_nonneg_of_dz_nonneg_witness :
    (0 : PetscScalar) ≤ 10 ∧
      0 ≤ (drainageToBaseModelEnth sampleEC false (1 / 100) 10 0 10 (949 / 5) 0).2.2 :=
  ⟨by norm_num, drainage_nonneg_of_dz_nonneg sampleEC (1 / 100) 10 0 10 (949 / 5) 0 (by norm_num)⟩

theorem drainLevel_ok (M : IceModel) (fg : FineGrid) (i j : Int) (st s : DrainState) (k : Nat)
    (h : drainLevel M fg i j st k = .ok s) :
    (drainageToBaseModelEnth M.EC M.allowAboveMelting M.config.liquid_water_fraction_max
        (M.vH i j) (fg.fzlev.getD k 0) fg.fdz (st.Enthnew.getD k 0) 0).1 = 0 ∧
      s.Enthnew = st.Enthnew.set k
        (drainageToBaseModelEnth M.EC M.allowAboveMelting M.config.liquid_water_fraction_max
          (M.vH i j) (fg.fzlev.getD k 0) fg.fdz (st.Enthnew.getD k 0) 0).2.1 ∧
      s.Hdrainedtotal = st.Hdrainedtotal +
        (drainageToBaseModelEnth M.EC M.allowAboveMelting M.config.liquid_water_fraction_max
          (M.vH i j) (fg.fzlev.getD k 0) fg.fdz (st.Enthnew.getD k 0) 0).2.2 := by
  simp only [drainLevel] at h
  split at h
  · rename_i h0
    injection h with h
    subst h
    exact ⟨h0, rfl, rfl⟩
  · exact absurd h (by simp)

theorem drainLoop_succ_ok (M : IceModel) (fg : FineGrid) (i j : Int) (st ds : DrainState)
    (n : Nat) (h : drainLoop M fg i j st (n + 1) = .ok ds) :
    ∃ s, drainLoop M fg i j st n = .ok s ∧ drainLevel M fg i j s n = .ok ds := by
  simp only [drainLoop] at h
  split at h
  · exact absurd h (by simp)
  · rename_i s hs
    exact ⟨s, hs, h⟩

/-- C7, counterexample: a column whose levels `0..ks` are all strictly below their CTS
enthalpy (`130 < 1397/10` and `130 < 1399/10`) but whose basal vertical velocity is
`-1`: advection dominates at level `0` and `getEnthalpyCTSColumn` returns
`lambda < 1`. -/
theorem cold_column_with_advection_lambda_lt_one :
    (getEnthalpyCTSColumn sampleConfig sampleEC 3 10 [0, 10, 20] 15 1
        [130, 130, 120] [-1, 0, 0] [0, 0, 0]).2 = [1397 / 10, 1399 / 10, 140] ∧
      (getEnthalpyCTSColumn sampleConfig sampleEC 3 10 [0, 10, 20] 15 1
        [130, 130, 120] [-1, 0, 0] [0, 0, 0]).1 < 1 := by
  decide!

/-- C7, amended: if every level `0..ks` has enthalpy strictly below its CTS enthalpy
(`Enth[k] < Enth_s[k]` for the returned `Enth_s`) and at every level `0..ks` advection
does not dominate diffusion (the quotient `2 k / ((|w[k]| + 1e-6/secpera) rho c dz)` is
at least `1`), then `getEnthalpyCTSColumn` returns `lambda = 1`. -/
theorem lambda_eq_one_of_cold_and_diffusive (cfg : Config) (EC : EnthalpyConverter)
    (Mz : Int) (dzEQ : PetscScalar) (zlev : List PetscScalar) (thk : PetscScalar) (ks : Int)
    (Enth w Enth_s : List PetscScalar)
    (hcold : ∀ k : Nat, (k : Int) ≤ ks →
      Enth.getD k 0 <
        (getEnthalpyCTSColumn cfg EC Mz dzEQ zlev thk ks Enth w Enth_s).2.getD k 0)
    (hdiff : ∀ k : Nat, (k : Int) ≤ ks → 1 ≤ lambdaRatio cfg dzEQ (w.getD k 0)) :
    (getEnthalpyCTSColumn cfg EC Mz dzEQ zlev thk ks Enth w Enth_s).1 = 1 := by
  have h : (getEnthalpyCTSColumn cfg EC Mz dzEQ zlev thk ks Enth w Enth_s).1 =
      (ctsLoop cfg EC dzEQ zlev thk Enth w Enth_s (ks + 1).toNat).1 := rfl
  rw [h]
  apply ctsLoop_fst_eq_one
  · intro k hk
    have hk2 : (k : Int) ≤ ks := by omega
    rw [← getEnthalpyCTSColumn_getD cfg EC Mz dzEQ zlev thk ks Enth w Enth_s k hk2]
    exact (hcold k hk2).le
  · intro k hk
    exact hdiff k (by omega)

/-- Witness for `lambda_eq_one_of_cold_and_diffusive`: a cold column at rest. -/
theorem lambda_eq_one_of_cold_and_diffusive_witness :
    (getEnthalpyCTSColumn sampleConfig sampleEC 3 10 [0, 10, 20] 15 1
        [130, 130, 120] [0, 0, 0] [0, 0, 0]).1 = 1 :=
  lambda_eq_one_of_cold_and_diffusive sampleConfig sampleEC 3 10 [0, 10, 20] 15 1
    [130, 130, 120] [0, 0, 0] [0, 0, 0]
    (by
      intro k hk
      have hk1 : k ≤ 1 := by omega
      interval_cases k <;> decide!)
    (by
      intro k hk
      have hk1 : k ≤ 1 := by omega
      interval_cases k <;> decide!)

/-- C8, counterexample: a column at rest whose basal enthalpy equals its CTS enthalpy
(`Enth[0] = Enth_s[0] = 1397/10`, so level `0` is "at or above" CTS): the returned
`lambda` is `1`, not `0`. -/
theorem lambda_eq_one_at_cts_enthalpy :
    (getEnthalpyCTSColumn sampleConfig sampleEC 3 10 [0, 10, 20] 15 1
        [1397 / 10, 130, 120] [0, 0, 0] [0, 0, 0]).2.getD 0 0 = 1397 / 10 ∧
      (getEnthalpyCTSColumn sampleConfig sampleEC 3 10 [0, 10, 20] 15 1
        [1397 / 10, 130, 120] [0, 0, 0] [0, 0, 0]).1 = 1 := by
  decide!

/-- C8, amended: if some level in `0..ks` has enthalpy strictly above its CTS enthalpy
(`Enth[k] > Enth_s[k]`), then `getEnthalpyCTSColumn` returns `lambda = 0` (conductivity
`>= 0`, density times heat capacity, level spacing and `secpera` `> 0`). -/
theorem lambda_eq_zero_of_temperate (cfg : Config) (EC : EnthalpyConverter)
    (Mz : Int) (dzEQ : PetscScalar) (zlev : List PetscScalar) (thk : PetscScalar) (ks : Int)
    (Enth w Enth_s : List PetscScalar)
    (hk : 0 ≤ cfg.ice_thermal_conductivity)
    (hrc : 0 < cfg.ice_density * cfg.ice_specific_heat_capacity)
    (hdz : 0 < dzEQ) (hs : 0 < cfg.secpera)
    (k : Nat) (hks : (k : Int) ≤ ks)
    (htemp : Enth.getD k 0 >
      (getEnthalpyCTSColumn cfg EC Mz dzEQ zlev thk ks Enth w Enth_s).2.getD k 0) :
    (getEnthalpyCTSColumn cfg EC Mz dzEQ zlev thk ks Enth w Enth_s).1 = 0 := by
  have h : (getEnthalpyCTSColumn cfg EC Mz dzEQ zlev thk ks Enth w Enth_s).1 =
      (ctsLoop cfg EC dzEQ zlev thk Enth w Enth_s (ks + 1).toNat).1 := rfl
  rw [h]
  rw [getEnthalpyCTSColumn_getD cfg EC Mz dzEQ zlev thk ks Enth w Enth_s k hks] at htemp
  exact ctsLoop_fst_eq_zero cfg EC dzEQ zlev thk Enth w Enth_s _
    (fun wk => lambdaRatio_nonneg cfg dzEQ wk hk hrc hdz hs) k (by omega) htemp

/-- Witness for `lambda_eq_zero_of_temperate`: the basal level is temperate. -/
theorem lambda_eq_zero_of_temperate_witness :
    (getEnthalpyCTSColumn sampleConfig sampleEC 3 10 [0, 10, 20] 15 1
        [150, 130, 120] [0, 0, 0] [0, 0, 0]).1 = 0 :=
  lambda_eq_zero_of_temperate sampleConfig sampleEC 3 10 [0, 10, 20] 15 1
    [150, 130, 120] [0, 0, 0] [0, 0, 0]
    (by decide!) (by decide!) (by decide!) (by decide!) 0 (by decide) (by decide!)

/-- C9: for every column (every `Mz`, level heights, thickness, `ks`, enthalpy and
velocity column and every initial content of the output buffer) the stability parameter
`lambda` returned by `getEnthalpyCTSColumn` lies in `[0, 1]`, for physical constants:
conductivity `>= 0`, density times heat capacity `> 0`, level spacing `dzEQ > 0` and
`secpera > 0`. -/
theorem lambda_mem_unit_interval (cfg : Config) (EC : EnthalpyConverter)
    (Mz : Int) (dzEQ : PetscScalar) (zlev : List PetscScalar) (thk : PetscScalar) (ks : Int)
    (Enth w Enth_s : List PetscScalar)
    (hk : 0 ≤ cfg.ice_thermal_conductivity)
    (hrc : 0 < cfg.ice_density * cfg.ice_specific_heat_capacity)
    (hdz : 0 < dzEQ) (hs : 0 < cfg.secpera) :
    0 ≤ (getEnthalpyCTSColumn cfg EC Mz dzEQ zlev thk ks Enth w Enth_s).1 ∧
      (getEnthalpyCTSColumn cfg EC Mz dzEQ zlev thk ks Enth w Enth_s).1 ≤ 1 :=
  ctsLoop_fst_bounds cfg EC dzEQ zlev thk Enth w Enth_s _
    (fun wk => lambdaRatio_nonneg cfg dzEQ wk hk hrc hdz hs)

/-- Witness for `lambda_mem_unit_interval`: a cold column with basal velocity `-1`. -/
theorem lambda_mem_unit_interval_witness :
    0 ≤ (getEnthalpyCTSColumn sampleConfig sampleEC 3 10 [0, 10, 20] 15 1
        [130, 130, 120] [-1, 0, 0] [0, 0, 0]).1 ∧
      (getEnthalpyCTSColumn sampleConfig sampleEC 3 10 [0, 10, 20] 15 1
        [130, 130, 120] [-1, 0, 0] [0, 0, 0]).1 ≤ 1 :=
  lambda_mem_unit_interval sampleConfig sampleEC 3 10 [0, 10, 20] 15 1
    [130, 130, 120] [-1, 0, 0] [0, 0, 0]
    (by decide!) (by decide!) (by decide!) (by decide!)

/-! ## Unfolding the column loop body -/

theorem bind_eq_ok {α β : Type} (x : Except PetscErrorCode α)
    (f : α → Except PetscErrorCode β) (b : β) :
    (x >>= f) = .ok b ↔ ∃ a, x = .ok a ∧ f a = .ok b := by
  cases x with
  | error e => simp [bind, Except.bind]
  | ok a => simp [bind, Except.bind]

theorem pure_eq_ok {α : Type} (a b : α) :
    (pure a : Except PetscErrorCode α) = .ok b ↔ a = b := by
  simp [pure, Except.pure]

theorem CHK_eq_ok {α : Type} (r : PetscErrorCode × α) (a : α) :
    CHK r = .ok a ↔ r.1 = 0 ∧ r.2 = a := by
  unfold CHK
  split <;> simp_all

/-- What a successful pass of the loop body has computed. -/
theorem columnStep_ok (M : IceModel) (fg : FineGrid) (cp : Couplers) (F : StepFields)
    (S : Scratch) (v : PetscScalar) (l : Int) (i j : Int) (r : ColumnResult)
    (h : columnStep M fg cp F S v l i j = .ok r) :
    ∃ isMarginal Enth_ks sr ds,
      majorDecision M fg cp F S l i j ⌊M.vH i j / fg.fdz⌋ isMarginal (columnCTS M fg S.Enth_s i j).1
          Enth_ks (M.EC.getPressureFromDepth (M.vH i j)) (iosysEnth M fg i j)
          (columnCTS M fg S.Enth_s i j).2 (iosysW M fg i j) = .ok sr ∧
        drainLoop M fg i j
          { Enthnew := sr.Enthnew, Hdrainedtotal := 0, liquifiedCount := sr.liquifiedCount }
          ⌊M.vH i j / fg.fdz⌋.toNat = .ok ds ∧
        r.meltRateBeforeDrainage = sr.basalMeltRate ∧
        r.Hdrainedtotal = ds.Hdrainedtotal ∧
        r.basalMeltRate =
          (if M.is_floating i j = false then sr.basalMeltRate + ds.Hdrainedtotal / M.dtTempAge
           else sr.basalMeltRate) ∧
        r.Hmeltnew =
          (if M.is_floating i j = false then
            F.vHmelt i j + sr.basalMeltRate * M.dtTempAge + ds.Hdrainedtotal
           else F.vHmelt i j) ∧
        r.Hmelt = finalizeHmelt M i j ⌊M.vH i j / fg.fdz⌋ (F.vHmelt i j) r.Hmeltnew ∧
        r.calls = sr.calls ∧
        r.ks = ⌊M.vH i j / fg.fdz⌋ ∧
        r.lambda = (columnCTS M fg S.Enth_s i j).1 ∧
        r.scratch.Enth_s = (columnCTS M fg S.Enth_s i j).2 := by
  simp only [columnStep, bind_eq_ok, pure_eq_ok, CHK_eq_ok] at h
  obtain ⟨_, _, Enth_ks, _, Enth, ⟨_, h3⟩, w, ⟨_, h4⟩, sr, h5, ds, h6, _, _, _, _, _, _, hr⟩ := h
  subst hr
  have hE : Enth = iosysEnth M fg i j := h3.symm
  have hw : w = iosysW M fg i j := h4.symm
  subst hE hw
  refine ⟨_, Enth_ks, sr, ds, h5, h6, rfl, rfl, rfl, ?_, ?_, rfl, rfl, rfl, rfl⟩
  · cases M.is_floating i j <;> simp
  · cases M.is_floating i j <;> simp

theorem exists_ok_of_toBool {α : Type} (x : Except PetscErrorCode α)
    (h : x.toBool = true) : ∃ r, x = .ok r := by
  cases x with
  | error e => simp [Except.toBool] at h
  | ok r => exact ⟨r, rfl⟩

theorem coldGroundedWithBedrock_eq_true (M : IceModel) (fg : FineGrid) (i j : Int)
    (Enth Enth_s : List PetscScalar) :
    coldGroundedWithBedrock M fg i j Enth Enth_s = true ↔
      (Enth.getD 0 0 < Enth_s.getD 0 0 ∧ M.is_floating i j = false ∧ fg.fMbz > 1) := by
  unfold coldGroundedWithBedrock
  cases M.is_floating i j <;> simp

theorem combinedCase_ok (M : IceModel) (fg : FineGrid) (F : StepFields) (S : Scratch)
    (l : Int) (i j : Int) (ks : Int) (isMarginal : Bool)
    (lambda Enth_ks p_basal : PetscScalar) (Enth Enth_s w : List PetscScalar) (sr : SolveResult)
    (h : combinedCase M fg F S l i j ks isMarginal lambda Enth_ks p_basal Enth Enth_s w = .ok sr) :
    sr.basalMeltRate = 0 ∧ sr.calls.map SystemCall.kind = [SystemKind.combined] := by
  simp only [combinedCase, bind_eq_ok, CHK_eq_ok] at h
  obtain ⟨u, _, v, _, Sigma, _, Tb, _, x, _, h⟩ := h
  split at h
  · simp only [pure_eq_ok] at h
    subst h
    exact ⟨rfl, rfl⟩
  · exact absurd h (by simp [throw, throwThe, MonadExceptOf.throw])

theorem bedrockOnlySolve_ok (M : IceModel) (fg : FineGrid) (cp : Couplers) (F : StepFields)
    (S : Scratch) (i j : Int) (p_basal : PetscScalar)
    (b : PetscScalar × List PetscScalar × List SystemCall)
    (h : bedrockOnlySolve M fg cp F S i j p_basal = .ok b) :
    b.2.2.map SystemCall.kind = (if fg.fMbz > 1 then [SystemKind.bedrockOnly] else []) ∧
      (¬ fg.fMbz > 1 → b.1 = M.vGhf i j) ∧
      (fg.fMbz > 1 → b.1 = M.sys.extractHeatFluxFromSoln b.2.1) := by
  unfold bedrockOnlySolve at h
  split at h
  · rename_i hb
    simp only [bind_eq_ok, CHK_eq_ok, pure_eq_ok] at h
    obtain ⟨Tb, _, Tbnew, _, h⟩ := h
    subst h
    simp [hb, SystemCall.kind]
  · rename_i hb
    simp only [pure_eq_ok] at h
    subst h
    simp [hb]

theorem lowestLevelEqn_snd (M : IceModel) (fdz : PetscScalar) (i j : Int) (isMarginal : Bool)
    (hf_base : PetscScalar) (Enth Enth_s w u v Sigma : List PetscScalar)
    (basalMeltRate : PetscScalar) :
    (lowestLevelEqn M fdz i j isMarginal hf_base Enth Enth_s w u v Sigma basalMeltRate).2 =
      if Enth.getD 0 0 < Enth_s.getD 0 0 then basalMeltRate
      else basalMeltRate * (1 - warmBaseAlpha M.config (Enth.getD 0 0) (Enth_s.getD 0 0)) := by
  unfold lowestLevelEqn
  split <;> rfl

theorem otherCases_ok (M : IceModel) (fg : FineGrid) (cp : Couplers) (F : StepFields)
    (S : Scratch) (l : Int) (i j : Int) (ks : Int) (isMarginal : Bool)
    (lambda Enth_ks p_basal : PetscScalar) (Enth Enth_s w : List PetscScalar) (sr : SolveResult)
    (h : otherCases M fg cp F S l i j ks isMarginal lambda Enth_ks p_basal Enth Enth_s w
      = .ok sr) :
    ∃ b, bedrockOnlySolve M fg cp F S i j p_basal = .ok b ∧
      sr.basalMeltRate =
        (if Enth.getD 0 0 < Enth_s.getD 0 0 then
          meltRateAtBase M cp.shelfbmassflux i j b.1 Enth Enth_s
         else meltRateAtBase M cp.shelfbmassflux i j b.1 Enth Enth_s *
          (1 - warmBaseAlpha M.config (Enth.getD 0 0) (Enth_s.getD 0 0))) ∧
      sr.calls.map SystemCall.kind =
        (if fg.fMbz > 1 then [SystemKind.bedrockOnly] else []) ++ [SystemKind.iceenthOnly] := by
  simp only [otherCases, bind_eq_ok, CHK_eq_ok, pure_eq_ok] at h
  obtain ⟨b, hb, u, _, v, _, Sigma, _, Enthnew, _, h⟩ := h
  subst h
  refine ⟨b, hb, ?_, ?_⟩
  · exact lowestLevelEqn_snd _ _ _ _ _ _ _ _ _ _ _ _ _
  · simp only [List.map_append, (bedrockOnlySolve_ok M fg cp F S i j p_basal b hb).1]
    rfl

/-! ## Error codes are non-zero -/

theorem ErrorsNonzero_bind {α β : Type} (x : Except PetscErrorCode α)
    (f : α → Except PetscErrorCode β) (hx : ErrorsNonzero x) (hf : ∀ a, ErrorsNonzero (f a)) :
    ErrorsNonzero (x >>= f) := by
  intro e h
  cases x with
  | error e' =>
    simp only [bind, Except.bind] at h
    injection h with h
    subst h
    exact hx _ rfl
  | ok a =>
    simp only [bind, Except.bind] at h
    exact hf a e h

theorem ErrorsNonzero_pure {α : Type} (a : α) :
    ErrorsNonzero (pure a : Except PetscErrorCode α) := by
  intro e h
  simp [pure, Except.pure] at h

theorem ErrorsNonzero_CHK {α : Type} (r : PetscErrorCode × α) : ErrorsNonzero (CHK r) := by
  intro e h
  unfold CHK at h
  split at h
  · simp at h
  · injection h with h
    subst h
    assumption

theorem combinedCase_errors (M : IceModel) (fg : FineGrid) (F : StepFields) (S : Scratch)
    (l : Int) (i j : Int) (ks : Int) (isMarginal : Bool)
    (lambda Enth_ks p_basal : PetscScalar) (Enth Enth_s w : List PetscScalar) :
    ErrorsNonzero
      (combinedCase M fg F S l i j ks isMarginal lambda Enth_ks p_basal Enth Enth_s w) := by
  unfold combinedCase
  refine ErrorsNonzero_bind _ _ (ErrorsNonzero_CHK _) fun _ => ?_
  refine ErrorsNonzero_bind _ _ (ErrorsNonzero_CHK _) fun _ => ?_
  refine ErrorsNonzero_bind _ _ (ErrorsNonzero_CHK _) fun _ => ?_
  refine ErrorsNonzero_bind _ _ (ErrorsNonzero_CHK _) fun _ => ?_
  refine ErrorsNonzero_bind _ _ (ErrorsNonzero_CHK _) fun x => ?_
  intro e h
  dsimp only at h
  split at h
  · simp [pure, Except.pure] at h
  · rename_i hne
    simp only [throw, throwThe, MonadExceptOf.throw] at h
    injection h with h
    subst h
    intro h0
    exact hne (Or.inr h0)

theorem bedrockOnlySolve_errors (M : IceModel) (fg : FineGrid) (cp : Couplers)
    (F : StepFields) (S : Scratch) (i j : Int) (p_basal : PetscScalar) :
    ErrorsNonzero (bedrockOnlySolve M fg cp F S i j p_basal) := by
  unfold bedrockOnlySolve
  split
  · refine ErrorsNonzero_bind _ _ (ErrorsNonzero_CHK _) fun _ => ?_
    refine ErrorsNonzero_bind _ _ (ErrorsNonzero_CHK _) fun _ => ?_
    exact ErrorsNonzero_pure _
  · exact ErrorsNonzero_pure _

theorem otherCases_errors (M : IceModel) (fg : FineGrid) (cp : Couplers) (F : StepFields)
    (S : Scratch) (l : Int) (i j : Int) (ks : Int) (isMarginal : Bool)
    (lambda Enth_ks p_basal : PetscScalar) (Enth Enth_s w : List PetscScalar) :
    ErrorsNonzero
      (otherCases M fg cp F S l i j ks isMarginal lambda Enth_ks p_basal Enth Enth_s w) := by
  unfold otherCases
  refine ErrorsNonzero_bind _ _ (bedrockOnlySolve_errors _ _ _ _ _ _ _ _) fun _ => ?_
  refine ErrorsNonzero_bind _ _ (ErrorsNonzero_CHK _) fun _ => ?_
  refine ErrorsNonzero_bind _ _ (ErrorsNonzero_CHK _) fun _ => ?_
  refine ErrorsNonzero_bind _ _ (ErrorsNonzero_CHK _) fun _ => ?_
  refine ErrorsNonzero_bind _ _ (ErrorsNonzero_CHK _) fun _ => ?_
  exact ErrorsNonzero_pure _

theorem majorDecision_errors (M : IceModel) (fg : FineGrid) (cp : Couplers) (F : StepFields)
    (S : Scratch) (l : Int) (i j : Int) (ks : Int) (isMarginal : Bool)
    (lambda Enth_ks p_basal : PetscScalar) (Enth Enth_s w : List PetscScalar) :
    ErrorsNonzero
      (majorDecision M fg cp F S l i j ks isMarginal lambda Enth_ks p_basal Enth Enth_s w) := by
  unfold majorDecision
  split
  · exact combinedCase_errors _ _ _ _ _ _ _ _ _ _ _ _ _ _ _
  · exact otherCases_errors _ _ _ _ _ _ _ _ _ _ _ _ _ _ _ _

theorem drainLoop_errors (M : IceModel) (fg : FineGrid) (i j : Int) (st : DrainState)
    (n : Nat) : ErrorsNonzero (drainLoop M fg i j st n) := by
  induction n with
  | zero =>
    intro e h
    simp [drainLoop] at h
  | succ n ih =>
    intro e h
    simp only [drainLoop] at h
    split at h
    · rename_i e' he
      injection h with h
      subst h
      exact ih _ he
    · rename_i s hs
      simp only [drainLevel] at h
      split at h
      · simp at h
      · injection h with h
        subst h
        assumption

theorem fillTbnew_errors (M : IceModel) (fg : FineGrid) (cp : Couplers) (i j : Int)
    (Enthnew Tbnew : List PetscScalar) :
    ErrorsNonzero (fillTbnew M fg cp i j Enthnew Tbnew) := by
  unfold fillTbnew
  split
  · split
    · exact ErrorsNonzero_pure _
    · refine ErrorsNonzero_bind _ _ (ErrorsNonzero_CHK _) fun _ => ?_
      exact ErrorsNonzero_pure _
  · exact ErrorsNonzero_pure _

/-- The loop body never fails with error code `0`. -/
theorem columnStep_errors (M : IceModel) (fg : FineGrid) (cp : Couplers) (F : StepFields)
    (S : Scratch) (v : PetscScalar) (l : Int) (i j : Int) :
    ErrorsNonzero (columnStep M fg cp F S v l i j) := by
  unfold columnStep
  refine ErrorsNonzero_bind _ _ (ErrorsNonzero_CHK _) fun _ => ?_
  refine ErrorsNonzero_bind _ _ (ErrorsNonzero_CHK _) fun _ => ?_
  refine ErrorsNonzero_bind _ _ (ErrorsNonzero_CHK _) fun _ => ?_
  refine ErrorsNonzero_bind _ _ (ErrorsNonzero_CHK _) fun _ => ?_
  refine ErrorsNonzero_bind _ _ (majorDecision_errors _ _ _ _ _ _ _ _ _ _ _ _ _ _ _ _) fun _ => ?_
  refine ErrorsNonzero_bind _ _ (drainLoop_errors _ _ _ _ _ _) fun _ => ?_
  refine ErrorsNonzero_bind _ _ (ErrorsNonzero_CHK _) fun _ => ?_
  refine ErrorsNonzero_bind _ _ (fillTbnew_errors _ _ _ _ _ _ _) fun _ => ?_
  refine ErrorsNonzero_bind _ _ (ErrorsNonzero_CHK _) fun _ => ?_
  exact ErrorsNonzero_pure _

/-! ## The column loop and the step -/

theorem mem_ownedColumns (M : IceModel) (i j : Int) :
    (i, j) ∈ ownedColumns M ↔ owned M i j := by
  simp only [ownedColumns, owned, List.mem_flatMap, List.mem_map, List.mem_range,
    Prod.mk.injEq]
  constructor
  · rintro ⟨a, ha, b, hb, rfl, rfl⟩
    omega
  · rintro ⟨h1, h2, h3, h4⟩
    exact ⟨(i - M.xs).toNat, by omega, (j - M.ys).toNat, by omega, by omega, by omega⟩

/-- A property of the value that the loop body writes to `vHmelt(i,j)` holds, after a
loop without error, at every grid point of the loop. -/
theorem columnLoop_vHmelt (M : IceModel) (fg : FineGrid) (cp : Couplers)
    (P : PetscScalar → Prop)
    (hP : ∀ F S v l i j r, columnStep M fg cp F S v l i j = .ok r → P r.Hmelt)
    (cols : List (Int × Int)) :
    ∀ (st st' : LoopState) (D : Int → Int → Prop),
      (∀ a b, D a b → P (st.fields.vHmelt a b)) →
      columnLoop M fg cp cols st = (0, st') →
      ∀ a b, (D a b ∨ (a, b) ∈ cols) → P (st'.fields.vHmelt a b) := by
  induction cols with
  | nil =>
    intro st st' D hD h a b hab
    simp only [columnLoop, Prod.mk.injEq, true_and] at h
    subst h
    rcases hab with hab | hab
    · exact hD a b hab
    · simp at hab
  | cons p rest ih =>
    intro st st' D hD h a b hab
    obtain ⟨i, j⟩ := p
    simp only [columnLoop] at h
    split at h
    · rename_i e he
      simp only [Prod.mk.injEq] at h
      exact absurd h.1 (columnStep_errors _ _ _ _ _ _ _ _ _ e he)
    · rename_i r hr
      refine ih (st.store i j r) st' (fun a b => D a b ∨ (a, b) = (i, j)) ?_ h a b ?_
      · intro a b hab
        simp only [LoopState.store, IceModelVec2.write]
        split
        · exact hP _ _ _ _ _ _ _ hr
        · rename_i hne
          rcases hab with hab | hab
          · exact hD a b hab
          · simp only [Prod.mk.injEq] at hab
            exact absurd hab hne
      · rcases hab with hab | hab
        · exact Or.inl (Or.inl hab)
        · rcases List.mem_cons.mp hab with hab | hab
          · exact Or.inl (Or.inr hab)
          · exact Or.inr hab

/-- What a step that returns `0` has done: all checks before the loop passed and the
column loop ran over all owned grid points without error. -/
theorem enthalpyAndDrainageStep_ok (M : IceModel) (F : StepFields) (S : Scratch)
    (v lv : PetscScalar) (h : (enthalpyAndDrainageStep M F S v lv).ierr = 0) :
    ∃ artm massflux temp st',
      M.surface = some (0, artm) ∧ M.ocean = some ((0, massflux), (0, temp)) ∧
      M.doColdIceMethods = false ∧ M.get_fine_vertical_grid.1 = 0 ∧
      M.get_fine_vertical_grid.2.fMbz ≠ 2 ∧
      columnLoop M M.get_fine_vertical_grid.2
        { artm := artm, shelfbmassflux := massflux, shelfbtemp := temp } (ownedColumns M)
        { fields := F, scratch := S, vertSacrCount := v, liquifiedCount := 0 } = (0, st') ∧
      (enthalpyAndDrainageStep M F S v lv).fields = st'.fields ∧
      (enthalpyAndDrainageStep M F S v lv).vertSacrCount = st'.vertSacrCount ∧
      (enthalpyAndDrainageStep M F S v lv).liquifiedVol =
        (st'.liquifiedCount : PetscScalar) * M.get_fine_vertical_grid.2.fdz * M.dx * M.dy := by
  unfold enthalpyAndDrainageStep at h
  by_cases h1 : M.doColdIceMethods = true
  · simp [h1] at h
  by_cases h2 : M.get_fine_vertical_grid.1 = 0
  swap
  · simp [h1, h2] at h
  by_cases h3 : M.get_fine_vertical_grid.2.fMbz = 2
  · simp [h1, h2, h3] at h
  by_cases h4 : M.sys.initAllColumns = 0
  swap
  · simp [h1, h2, h3, h4] at h
  cases hs : M.surface with
  | none => simp [h1, h2, h3, h4, hs] at h
  | some artm =>
    obtain ⟨ea, artm⟩ := artm
    by_cases h5 : ea = 0
    swap
    · simp [h1, h2, h3, h4, hs, h5] at h
    cases ho : M.ocean with
    | none => simp [h1, h2, h3, h4, hs, h5, ho] at h
    | some oc =>
      obtain ⟨⟨em, massflux⟩, ⟨et, temp⟩⟩ := oc
      by_cases h6 : em = 0
      swap
      · simp [h1, h2, h3, h4, hs, h5, ho, h6] at h
      by_cases h7 : et = 0
      swap
      · simp [h1, h2, h3, h4, hs, h5, ho, h6, h7] at h
      subst h5 h6 h7
      by_cases h8 : (columnLoop M M.get_fine_vertical_grid.2
          { artm := artm, shelfbmassflux := massflux, shelfbtemp := temp } (ownedColumns M)
          { fields := F, scratch := S, vertSacrCount := v, liquifiedCount := 0 }).1 = 0
      swap
      · simp [h1, h2, h3, h4, hs, ho, h8] at h
      refine ⟨artm, massflux, temp, _, rfl, rfl, by simpa using h1, h2, h3,
        Prod.ext h8 rfl, ?_, ?_, ?_⟩ <;>
      · unfold enthalpyAndDrainageStep
        simp [h1, h2, h3, h4, hs, ho, h8]

/-! ## Basal melt rate and choice of the column system -/

/-- C4, counterexample: a floating column whose basal enthalpy equals the CTS enthalpy
(`Enth[0] = Enth_s[0] = 1397/10`, warm base at the start of the blend window, `alpha = 1`).
The ocean supplies the mass flux `5`, the step succeeds, and the basal melt rate it writes
is `0`. -/
theorem floating_warm_base_melt_rate_scaled :
    (sampleModel true true 1 [1397 / 10, 130, 120] [0, 0, 0] 0).is_floating 0 0 = true ∧
      (enthalpyAndDrainageStep (sampleModel true true 1 [1397 / 10, 130, 120] [0, 0, 0] 0)
        (sampleFields 1 1) (sampleScratch 1) 0 0).ierr = 0 ∧
      (enthalpyAndDrainageStep (sampleModel true true 1 [1397 / 10, 130, 120] [0, 0, 0] 0)
        (sampleFields 1 1) (sampleScratch 1) 0 0).fields.vbasalMeltRate 0 0 = 0 ∧
      (sampleCouplers.shelfbmassflux 0 0 = 5 ∧
        (sampleModel true true 1 [1397 / 10, 130, 120] [0, 0, 0] 0).ocean =
          some ((0, sampleCouplers.shelfbmassflux), (0, sampleCouplers.shelfbtemp))) := by
  refine ⟨rfl, by decide!, by decide!, rfl, rfl⟩

/-- C4, amended: for every floating column that the loop body processes without error,
the basal melt rate written for the column is `shelfbmassflux(i,j) * (1 - alpha)`, where
`alpha` is the warm-base blend fraction computed from `Enth[0] - Enth_s[0]` whether or
not the column floats, and counts as `0` when the base is cold (`Enth[0] < Enth_s[0]`);
no drainage contribution is added.  In particular the melt rate equals
`shelfbmassflux(i,j)` exactly when the base is cold or `Enth[0] >= Enth_s[0] + warm_dE`. -/
theorem floating_melt_rate (M : IceModel) (fg : FineGrid) (cp : Couplers) (F : StepFields)
    (S : Scratch) (v : PetscScalar) (l : Int) (i j : Int) (r : ColumnResult)
    (h : columnStep M fg cp F S v l i j = .ok r) (hf : M.is_floating i j = true) :
    r.basalMeltRate =
        cp.shelfbmassflux i j *
          (if (iosysEnth M fg i j).getD 0 0 < (columnCTS M fg S.Enth_s i j).2.getD 0 0 then 1
           else 1 - warmBaseAlpha M.config ((iosysEnth M fg i j).getD 0 0)
            ((columnCTS M fg S.Enth_s i j).2.getD 0 0)) ∧
      r.basalMeltRate = r.meltRateBeforeDrainage ∧
      (((iosysEnth M fg i j).getD 0 0 < (columnCTS M fg S.Enth_s i j).2.getD 0 0 ∨
          (columnCTS M fg S.Enth_s i j).2.getD 0 0 + warm_dE M.config
            ≤ (iosysEnth M fg i j).getD 0 0) →
        r.basalMeltRate = cp.shelfbmassflux i j) := by
  obtain ⟨isMarginal, Enth_ks, sr, ds, hmd, _, hbefore, _, hbmr, _, _, _, _, _, _⟩ :=
    columnStep_ok M fg cp F S v l i j r h
  have hng : coldGroundedWithBedrock M fg i j (iosysEnth M fg i j)
      (columnCTS M fg S.Enth_s i j).2 ≠ true := by
    rw [Ne, coldGroundedWithBedrock_eq_true]
    simp [hf]
  simp only [majorDecision, if_neg hng] at hmd
  obtain ⟨b, _, hsr, _⟩ := otherCases_ok _ _ _ _ _ _ _ _ _ _ _ _ _ _ _ _ _ hmd
  have hm : ∀ hf_base, meltRateAtBase M cp.shelfbmassflux i j hf_base (iosysEnth M fg i j)
      (columnCTS M fg S.Enth_s i j).2 = cp.shelfbmassflux i j := by
    intro hf_base
    simp [meltRateAtBase, hf]
  rw [hm] at hsr
  have hb : r.basalMeltRate = sr.basalMeltRate := by
    rw [hbmr]
    simp [hf]
  have hmain : r.basalMeltRate =
      cp.shelfbmassflux i j *
        (if (iosysEnth M fg i j).getD 0 0 < (columnCTS M fg S.Enth_s i j).2.getD 0 0 then 1
         else 1 - warmBaseAlpha M.config ((iosysEnth M fg i j).getD 0 0)
          ((columnCTS M fg S.Enth_s i j).2.getD 0 0)) := by
    rw [hb, hsr]
    split <;> simp
  refine ⟨hmain, by rw [hb, hbefore], ?_⟩
  intro hc
  rw [hmain]
  rcases hc with hc | hc
  · rw [if_pos hc, mul_one]
  · by_cases hcold : (iosysEnth M fg i j).getD 0 0 < (columnCTS M fg S.Enth_s i j).2.getD 0 0
    · rw [if_pos hcold, mul_one]
    · rw [if_neg hcold]
      unfold warmBaseAlpha
      rw [if_neg (not_lt.mpr hc)]
      ring

/-- Witness for `floating_melt_rate`: a floating column with a warm base in the middle of
the blend window (`alpha = 1/2`); the melt rate written is half the ocean's mass flux. -/
theorem floating_melt_rate_witness :
    ∃ r, columnStep (sampleModel true true 1 [1447 / 10, 130, 120] [0, 0, 0] 0)
        (sampleFineGrid 1) sampleCouplers (sampleFields 1 1) (sampleScratch 1) 0 0 0 0 = .ok r ∧
      r.basalMeltRate = 5 / 2 := by
  have hx : ∃ r, columnStep (sampleModel true true 1 [1447 / 10, 130, 120] [0, 0, 0] 0)
      (sampleFineGrid 1) sampleCouplers (sampleFields 1 1) (sampleScratch 1) 0 0 0 0 = .ok r :=
    exists_ok_of_toBool _ (by decide!)
  obtain ⟨r, hr⟩ := hx
  exact ⟨r, hr, (floating_melt_rate _ _ _ _ _ _ _ _ _ r hr rfl).1.trans (by decide!)⟩

/-- C5, counterexample: a grounded column with three bedrock levels whose previous
enthalpy is below the CTS enthalpy at every level (`130 < 1397/10`, `130 < 1399/10`,
`120 < 140`), but which is heated at the base: the combined solve returns a basal
enthalpy with liquid fraction above `omega_max`, the drainage loop drains `193/100`, and
the basal melt rate after the step is `193/100`, not `0`. -/
theorem cold_grounded_column_melt_rate_nonzero :
    (sampleModel false true 3 [130, 130, 120] [300, 0, 0] 0).is_floating 0 0 = false ∧
      (columnCTS (sampleModel false true 3 [130, 130, 120] [300, 0, 0] 0) (sampleFineGrid 3)
        (sampleScratch 3).Enth_s 0 0).2 = [1397 / 10, 1399 / 10, 140] ∧
      (enthalpyAndDrainageStep (sampleModel false true 3 [130, 130, 120] [300, 0, 0] 0)
        (sampleFields 3 1) (sampleScratch 3) 0 0).ierr = 0 ∧
      (enthalpyAndDrainageStep (sampleModel false true 3 [130, 130, 120] [300, 0, 0] 0)
        (sampleFields 3 1) (sampleScratch 3) 0 0).fields.vbasalMeltRate 0 0 = 193 / 100 := by
  refine ⟨rfl, by decide!, by decide!, by decide!⟩

/-- C5, amended: for every column whose previous-step enthalpy is below the CTS enthalpy
at the base (in particular one that is below it at every level), that is grounded, and
whose bedrock column has at least 3 fine levels, the combined system is used, the basal
melt rate before drainage is exactly `0`, and the basal melt rate output by the loop body
is `Hdrainedtotal / dtTempAge`, the water drained from the new enthalpy column in this
step; it is `0` when nothing is drained (and `dtTempAge` is not `0`). -/
theorem cold_grounded_bedrock_melt_rate (M : IceModel) (fg : FineGrid) (cp : Couplers)
    (F : StepFields) (S : Scratch) (v : PetscScalar) (l : Int) (i j : Int) (r : ColumnResult)
    (h : columnStep M fg cp F S v l i j = .ok r)
    (hcold : (iosysEnth M fg i j).getD 0 0 < (columnCTS M fg S.Enth_s i j).2.getD 0 0)
    (hg : M.is_floating i j = false) (hb : 3 ≤ fg.fMbz) :
    r.calls.map SystemCall.kind = [SystemKind.combined] ∧
      r.meltRateBeforeDrainage = 0 ∧
      r.basalMeltRate = r.Hdrainedtotal / M.dtTempAge ∧
      (r.Hdrainedtotal = 0 → M.dtTempAge ≠ 0 → r.basalMeltRate = 0) := by
  obtain ⟨isMarginal, Enth_ks, sr, ds, hmd, _, hbefore, hdr, hbmr, _, _, hcalls, _, _, _⟩ :=
    columnStep_ok M fg cp F S v l i j r h
  have hc : coldGroundedWithBedrock M fg i j (iosysEnth M fg i j)
      (columnCTS M fg S.Enth_s i j).2 = true := by
    rw [coldGroundedWithBedrock_eq_true]
    exact ⟨hcold, hg, by omega⟩
  simp only [majorDecision, if_pos hc] at hmd
  obtain ⟨h0, hk⟩ := combinedCase_ok _ _ _ _ _ _ _ _ _ _ _ _ _ _ _ _ hmd
  have hfinal : r.basalMeltRate = r.Hdrainedtotal / M.dtTempAge := by
    rw [hbmr, h0, hdr]
    simp [hg]
  refine ⟨by rw [hcalls, hk], by rw [hbefore, h0], hfinal, ?_⟩
  intro hz _
  rw [hfinal, hz, zero_div]

/-- Witness for `cold_grounded_bedrock_melt_rate`: a cold grounded column at rest over three
bedrock levels; nothing is drained and the melt rate is `0`. -/
theorem cold_grounded_bedrock_melt_rate_witness :
    ∃ r, columnStep (sampleModel false true 3 [130, 130, 120] [0, 0, 0] 0)
        (sampleFineGrid 3) sampleCouplers (sampleFields 3 1) (sampleScratch 3) 0 0 0 0 = .ok r ∧
      r.calls.map SystemCall.kind = [SystemKind.combined] ∧ r.meltRateBeforeDrainage = 0 := by
  have hx : ∃ r, columnStep (sampleModel false true 3 [130, 130, 120] [0, 0, 0] 0)
      (sampleFineGrid 3) sampleCouplers (sampleFields 3 1) (sampleScratch 3) 0 0 0 0 = .ok r :=
    exists_ok_of_toBool _ (by decide!)
  obtain ⟨r, hr⟩ := hx
  have h := cold_grounded_bedrock_melt_rate _ _ _ _ _ _ _ _ _ r hr (by decide!) rfl (by decide)
  exact ⟨r, hr, h.1, h.2.1⟩

/-- C6: in the loop body the combined system is chosen if and only if the base is cold
(`Enth[0] < Enth_s[0]`), the column is not floating and the bedrock has more than one fine
level (`fMbz > 1`): the "major decision" runs the combined case under exactly this
condition and all other cases otherwise; and when the loop body completes, the calls of
`solveThisColumn` it has made are the single call of the combined system in the first
case, and in every other case the bedrock-only system (only when `fMbz > 1`) followed by
the ice-only system. -/
theorem combined_system_iff_cold_grounded_bedrock (M : IceModel) (fg : FineGrid)
    (cp : Couplers) (F : StepFields) (S : Scratch) (v : PetscScalar) (l : Int) (i j : Int)
    (r : ColumnResult) (h : columnStep M fg cp F S v l i j = .ok r) :
    (∀ ks isMarginal lambda Enth_ks p_basal Enth Enth_s w,
      majorDecision M fg cp F S l i j ks isMarginal lambda Enth_ks p_basal Enth Enth_s w =
        if Enth.getD 0 0 < Enth_s.getD 0 0 ∧ M.is_floating i j = false ∧ fg.fMbz > 1 then
          combinedCase M fg F S l i j ks isMarginal lambda Enth_ks p_basal Enth Enth_s w
        else
          otherCases M fg cp F S l i j ks isMarginal lambda Enth_ks p_basal Enth Enth_s w) ∧
    (r.calls.map SystemCall.kind = [SystemKind.combined] ↔
      ((iosysEnth M fg i j).getD 0 0 < (columnCTS M fg S.Enth_s i j).2.getD 0 0 ∧
        M.is_floating i j = false ∧ fg.fMbz > 1)) ∧
    (¬ ((iosysEnth M fg i j).getD 0 0 < (columnCTS M fg S.Enth_s i j).2.getD 0 0 ∧
        M.is_floating i j = false ∧ fg.fMbz > 1) →
      r.calls.map SystemCall.kind =
        (if fg.fMbz > 1 then [SystemKind.bedrockOnly] else []) ++ [SystemKind.iceenthOnly]) := by
  obtain ⟨isMarginal, Enth_ks, sr, ds, hmd, _, _, _, _, _, _, hcalls, _, _, _⟩ :=
    columnStep_ok M fg cp F S v l i j r h
  have hdec : ∀ ks isMarginal lambda Enth_ks p_basal Enth Enth_s w,
      majorDecision M fg cp F S l i j ks isMarginal lambda Enth_ks p_basal Enth Enth_s w =
        if Enth.getD 0 0 < Enth_s.getD 0 0 ∧ M.is_floating i j = false ∧ fg.fMbz > 1 then
          combinedCase M fg F S l i j ks isMarginal lambda Enth_ks p_basal Enth Enth_s w
        else
          otherCases M fg cp F S l i j ks isMarginal lambda Enth_ks p_basal Enth Enth_s w := by
    intro ks isMarginal lambda Enth_ks p_basal Enth Enth_s w
    unfold majorDecision
    by_cases hc : coldGroundedWithBedrock M fg i j Enth Enth_s = true
    · rw [if_pos hc, if_pos ((coldGroundedWithBedrock_eq_true _ _ _ _ _ _).mp hc)]
    · rw [if_neg hc, if_neg (fun hh => hc ((coldGroundedWithBedrock_eq_true _ _ _ _ _ _).mpr hh))]
  refine ⟨hdec, ?_, ?_⟩
  · rw [hdec] at hmd
    constructor
    · intro hk
      by_contra hn
      rw [if_neg hn] at hmd
      obtain ⟨b, _, _, hkinds⟩ := otherCases_ok _ _ _ _ _ _ _ _ _ _ _ _ _ _ _ _ _ hmd
      rw [hcalls, hkinds] at hk
      split at hk <;> simp at hk
    · intro hc
      rw [if_pos hc] at hmd
      rw [hcalls]
      exact (combinedCase_ok _ _ _ _ _ _ _ _ _ _ _ _ _ _ _ _ hmd).2
  · intro hn
    rw [hdec, if_neg hn] at hmd
    obtain ⟨b, _, _, hkinds⟩ := otherCases_ok _ _ _ _ _ _ _ _ _ _ _ _ _ _ _ _ _ hmd
    rw [hcalls, hkinds]

/-- Witness for `combined_system_iff_cold_grounded_bedrock`: a grounded column with a warm
base over three bedrock levels uses the bedrock-only and then the ice-only system. -/
theorem combined_system_iff_cold_grounded_bedrock_witness :
    ∃ r, columnStep (sampleModel false true 3 [1447 / 10, 130, 120] [0, 0, 0] 0)
        (sampleFineGrid 3) sampleCouplers (sampleFields 3 1) (sampleScratch 3) 0 0 0 0 = .ok r ∧
      r.calls.map SystemCall.kind = [SystemKind.bedrockOnly, SystemKind.iceenthOnly] := by
  have hx : ∃ r, columnStep (sampleModel false true 3 [1447 / 10, 130, 120] [0, 0, 0] 0)
      (sampleFineGrid 3) sampleCouplers (sampleFields 3 1) (sampleScratch 3) 0 0 0 0 = .ok r :=
    exists_ok_of_toBool _ (by decide!)
  obtain ⟨r, hr⟩ := hx
  have h := (combined_system_iff_cold_grounded_bedrock _ _ _ _ _ _ _ _ _ r hr).2.2 (by decide!)
  exact ⟨r, hr, h.trans (by decide)⟩

/-! ## Stored basal water -/

theorem finalizeHmelt_mem (M : IceModel) (i j : Int) (ks : Int) (Hmelt Hmeltnew : PetscScalar)
    (hu : M.updateHmelt = true) (hm : 0 ≤ M.config.hmelt_max) :
    0 ≤ finalizeHmelt M i j ks Hmelt Hmeltnew ∧
      finalizeHmelt M i j ks Hmelt Hmeltnew ≤ M.config.hmelt_max := by
  unfold finalizeHmelt
  rw [if_pos hu]
  split
  · exact ⟨hm, le_refl _⟩
  · split
    · exact ⟨le_refl _, hm⟩
    · unfold PetscMax PetscMin
      split <;> split <;> constructor <;> linarith

/-- C10, counterexample: with `updateHmelt` unset the step leaves `vHmelt` as it was; a
stored water of `5` with `hmelt_max = 2` is still `5` after a step that returns `0`. -/
theorem stored_water_kept_without_updateHmelt :
    (sampleModel false false 1 [130, 130, 120] [0, 0, 0] 0).config.hmelt_max = 2 ∧
      (enthalpyAndDrainageStep (sampleModel false false 1 [130, 130, 120] [0, 0, 0] 0)
        (sampleFields 1 5) (sampleScratch 1) 0 0).ierr = 0 ∧
      (enthalpyAndDrainageStep (sampleModel false false 1 [130, 130, 120] [0, 0, 0] 0)
        (sampleFields 1 5) (sampleScratch 1) 0 0).fields.vHmelt 0 0 = 5 := by
  refine ⟨rfl, by decide!, by decide!⟩

/-- C10, amended: when `updateHmelt` is set and `hmelt_max >= 0`, after a call of
`enthalpyAndDrainageStep` that returns `0` the stored basal water `vHmelt(i,j)` of every
owned column lies in `[0, hmelt_max]`, whatever it was before. -/
theorem stored_water_in_range (M : IceModel) (F : StepFields) (S : Scratch)
    (v lv : PetscScalar) (hu : M.updateHmelt = true) (hm : 0 ≤ M.config.hmelt_max)
    (hok : (enthalpyAndDrainageStep M F S v lv).ierr = 0)
    (i j : Int) (hij : owned M i j) :
    0 ≤ (enthalpyAndDrainageStep M F S v lv).fields.vHmelt i j ∧
      (enthalpyAndDrainageStep M F S v lv).fields.vHmelt i j ≤ M.config.hmelt_max := by
  obtain ⟨artm, massflux, temp, st', _, _, _, _, _, hloop, hfields, _, _⟩ :=
    enthalpyAndDrainageStep_ok M F S v lv hok
  rw [hfields]
  refine columnLoop_vHmelt M _ _ (fun x => 0 ≤ x ∧ x ≤ M.config.hmelt_max) ?_ _ _ st'
    (fun _ _ => False) (fun _ _ hf => absurd hf id) hloop i j
    (Or.inr ((mem_ownedColumns M i j).mpr hij))
  intro F' S' v' l' a b r hr
  obtain ⟨_, _, _, _, _, _, _, _, _, _, hH, _⟩ := columnStep_ok M _ _ F' S' v' l' a b r hr
  rw [hH]
  exact finalizeHmelt_mem M a b _ _ _ hu hm

/-- Witness for `stored_water_in_range`: the one-column sample model with stored water
`5` before the step. -/
theorem stored_water_in_range_witness :
    0 ≤ (enthalpyAndDrainageStep (sampleModel false true 1 [130, 130, 120] [0, 0, 0] 0)
        (sampleFields 1 5) (sampleScratch 1) 0 0).fields.vHmelt 0 0 ∧
      (enthalpyAndDrainageStep (sampleModel false true 1 [130, 130, 120] [0, 0, 0] 0)
        (sampleFields 1 5) (sampleScratch 1) 0 0).fields.vHmelt 0 0 ≤ 2 :=
  stored_water_in_range (sampleModel false true 1 [130, 130, 120] [0, 0, 0] 0)
    (sampleFields 1 5) (sampleScratch 1) 0 0 rfl (by decide!) (by decide!) 0 0 (by decide)

/-! ## What the column loop leaves in the fields -/

/-- After a loop without error, the four fields hold at every grid point of the loop
what some successful pass of the loop body at that point has returned. -/
theorem columnLoop_post (M : IceModel) (fg : FineGrid) (cp : Couplers)
    (Q : Int → Int → ColumnResult → Prop)
    (hQ : ∀ F S v l i j r, columnStep M fg cp F S v l i j = .ok r → Q i j r)
    (cols : List (Int × Int)) :
    ∀ (st st' : LoopState) (D : Int → Int → Prop),
      (∀ a b, D a b → ∃ r, Q a b r ∧ st.fields.vHmelt a b = r.Hmelt ∧
        st.fields.vbasalMeltRate a b = r.basalMeltRate ∧
        st.fields.Enthnew3 a b = r.Enthnew3col ∧ st.fields.Tb3 a b = r.Tb3col) →
      columnLoop M fg cp cols st = (0, st') →
      ∀ a b, (D a b ∨ (a, b) ∈ cols) → ∃ r, Q a b r ∧ st'.fields.vHmelt a b = r.Hmelt ∧
        st'.fields.vbasalMeltRate a b = r.basalMeltRate ∧
        st'.fields.Enthnew3 a b = r.Enthnew3col ∧ st'.fields.Tb3 a b = r.Tb3col := by
  induction cols with
  | nil =>
    intro st st' D hD h a b hab
    simp only [columnLoop, Prod.mk.injEq, true_and] at h
    subst h
    rcases hab with hab | hab
    · exact hD a b hab
    · simp at hab
  | cons p rest ih =>
    intro st st' D hD h a b hab
    obtain ⟨i, j⟩ := p
    simp only [columnLoop] at h
    split at h
    · rename_i e he
      simp only [Prod.mk.injEq] at h
      exact absurd h.1 (columnStep_errors _ _ _ _ _ _ _ _ _ e he)
    · rename_i r hr
      refine ih (st.store i j r) st' (fun a b => D a b ∨ (a, b) = (i, j)) ?_ h a b ?_
      · intro a b hab
        by_cases hij : a = i ∧ b = j
        · obtain ⟨rfl, rfl⟩ := hij
          refine ⟨r, hQ _ _ _ _ _ _ _ hr, ?_, ?_, ?_, ?_⟩ <;>
            simp [LoopState.store, IceModelVec2.write, IceModelVec3.writeColumn]
        · rcases hab with hab | hab
          · obtain ⟨r', hr'⟩ := hD a b hab
            refine ⟨r', ?_⟩
            simpa [LoopState.store, IceModelVec2.write, IceModelVec3.writeColumn, hij] using hr'
          · simp only [Prod.mk.injEq] at hab
            exact absurd hab hij
      · rcases hab with hab | hab
        · exact Or.inl (Or.inl hab)
        · rcases List.mem_cons.mp hab with hab | hab
          · exact Or.inl (Or.inr hab)
          · exact Or.inr hab

/-- The column loop changes the four fields only at grid points of the loop, whether
it ends with an error or not. -/
theorem columnLoop_frame (M : IceModel) (fg : FineGrid) (cp : Couplers)
    (cols : List (Int × Int)) :
    ∀ (st : LoopState) (a b : Int), (a, b) ∉ cols →
      (columnLoop M fg cp cols st).2.fields.Enthnew3 a b = st.fields.Enthnew3 a b ∧
      (columnLoop M fg cp cols st).2.fields.Tb3 a b = st.fields.Tb3 a b ∧
      (columnLoop M fg cp cols st).2.fields.vbasalMeltRate a b = st.fields.vbasalMeltRate a b ∧
      (columnLoop M fg cp cols st).2.fields.vHmelt a b = st.fields.vHmelt a b := by
  induction cols with
  | nil =>
    intro st a b _
    simp [columnLoop]
  | cons p rest ih =>
    intro st a b hab
    obtain ⟨i, j⟩ := p
    simp only [columnLoop]
    split
    · simp
    · rename_i r hr
      have hne : ¬ (a = i ∧ b = j) := by
        rintro ⟨rfl, rfl⟩
        exact hab (List.mem_cons_self _ _)
      have hrest : (a, b) ∉ rest := fun hh => hab (List.mem_cons_of_mem _ hh)
      obtain ⟨h1, h2, h3, h4⟩ := ih (st.store i j r) a b hrest
      rw [h1, h2, h3, h4]
      simp [LoopState.store, IceModelVec2.write, IceModelVec3.writeColumn, hne]

/-! ## Stored basal water of floating and ice-free columns -/

/-- C11, counterexample: a floating column with stored water `1` and `hmelt_max = 2`; with
`updateHmelt` unset the step returns `0` and the stored water is still `1`. -/
theorem floating_stored_water_kept_without_updateHmelt :
    (sampleModel true false 1 [130, 130, 120] [0, 0, 0] 0).is_floating 0 0 = true ∧
      (sampleModel true false 1 [130, 130, 120] [0, 0, 0] 0).config.hmelt_max = 2 ∧
      (enthalpyAndDrainageStep (sampleModel true false 1 [130, 130, 120] [0, 0, 0] 0)
        (sampleFields 1 1) (sampleScratch 1) 0 0).ierr = 0 ∧
      (enthalpyAndDrainageStep (sampleModel true false 1 [130, 130, 120] [0, 0, 0] 0)
        (sampleFields 1 1) (sampleScratch 1) 0 0).fields.vHmelt 0 0 = 1 := by
  refine ⟨rfl, rfl, by decide!, by decide!⟩

/-- C11, amended: when `updateHmelt` is set, for every owned floating column the stored
basal water `vHmelt(i,j)` after a call of `enthalpyAndDrainageStep` that returns `0` equals
`hmelt_max`, whatever its prior value and whatever the melt rate and drainage of the
step. -/
theorem floating_stored_water_eq_hmelt_max (M : IceModel) (F : StepFields) (S : Scratch)
    (v lv : PetscScalar) (hu : M.updateHmelt = true)
    (hok : (enthalpyAndDrainageStep M F S v lv).ierr = 0)
    (i j : Int) (hij : owned M i j) (hf : M.is_floating i j = true) :
    (enthalpyAndDrainageStep M F S v lv).fields.vHmelt i j = M.config.hmelt_max := by
  obtain ⟨artm, massflux, temp, st', _, _, _, _, _, hloop, hfields, _, _⟩ :=
    enthalpyAndDrainageStep_ok M F S v lv hok
  rw [hfields]
  have hQ : ∀ F' S' v' l' a b r,
      columnStep M M.get_fine_vertical_grid.2
        { artm := artm, shelfbmassflux := massflux, shelfbtemp := temp } F' S' v' l' a b
        = .ok r →
      M.is_floating a b = true → r.Hmelt = M.config.hmelt_max := by
    intro F' S' v' l' a b r hr hfl
    obtain ⟨_, _, _, _, _, _, _, _, _, _, hH, _⟩ := columnStep_ok M _ _ F' S' v' l' a b r hr
    rw [hH]
    simp [finalizeHmelt, hu, hfl]
  obtain ⟨r, hr, hH, _⟩ := columnLoop_post M _ _
    (fun a b r => M.is_floating a b = true → r.Hmelt = M.config.hmelt_max) hQ _ _ st'
    (fun _ _ => False) (fun _ _ hf => absurd hf id) hloop i j
    (Or.inr ((mem_ownedColumns M i j).mpr hij))
  rw [hH]
  exact hr hf

/-- Witness for `floating_stored_water_eq_hmelt_max`: the floating sample column with
stored water `1` before the step. -/
theorem floating_stored_water_eq_hmelt_max_witness :
    (enthalpyAndDrainageStep (sampleModel true true 1 [130, 130, 120] [0, 0, 0] 0)
        (sampleFields 1 1) (sampleScratch 1) 0 0).fields.vHmelt 0 0 = 2 :=
  floating_stored_water_eq_hmelt_max (sampleModel true true 1 [130, 130, 120] [0, 0, 0] 0)
    (sampleFields 1 1) (sampleScratch 1) 0 0 rfl (by decide!) 0 0 (by decide) rfl

/-- C12, counterexample: a grounded column with ice thickness `5` below the fine spacing
`10` (`ks = 0`) and stored water `1`; with `updateHmelt` unset the step returns `0` and the
stored water is still `1`, not `0`. -/
theorem ice_free_stored_water_kept_without_updateHmelt :
    ⌊(sampleModelThin false).vH 0 0 / (sampleFineGrid 1).fdz⌋ = 0 ∧
      (sampleModelThin false).is_floating 0 0 = false ∧
      (enthalpyAndDrainageStep (sampleModelThin false)
        (sampleFields 1 1) (sampleScratch 1) 0 0).ierr = 0 ∧
      (enthalpyAndDrainageStep (sampleModelThin false)
        (sampleFields 1 1) (sampleScratch 1) 0 0).fields.vHmelt 0 0 = 1 := by
  refine ⟨by decide!, rfl, by decide!, by decide!⟩

/-- C12, amended: when `updateHmelt` is set, for every owned column that is not floating
and is ice-free (`ks == 0`, that is `floor(H/fdz) = 0`), the stored basal water
`vHmelt(i,j)` after a call of `enthalpyAndDrainageStep` that returns `0` is exactly `0`,
regardless of its prior value. -/
theorem ice_free_stored_water_eq_zero (M : IceModel) (F : StepFields) (S : Scratch)
    (v lv : PetscScalar) (hu : M.updateHmelt = true)
    (hok : (enthalpyAndDrainageStep M F S v lv).ierr = 0)
    (i j : Int) (hij : owned M i j) (hg : M.is_floating i j = false)
    (hks : ⌊M.vH i j / M.get_fine_vertical_grid.2.fdz⌋ = 0) :
    (enthalpyAndDrainageStep M F S v lv).fields.vHmelt i j = 0 := by
  obtain ⟨artm, massflux, temp, st', _, _, _, _, _, hloop, hfields, _, _⟩ :=
    enthalpyAndDrainageStep_ok M F S v lv hok
  rw [hfields]
  have hQ : ∀ F' S' v' l' a b r,
      columnStep M M.get_fine_vertical_grid.2
        { artm := artm, shelfbmassflux := massflux, shelfbtemp := temp } F' S' v' l' a b
        = .ok r →
      M.is_floating a b = false →
      ⌊M.vH a b / M.get_fine_vertical_grid.2.fdz⌋ = 0 → r.Hmelt = 0 := by
    intro F' S' v' l' a b r hr hfl hk
    obtain ⟨_, _, _, _, _, _, _, _, _, _, hH, _⟩ := columnStep_ok M _ _ F' S' v' l' a b r hr
    rw [hH]
    simp [finalizeHmelt, hu, hfl, hk]
  obtain ⟨r, hr, hH, _⟩ := columnLoop_post M _ _
    (fun a b r => M.is_floating a b = false →
      ⌊M.vH a b / M.get_fine_vertical_grid.2.fdz⌋ = 0 → r.Hmelt = 0) hQ _ _ st'
    (fun _ _ => False) (fun _ _ hf => absurd hf id) hloop i j
    (Or.inr ((mem_ownedColumns M i j).mpr hij))
  rw [hH]
  exact hr hg hks

/-- Witness for `ice_free_stored_water_eq_zero`: the thin grounded sample column with
stored water `1` before the step. -/
theorem ice_free_stored_water_eq_zero_witness :
    (enthalpyAndDrainageStep (sampleModelThin true)
        (sampleFields 1 1) (sampleScratch 1) 0 0).fields.vHmelt 0 0 = 0 :=
  ice_free_stored_water_eq_zero (sampleModelThin true)
    (sampleFields 1 1) (sampleScratch 1) 0 0 rfl (by decide!) 0 0 (by decide) rfl (by decide!)

/-! ## Frame of the step and the check of the bedrock grid -/

/-- C17: if the fine bedrock grid has exactly two levels (`fMbz == 2`), the step fails
before the column loop: it returns a non-zero error code (the code `2` of this check
unless one of the two earlier checks has failed already), and the four fields and the two
referenced variables are what they were at entry.  If `fMbz` is not `2` (in particular for
`fMbz == 1` and `fMbz > 2`) the check does not fail: when the other checks before the loop
pass, the step runs the column loop over the owned columns and returns its error code and
fields. -/
theorem two_bedrock_levels_rejected (M : IceModel) (F : StepFields) (S : Scratch)
    (v lv : PetscScalar) :
    (M.get_fine_vertical_grid.2.fMbz = 2 →
      (enthalpyAndDrainageStep M F S v lv).ierr ≠ 0 ∧
      (enthalpyAndDrainageStep M F S v lv).fields = F ∧
      (enthalpyAndDrainageStep M F S v lv).vertSacrCount = v ∧
      (enthalpyAndDrainageStep M F S v lv).liquifiedVol = lv ∧
      (M.doColdIceMethods = false → M.get_fine_vertical_grid.1 = 0 →
        (enthalpyAndDrainageStep M F S v lv).ierr = 2)) ∧
    (M.get_fine_vertical_grid.2.fMbz ≠ 2 →
      ∀ cp : Couplers, M.doColdIceMethods = false → M.get_fine_vertical_grid.1 = 0 →
        M.sys.initAllColumns = 0 → M.surface = some (0, cp.artm) →
        M.ocean = some ((0, cp.shelfbmassflux), (0, cp.shelfbtemp)) →
        (enthalpyAndDrainageStep M F S v lv).ierr =
          (columnLoop M M.get_fine_vertical_grid.2 cp (ownedColumns M)
            { fields := F, scratch := S, vertSacrCount := v, liquifiedCount := 0 }).1 ∧
        (enthalpyAndDrainageStep M F S v lv).fields =
          (columnLoop M M.get_fine_vertical_grid.2 cp (ownedColumns M)
            { fields := F, scratch := S, vertSacrCount := v, liquifiedCount := 0 }).2.fields) := by
  constructor
  · intro h2
    unfold enthalpyAndDrainageStep
    by_cases hc : M.doColdIceMethods = true
    · simp [hc]
    · by_cases hg : M.get_fine_vertical_grid.1 = 0
      · simp [hc, hg, h2]
      · simp [hc, hg]
  · intro h2 cp hc hg hi hs ho
    unfold enthalpyAndDrainageStep
    simp only [hc, hg, h2, hi, hs, ho, ne_eq, not_true_eq_false, if_false, Bool.false_eq_true]
    split
    · rename_i hne
      exact ⟨rfl, rfl⟩
    · rename_i he
      simp only [not_not] at he
      exact ⟨he.symm, rfl⟩

/-- Witness for `two_bedrock_levels_rejected`: the sample model with two bedrock levels is
rejected with error code `2` and unchanged stored water. -/
theorem two_bedrock_levels_rejected_witness :
    (enthalpyAndDrainageStep (sampleModel false true 2 [130, 130, 120] [0, 0, 0] 0)
        (sampleFields 2 1) (sampleScratch 2) 0 0).ierr = 2 ∧
      (enthalpyAndDrainageStep (sampleModel false true 2 [130, 130, 120] [0, 0, 0] 0)
        (sampleFields 2 1) (sampleScratch 2) 0 0).fields = sampleFields 2 1 :=
  ⟨((two_bedrock_levels_rejected (sampleModel false true 2 [130, 130, 120] [0, 0, 0] 0)
      (sampleFields 2 1) (sampleScratch 2) 0 0).1 rfl).2.2.2.2 rfl rfl,
   ((two_bedrock_levels_rejected (sampleModel false true 2 [130, 130, 120] [0, 0, 0] 0)
      (sampleFields 2 1) (sampleScratch 2) 0 0).1 rfl).2.1⟩

/-! ## The melt rate of the non-combined path -/

theorem bedrockOnlySolve_heat_flux (M : IceModel) (fg : FineGrid) (cp : Couplers)
    (F : StepFields) (S : Scratch) (i j : Int) (p_basal : PetscScalar)
    (b : PetscScalar × List PetscScalar × List SystemCall)
    (h : bedrockOnlySolve M fg cp F S i j p_basal = .ok b) :
    (fg.fMbz > 1 →
      M.sys.bedrockSolve
          { i := i, j := j, ks := -1, Tb := (M.vec.getValColumn (F.Tb3 i j) fg.fMbz fg.fzblev).2,
            Tbtop := if M.is_floating i j = true then cp.shelfbtemp i j
              else M.EC.getMeltingTemp p_basal,
            Ghf := M.vGhf i j } S.Tbnew = (0, b.2.1) ∧
        b.1 = M.sys.extractHeatFluxFromSoln b.2.1) ∧
      (¬ fg.fMbz > 1 → b.1 = M.vGhf i j) := by
  unfold bedrockOnlySolve at h
  split at h
  · rename_i hb
    simp only [bind_eq_ok, CHK_eq_ok, pure_eq_ok] at h
    obtain ⟨Tb, ⟨_, hTb⟩, Tbnew, ⟨h0, hT⟩, h⟩ := h
    subst h hTb
    exact ⟨fun _ => ⟨Prod.ext h0 hT, rfl⟩, fun hn => absurd hb hn⟩
  · rename_i hb
    simp only [pure_eq_ok] at h
    subst h
    exact ⟨fun hh => absurd hh hb, fun _ => rfl⟩

/-- C20: in the non-combined path of the loop body (the base is not cold, or the column
floats, or `fMbz <= 1`), the basal melt rate before drainage is added equals
`(1 - a) * m`, where `m = shelfbmassflux(i,j)` if the column is floating, `m = 0` if it is
grounded with a cold base (`Enth[0] < Enth_s[0]`), and
`m = (hf_base + Rb(i,j)) / (ice_rho * L)` otherwise; `hf_base` is the heat flux extracted
from the solution `Tbnew` of the bedrock-only system when `fMbz > 1` and the geothermal
flux `Ghf(i,j)` when `fMbz == 1`; `a` is the warm-base blend fraction `alpha` when
`Enth[0] >= Enth_s[0]` and `0` when the base is cold. -/
theorem non_combined_melt_rate (M : IceModel) (fg : FineGrid) (cp : Couplers)
    (F : StepFields) (S : Scratch) (v : PetscScalar) (l : Int) (i j : Int) (r : ColumnResult)
    (h : columnStep M fg cp F S v l i j = .ok r)
    (hn : ¬ ((iosysEnth M fg i j).getD 0 0 < (columnCTS M fg S.Enth_s i j).2.getD 0 0 ∧
      M.is_floating i j = false ∧ fg.fMbz > 1)) :
    ∃ hf_base : PetscScalar,
      (fg.fMbz > 1 → ∃ Tbnew,
        M.sys.bedrockSolve
          { i := i, j := j, ks := -1, Tb := (M.vec.getValColumn (F.Tb3 i j) fg.fMbz fg.fzblev).2,
            Tbtop := if M.is_floating i j = true then cp.shelfbtemp i j
              else M.EC.getMeltingTemp (M.EC.getPressureFromDepth (M.vH i j)),
            Ghf := M.vGhf i j } S.Tbnew = (0, Tbnew) ∧
          hf_base = M.sys.extractHeatFluxFromSoln Tbnew) ∧
      (fg.fMbz = 1 → hf_base = M.vGhf i j) ∧
      r.meltRateBeforeDrainage =
        (1 - (if (iosysEnth M fg i j).getD 0 0 < (columnCTS M fg S.Enth_s i j).2.getD 0 0 then 0
              else warmBaseAlpha M.config ((iosysEnth M fg i j).getD 0 0)
                ((columnCTS M fg S.Enth_s i j).2.getD 0 0))) *
          (if M.is_floating i j = true then cp.shelfbmassflux i j
           else if (iosysEnth M fg i j).getD 0 0 < (columnCTS M fg S.Enth_s i j).2.getD 0 0
             then 0
           else (hf_base + M.vRb i j) /
            (M.config.ice_density * M.config.water_latent_heat_fusion)) := by
  obtain ⟨isMarginal, Enth_ks, sr, ds, hmd, _, hbefore, _, _, _, _, _, _, _, _⟩ :=
    columnStep_ok M fg cp F S v l i j r h
  have hng : coldGroundedWithBedrock M fg i j (iosysEnth M fg i j)
      (columnCTS M fg S.Enth_s i j).2 ≠ true := by
    rw [Ne, coldGroundedWithBedrock_eq_true]
    exact hn
  simp only [majorDecision, if_neg hng] at hmd
  obtain ⟨b, hb, hsr, _⟩ := otherCases_ok _ _ _ _ _ _ _ _ _ _ _ _ _ _ _ _ _ hmd
  obtain ⟨hb1, hb2⟩ := bedrockOnlySolve_heat_flux _ _ _ _ _ _ _ _ b hb
  refine ⟨b.1, fun hgt => ⟨b.2.1, (hb1 hgt).1, (hb1 hgt).2⟩, fun h1 => hb2 (by omega), ?_⟩
  rw [hbefore, hsr]
  unfold meltRateAtBase
  split <;> ring

/-- Witness for `non_combined_melt_rate`: a grounded column with a warm base in the middle
of the blend window over a single bedrock level: `hf_base = 1/2`, `m = 3/2000`,
`alpha = 1/2`. -/
theorem non_combined_melt_rate_witness :
    ∃ r, columnStep (sampleModel false true 1 [1447 / 10, 130, 120] [0, 0, 0] 0)
        (sampleFineGrid 1) sampleCouplers (sampleFields 1 1) (sampleScratch 1) 0 0 0 0 = .ok r ∧
      r.meltRateBeforeDrainage = 3 / 4000 := by
  have hx : ∃ r, columnStep (sampleModel false true 1 [1447 / 10, 130, 120] [0, 0, 0] 0)
      (sampleFineGrid 1) sampleCouplers (sampleFields 1 1) (sampleScratch 1) 0 0 0 0 = .ok r :=
    exists_ok_of_toBool _ (by decide!)
  obtain ⟨r, hr⟩ := hx
  obtain ⟨hf, _, h1, h2⟩ := non_combined_melt_rate _ _ _ _ _ _ _ _ _ r hr (by decide!)
  have hhf := h1 rfl
  subst hhf
  exact ⟨r, hr, h2.trans (by decide!)⟩

/-! ## Continuity of the lowest-level equation across the blend window -/

theorem continuous_if_lt_const (c : PetscScalar) (f g : PetscScalar → PetscScalar)
    (hf : Continuous f) (hg : Continuous g) (hfg : f c = g c) :
    Continuous fun x : PetscScalar => if x < c then f x else g x := by
  have h : (fun x : PetscScalar => if x < c then f x else g x) =
      fun x => if c ≤ x then g x else f x := by
    funext x
    by_cases hx : x < c
    · rw [if_pos hx, if_neg (not_le.mpr hx)]
    · rw [if_neg hx, if_pos (not_lt.mp hx)]
  rw [h]
  exact Continuous.if_le hg hf continuous_const continuous_id
    (fun x hx => by subst hx; exact hfg.symm)

theorem warmBaseAlpha_continuous (cfg : Config) (Enth_s0 : PetscScalar)
    (hw : warm_dE cfg ≠ 0) :
    Continuous fun E0 : PetscScalar => warmBaseAlpha cfg E0 Enth_s0 := by
  unfold warmBaseAlpha
  refine continuous_if_lt_const (Enth_s0 + warm_dE cfg)
    (fun E0 => 1 - (E0 - Enth_s0) / warm_dE cfg) (fun _ => 0) ?_ continuous_const ?_
  · exact continuous_const.sub ((continuous_id.sub continuous_const).div_const _)
  · simp only [add_sub_cancel_left]
    field_simp

theorem warmBaseAlpha_at_cts (cfg : Config) (Enth_s0 : PetscScalar) (hw : 0 < warm_dE cfg) :
    warmBaseAlpha cfg Enth_s0 Enth_s0 = 1 := by
  unfold warmBaseAlpha
  rw [if_pos (by linarith)]
  simp

theorem warmBaseAlpha_beyond_window (cfg : Config) (E0 Enth_s0 : PetscScalar)
    (h : Enth_s0 + warm_dE cfg ≤ E0) : warmBaseAlpha cfg E0 Enth_s0 = 0 := by
  unfold warmBaseAlpha
  rw [if_neg (not_lt.mpr h)]

theorem outflowRhs_continuous (M : IceModel) (i j : Int) (isMarginal : Bool)
    (Erest u v Sigma : List PetscScalar) :
    Continuous fun E0 : PetscScalar => outflowRhs M i j isMarginal (E0 :: Erest) u v Sigma := by
  unfold outflowRhs
  cases isMarginal with
  | true => simpa using continuous_id
  | false =>
    simp only [List.getD_cons_zero, if_true]
    exact continuous_id.add continuous_const

theorem unblendedRow_continuous (M : IceModel) (fdz : PetscScalar) (i j : Int)
    (isMarginal : Bool) (Erest Enth_s w u v Sigma : List PetscScalar) :
    Continuous fun E0 : PetscScalar =>
      unblendedRow M fdz i j isMarginal (E0 :: Erest) Enth_s w u v Sigma := by
  unfold unblendedRow
  by_cases hw : w.getD 0 0 < 0
  · simp only [if_pos hw]
    exact continuous_const.prod_mk
      (continuous_const.prod_mk (outflowRhs_continuous M i j isMarginal Erest u v Sigma))
  · simp only [if_neg hw]
    exact continuous_const

/-- C13: with all other inputs of the column fixed and a blend window `warm_dE > 0`, the
bottom-row coefficients `(a0, a1, rhs)` that the loop body passes to
`iosys.setLevel0EqnThisColumn` are a continuous function of `d = Enth[0] - Enth_s[0]`:
for `d < 0` they are the prescribed-flux row `(1, -1, C*(hf_base + Rb))` with
`C = ice_c*fdz/ice_k`, at `d = 0` the blended row of the warm base equals this row, and for
`d >= warm_dE` the blended row equals the unblended outflow or Dirichlet row. -/
theorem lowest_level_row_continuous (M : IceModel) (fdz : PetscScalar) (i j : Int)
    (isMarginal : Bool) (hf_base : PetscScalar) (Erest Enth_s w u v Sigma : List PetscScalar)
    (basalMeltRate : PetscScalar) (hw : 0 < warm_dE M.config) :
    Continuous (fun d : PetscScalar =>
        (lowestLevelEqn M fdz i j isMarginal hf_base ((Enth_s.getD 0 0 + d) :: Erest) Enth_s
          w u v Sigma basalMeltRate).1) ∧
      (∀ d : PetscScalar, d < 0 →
        (lowestLevelEqn M fdz i j isMarginal hf_base ((Enth_s.getD 0 0 + d) :: Erest) Enth_s
          w u v Sigma basalMeltRate).1 =
          (1, -1, fluxC M.config fdz * (hf_base + M.vRb i j))) ∧
      (lowestLevelEqn M fdz i j isMarginal hf_base ((Enth_s.getD 0 0 + 0) :: Erest) Enth_s
          w u v Sigma basalMeltRate).1 =
        (1, -1, fluxC M.config fdz * (hf_base + M.vRb i j)) ∧
      (∀ d : PetscScalar, warm_dE M.config ≤ d →
        (lowestLevelEqn M fdz i j isMarginal hf_base ((Enth_s.getD 0 0 + d) :: Erest) Enth_s
          w u v Sigma basalMeltRate).1 =
          unblendedRow M fdz i j isMarginal ((Enth_s.getD 0 0 + d) :: Erest) Enth_s
            w u v Sigma) := by
  have hrow : ∀ E0 : PetscScalar,
      (lowestLevelEqn M fdz i j isMarginal hf_base (E0 :: Erest) Enth_s w u v Sigma
        basalMeltRate).1 =
      if E0 < Enth_s.getD 0 0 then (1, -1, fluxC M.config fdz * (hf_base + M.vRb i j))
      else
        ((1 - warmBaseAlpha M.config E0 (Enth_s.getD 0 0)) *
            (unblendedRow M fdz i j isMarginal (E0 :: Erest) Enth_s w u v Sigma).1 +
            warmBaseAlpha M.config E0 (Enth_s.getD 0 0) * 1,
          (1 - warmBaseAlpha M.config E0 (Enth_s.getD 0 0)) *
            (unblendedRow M fdz i j isMarginal (E0 :: Erest) Enth_s w u v Sigma).2.1 +
            warmBaseAlpha M.config E0 (Enth_s.getD 0 0) * (-1),
          (1 - warmBaseAlpha M.config E0 (Enth_s.getD 0 0)) *
            (unblendedRow M fdz i j isMarginal (E0 :: Erest) Enth_s w u v Sigma).2.2 +
            warmBaseAlpha M.config E0 (Enth_s.getD 0 0) *
              (fluxC M.config fdz * (hf_base + M.vRb i j))) := by
    intro E0
    unfold lowestLevelEqn
    simp only [List.getD_cons_zero]
    split <;> rfl
  have hα := warmBaseAlpha_continuous M.config (Enth_s.getD 0 0) hw.ne'
  have hb := unblendedRow_continuous M fdz i j isMarginal Erest Enth_s w u v Sigma
  have hcontE : Continuous (fun E0 : PetscScalar =>
      (lowestLevelEqn M fdz i j isMarginal hf_base (E0 :: Erest) Enth_s w u v Sigma
        basalMeltRate).1) := by
    simp only [hrow]
    have h1 : (fun E0 : PetscScalar =>
        if E0 < Enth_s.getD 0 0 then
          ((1 : PetscScalar), (-1 : PetscScalar), fluxC M.config fdz * (hf_base + M.vRb i j))
        else
          ((1 - warmBaseAlpha M.config E0 (Enth_s.getD 0 0)) *
              (unblendedRow M fdz i j isMarginal (E0 :: Erest) Enth_s w u v Sigma).1 +
              warmBaseAlpha M.config E0 (Enth_s.getD 0 0) * 1,
            (1 - warmBaseAlpha M.config E0 (Enth_s.getD 0 0)) *
              (unblendedRow M fdz i j isMarginal (E0 :: Erest) Enth_s w u v Sigma).2.1 +
              warmBaseAlpha M.config E0 (Enth_s.getD 0 0) * (-1),
            (1 - warmBaseAlpha M.config E0 (Enth_s.getD 0 0)) *
              (unblendedRow M fdz i j isMarginal (E0 :: Erest) Enth_s w u v Sigma).2.2 +
              warmBaseAlpha M.config E0 (Enth_s.getD 0 0) *
                (fluxC M.config fdz * (hf_base + M.vRb i j)))) =
        fun E0 => if Enth_s.getD 0 0 ≤ E0 then
          ((1 - warmBaseAlpha M.config E0 (Enth_s.getD 0 0)) *
              (unblendedRow M fdz i j isMarginal (E0 :: Erest) Enth_s w u v Sigma).1 +
              warmBaseAlpha M.config E0 (Enth_s.getD 0 0) * 1,
            (1 - warmBaseAlpha M.config E0 (Enth_s.getD 0 0)) *
              (unblendedRow M fdz i j isMarginal (E0 :: Erest) Enth_s w u v Sigma).2.1 +
              warmBaseAlpha M.config E0 (Enth_s.getD 0 0) * (-1),
            (1 - warmBaseAlpha M.config E0 (Enth_s.getD 0 0)) *
              (unblendedRow M fdz i j isMarginal (E0 :: Erest) Enth_s w u v Sigma).2.2 +
              warmBaseAlpha M.config E0 (Enth_s.getD 0 0) *
                (fluxC M.config fdz * (hf_base + M.vRb i j)))
        else (1, -1, fluxC M.config fdz * (hf_base + M.vRb i j)) := by
      funext E0
      by_cases hx : E0 < Enth_s.getD 0 0
      · rw [if_pos hx, if_neg (not_le.mpr hx)]
      · rw [if_neg hx, if_pos (not_lt.mp hx)]
    rw [h1]
    refine Continuous.if_le ?_ continuous_const continuous_const continuous_id ?_
    · have c1 : Continuous fun E0 : PetscScalar =>
          1 - warmBaseAlpha M.config E0 (Enth_s.getD 0 0) := continuous_const.sub hα
      exact (((c1.mul hb.fst).add (hα.mul continuous_const))).prod_mk
        ((((c1.mul hb.snd.fst).add (hα.mul continuous_const))).prod_mk
          ((c1.mul hb.snd.snd).add (hα.mul continuous_const)))
    · intro E0 hE
      simp only [id] at hE
      subst hE
      rw [warmBaseAlpha_at_cts M.config _ hw]
      simp
  refine ⟨hcontE.comp (continuous_const.add continuous_id), ?_, ?_, ?_⟩
  · intro d hd
    rw [hrow, if_pos (by linarith)]
  · rw [hrow, if_neg (by simp), add_zero, warmBaseAlpha_at_cts M.config _ hw]
    simp
  · intro d hd
    rw [hrow, if_neg (by linarith), warmBaseAlpha_beyond_window M.config _ _ (by linarith)]
    simp

/-- Witness for `lowest_level_row_continuous`: the sample configuration has the blend
window `warm_dE = 10`. -/
theorem lowest_level_row_continuous_witness :
    (lowestLevelEqn (sampleModel false true 1 [1397 / 10, 130, 120] [0, 0, 0] (-1)) 10 0 0
        false (1 / 2) (((([1397 / 10, 1399 / 10, 140] : List PetscScalar).getD 0 0) + 0)
          :: [130, 120]) [1397 / 10, 1399 / 10, 140] [-1, 0, 0] [0, 0, 0] [0, 0, 0]
          [0, 0, 0] 0).1 =
      (1, -1, fluxC (sampleModel false true 1 [1397 / 10, 130, 120] [0, 0, 0] (-1)).config 10 *
        (1 / 2 + (sampleModel false true 1 [1397 / 10, 130, 120] [0, 0, 0] (-1)).vRb 0 0)) :=
  (lowest_level_row_continuous (sampleModel false true 1 [1397 / 10, 130, 120] [0, 0, 0] (-1))
    10 0 0 false (1 / 2) [130, 120] [1397 / 10, 1399 / 10, 140] [-1, 0, 0] [0, 0, 0] [0, 0, 0]
    [0, 0, 0] 0 (by decide!)).2.2.1

/-! ## The two counters -/

/-- All components of the result of a successful pass of the loop body. -/
theorem columnStep_ok_full (M : IceModel) (fg : FineGrid) (cp : Couplers) (F : StepFields)
    (S : Scratch) (v : PetscScalar) (l : Int) (i j : Int) (r : ColumnResult)
    (h : columnStep M fg cp F S v l i j = .ok r) :
    ∃ isMarginal Enth_ks sr ds Tbnew,
      majorDecision M fg cp F S l i j ⌊M.vH i j / fg.fdz⌋ isMarginal (columnCTS M fg S.Enth_s i j).1
          Enth_ks (M.EC.getPressureFromDepth (M.vH i j)) (iosysEnth M fg i j)
          (columnCTS M fg S.Enth_s i j).2 (iosysW M fg i j) = .ok sr ∧
        drainLoop M fg i j
          { Enthnew := sr.Enthnew, Hdrainedtotal := 0, liquifiedCount := sr.liquifiedCount }
          ⌊M.vH i j / fg.fdz⌋.toNat = .ok ds ∧
        fillTbnew M fg cp i j ds.Enthnew sr.Tbnew = .ok Tbnew ∧
        M.vec.setValColumnPL (F.Enthnew3 i j) fg.fMz fg.fzlev ds.Enthnew = (0, r.Enthnew3col) ∧
        M.vec.setValColumnPL (F.Tb3 i j) fg.fMbz fg.fzblev Tbnew = (0, r.Tb3col) ∧
        r.liquifiedCount = ds.liquifiedCount ∧
        r.vertSacrCount = (if (columnCTS M fg S.Enth_s i j).1 < 1 then v + 1 else v) ∧
        r.scratch =
          { Enthnew := ds.Enthnew, Tbnew := Tbnew, xcombined := sr.xcombined,
            Enth_s := (columnCTS M fg S.Enth_s i j).2 } := by
  simp only [columnStep, bind_eq_ok, pure_eq_ok, CHK_eq_ok] at h
  obtain ⟨_, _, Enth_ks, _, Enth, ⟨_, h3⟩, w, ⟨_, h4⟩, sr, h5, ds, h6, c1, ⟨h7, h7'⟩,
    Tbnew, h8, c2, ⟨h9, h9'⟩, hr⟩ := h
  subst hr
  have hE : Enth = iosysEnth M fg i j := h3.symm
  have hw : w = iosysW M fg i j := h4.symm
  subst hE hw
  exact ⟨_, Enth_ks, sr, ds, Tbnew, h5, h6, h8, Prod.ext h7 h7', Prod.ext h9 h9', rfl, rfl, rfl⟩

theorem getD_set_same_length (l l' : List PetscScalar) (n : Nat) (v : PetscScalar)
    (h : l.length = l'.length) : (l.set n v).getD n 0 = (l'.set n v).getD n 0 := by
  by_cases hn : n < l.length
  · rw [getD_set_self _ _ _ hn, getD_set_self _ _ _ (h ▸ hn)]
  · rw [List.getD_eq_default _ _ (by simp; omega), List.getD_eq_default _ _ (by simp; omega)]

theorem ctsLoop_length (cfg : Config) (EC : EnthalpyConverter) (dzEQ : PetscScalar)
    (zlev : List PetscScalar) (thk : PetscScalar) (Enth w Enth_s : List PetscScalar) (n : Nat) :
    (ctsLoop cfg EC dzEQ zlev thk Enth w Enth_s n).2.length = Enth_s.length := by
  induction n with
  | zero => rfl
  | succ n ih => rw [ctsLoop_succ_snd, List.length_set, ih]

theorem fillFrom_length (lo : Int) (v : PetscScalar) (l : List PetscScalar) (n : Nat) :
    (fillFrom lo v l n).length = l.length := by
  induction n with
  | zero => rfl
  | succ n ih => simp only [fillFrom, List.length_set, ih]

theorem ctsLoop_fst_congr (cfg : Config) (EC : EnthalpyConverter) (dzEQ : PetscScalar)
    (zlev : List PetscScalar) (thk : PetscScalar) (Enth w Enth_s Enth_s' : List PetscScalar)
    (h : Enth_s.length = Enth_s'.length) (n : Nat) :
    (ctsLoop cfg EC dzEQ zlev thk Enth w Enth_s n).1 =
      (ctsLoop cfg EC dzEQ zlev thk Enth w Enth_s' n).1 := by
  induction n with
  | zero => rfl
  | succ n ih =>
    rw [ctsLoop_succ_fst, ctsLoop_succ_fst, ctsLoop_succ_snd, ctsLoop_succ_snd, ih,
      getD_set_same_length _ _ n _
        ((ctsLoop_length cfg EC dzEQ zlev thk Enth w Enth_s n).trans
          (h.trans (ctsLoop_length cfg EC dzEQ zlev thk Enth w Enth_s' n).symm))]

/-- The `lambda` of a column depends on the buffer `iosys.Enth_s` only through its
length. -/
theorem columnCTS_fst_congr (M : IceModel) (fg : FineGrid) (Enth_s Enth_s' : List PetscScalar)
    (i j : Int) (h : Enth_s.length = Enth_s'.length) :
    (columnCTS M fg Enth_s i j).1 = (columnCTS M fg Enth_s' i j).1 :=
  ctsLoop_fst_congr _ _ _ _ _ _ _ _ _ h _

theorem columnCTS_length (M : IceModel) (fg : FineGrid) (Enth_s : List PetscScalar)
    (i j : Int) : (columnCTS M fg Enth_s i j).2.length = Enth_s.length := by
  simp only [columnCTS, getEnthalpyCTSColumn, fillFrom_length, ctsLoop_length]

theorem sacrificedColumns_congr (M : IceModel) (fg : FineGrid)
    (Enth_s Enth_s' : List PetscScalar) (cols : List (Int × Int))
    (h : Enth_s.length = Enth_s'.length) :
    sacrificedColumns M fg Enth_s cols = sacrificedColumns M fg Enth_s' cols := by
  unfold sacrificedColumns
  congr 1
  funext p
  rw [columnCTS_fst_congr M fg Enth_s Enth_s' p.1 p.2 h]

/-- The loop adds to `*vertSacrCount` the number of its columns with `lambda < 1`. -/
theorem columnLoop_vertSacrCount (M : IceModel) (fg : FineGrid) (cp : Couplers)
    (cols : List (Int × Int)) :
    ∀ (st st' : LoopState), columnLoop M fg cp cols st = (0, st') →
      st'.vertSacrCount =
        st.vertSacrCount + (sacrificedColumns M fg st.scratch.Enth_s cols : PetscScalar) := by
  induction cols with
  | nil =>
    intro st st' h
    simp only [columnLoop, Prod.mk.injEq, true_and] at h
    subst h
    simp [sacrificedColumns]
  | cons p rest ih =>
    intro st st' h
    obtain ⟨i, j⟩ := p
    simp only [columnLoop] at h
    split at h
    · rename_i e he
      simp only [Prod.mk.injEq] at h
      exact absurd h.1 (columnStep_errors _ _ _ _ _ _ _ _ _ e he)
    · rename_i r hr
      obtain ⟨_, _, _, _, _, _, _, _, _, _, _, hv, hs⟩ :=
        columnStep_ok_full M fg cp _ _ _ _ i j r hr
      rw [ih (st.store i j r) st' h]
      have hlen : (st.store i j r).scratch.Enth_s.length = st.scratch.Enth_s.length := by
        simp only [LoopState.store, hs, columnCTS_length]
      rw [sacrificedColumns_congr M fg _ _ rest hlen]
      simp only [LoopState.store, hv, sacrificedColumns, List.countP_cons]
      by_cases hl : (columnCTS M fg st.scratch.Enth_s i j).1 < 1
      · simp only [hl, if_true, decide_True, Nat.cast_add, Nat.cast_one]
        ring
      · simp only [hl, if_false, decide_False, Bool.false_eq_true, add_zero]

theorem drainLoop_keep (M : IceModel) (fg : FineGrid) (i j : Int) (st : DrainState)
    (n : Nat) (ds : DrainState) (h : drainLoop M fg i j st n = .ok ds) :
    ds.Enthnew.length = st.Enthnew.length ∧
      (∀ k, n ≤ k → ds.Enthnew.getD k 0 = st.Enthnew.getD k 0) := by
  induction n generalizing ds with
  | zero =>
    simp only [drainLoop] at h
    injection h with h
    subst h
    exact ⟨rfl, fun _ _ => rfl⟩
  | succ n ih =>
    obtain ⟨s, hs, hl⟩ := drainLoop_succ_ok M fg i j st ds n h
    obtain ⟨ihlen, ihkeep⟩ := ih s hs
    obtain ⟨_, hE, _⟩ := drainLevel_ok M fg i j s ds n hl
    refine ⟨by rw [hE, List.length_set, ihlen], ?_⟩
    intro k hk
    rw [hE, getD_set_ne _ _ _ _ (by omega)]
    exact ihkeep k (by omega)

/-- C18, counterexample: the caller's variable holds `3` at entry and the single owned
column has `lambda < 1`; the step returns `0` and leaves `4` in `*vertSacrCount`, while
the number of owned columns with `lambda < 1` is `1`. -/
theorem vertSacrCount_accumulates :
    (enthalpyAndDrainageStep (sampleModel false true 1 [130, 130, 120] [0, 0, 0] (-1))
        (sampleFields 1 1) (sampleScratch 1) 3 0).ierr = 0 ∧
      (enthalpyAndDrainageStep (sampleModel false true 1 [130, 130, 120] [0, 0, 0] (-1))
        (sampleFields 1 1) (sampleScratch 1) 3 0).vertSacrCount = 4 ∧
      sacrificedColumns (sampleModel false true 1 [130, 130, 120] [0, 0, 0] (-1))
        (sampleFineGrid 1) (sampleScratch 1).Enth_s
        (ownedColumns (sampleModel false true 1 [130, 130, 120] [0, 0, 0] (-1))) = 1 := by
  refine ⟨by decide!, by decide!, by decide!⟩

/-- C18, amended: after a call of `enthalpyAndDrainageStep` that returns `0`, the variable
`*vertSacrCount` holds its value at entry plus the number of owned columns whose `lambda`
(from `getEnthalpyCTSColumn`) is `< 1`; it is that number when the caller passes `0`. -/
theorem vertSacrCount_adds_sacrificed_columns (M : IceModel) (F : StepFields) (S : Scratch)
    (v lv : PetscScalar) (hok : (enthalpyAndDrainageStep M F S v lv).ierr = 0) :
    (enthalpyAndDrainageStep M F S v lv).vertSacrCount =
      v + (sacrificedColumns M M.get_fine_vertical_grid.2 S.Enth_s (ownedColumns M)
        : PetscScalar) := by
  obtain ⟨artm, massflux, temp, st', _, _, _, _, _, hloop, _, hv, _⟩ :=
    enthalpyAndDrainageStep_ok M F S v lv hok
  rw [hv, columnLoop_vertSacrCount M _ _ _ _ st' hloop]

/-- Witness for `vertSacrCount_adds_sacrificed_columns`: the sample column with basal
velocity `-1`, counter `0` at entry. -/
theorem vertSacrCount_adds_sacrificed_columns_witness :
    (enthalpyAndDrainageStep (sampleModel false true 1 [130, 130, 120] [0, 0, 0] (-1))
        (sampleFields 1 1) (sampleScratch 1) 0 0).vertSacrCount = 1 :=
  (vertSacrCount_adds_sacrificed_columns
    (sampleModel false true 1 [130, 130, 120] [0, 0, 0] (-1))
    (sampleFields 1 1) (sampleScratch 1) 0 0 (by decide!)).trans (by decide!)

theorem columnStep_fields_congr (M : IceModel) (fg : FineGrid) (cp : Couplers)
    (F F' : StepFields) (S : Scratch) (v : PetscScalar) (l : Int) (i j : Int)
    (h1 : F.Enthnew3 i j = F'.Enthnew3 i j) (h2 : F.Tb3 i j = F'.Tb3 i j)
    (h3 : F.vHmelt i j = F'.vHmelt i j) :
    columnStep M fg cp F S v l i j = columnStep M fg cp F' S v l i j := by
  simp only [columnStep, majorDecision, combinedCase, otherCases, bedrockOnlySolve, h1, h2, h3]

theorem ownedColumns_nodup (M : IceModel) : (ownedColumns M).Nodup := by
  unfold ownedColumns
  rw [List.nodup_flatMap]
  constructor
  · intro a _
    refine (List.nodup_range _).map ?_
    intro b b' hbb
    simp only [Prod.mk.injEq, true_and] at hbb
    omega
  · refine (List.nodup_range _).pairwise_of_forall_ne ?_
    intro a _ a' _ hne
    simp only [Function.onFun, List.disjoint_left, List.mem_map, List.mem_range, not_exists,
      not_and]
    rintro p ⟨b, _, rfl⟩ b' _ hp
    simp only [Prod.mk.injEq] at hp
    omega

/-- After a loop without error over distinct grid points, the four fields hold at every
grid point of the loop what a pass of the loop body at that point returns when it is
given the fields as they were before the loop. -/
theorem columnLoop_from_initial (M : IceModel) (fg : FineGrid) (cp : Couplers)
    (cols : List (Int × Int)) :
    ∀ (st st' : LoopState), cols.Nodup → columnLoop M fg cp cols st = (0, st') →
      ∀ a b, (a, b) ∈ cols → ∃ S v l r,
        columnStep M fg cp st.fields S v l a b = .ok r ∧
        st'.fields.Enthnew3 a b = r.Enthnew3col ∧ st'.fields.Tb3 a b = r.Tb3col ∧
        st'.fields.vbasalMeltRate a b = r.basalMeltRate ∧ st'.fields.vHmelt a b = r.Hmelt := by
  induction cols with
  | nil =>
    intro st st' _ _ a b hab
    simp at hab
  | cons p rest ih =>
    intro st st' hnd h a b hab
    obtain ⟨i, j⟩ := p
    obtain ⟨hnotin, hnd'⟩ := List.nodup_cons.mp hnd
    simp only [columnLoop] at h
    split at h
    · rename_i e he
      simp only [Prod.mk.injEq] at h
      exact absurd h.1 (columnStep_errors _ _ _ _ _ _ _ _ _ e he)
    · rename_i r hr
      rcases List.mem_cons.mp hab with hab | hab
      · simp only [Prod.mk.injEq] at hab
        obtain ⟨rfl, rfl⟩ := hab
        have hfr := columnLoop_frame M fg cp rest (st.store a b r) a b hnotin
        rw [h] at hfr
        obtain ⟨f1, f2, f3, f4⟩ := hfr
        refine ⟨_, _, _, r, hr, ?_, ?_, ?_, ?_⟩
        · rw [f1]; simp [LoopState.store, IceModelVec3.writeColumn]
        · rw [f2]; simp [LoopState.store, IceModelVec3.writeColumn]
        · rw [f3]; simp [LoopState.store, IceModelVec2.write]
        · rw [f4]; simp [LoopState.store, IceModelVec2.write]
      · obtain ⟨S, v, l, r', hr', hres⟩ := ih (st.store i j r) st' hnd' h a b hab
        have hne : ¬ (a = i ∧ b = j) := by
          rintro ⟨ha, hb⟩
          rw [ha, hb] at hab
          exact hnotin hab
        refine ⟨S, v, l, r', ?_, hres⟩
        rw [← hr']
        apply columnStep_fields_congr <;>
          simp [LoopState.store, IceModelVec2.write, IceModelVec3.writeColumn, hne]

/-! ## Fields that are read and written -/

/-- C15, counterexample: the bedrock temperature and the stored basal water are read as
previous-step state and written by the same step.  With bedrock column `[260, 260, 260]`
and stored water `1` before the step, the step returns `0` and leaves the bedrock column
`[260, 260, 5397/20]` in `Tb3` and the stored water `560003/400000` in `vHmelt`; started
with stored water `0` instead it leaves `160003/400000`, so the new value depends on the
old one. -/
theorem bedrock_temperature_and_stored_water_updated_in_place :
    (sampleFields 3 1).Tb3 0 0 = [260, 260, 260] ∧
      (enthalpyAndDrainageStep (sampleModel false true 3 [1447 / 10, 130, 120] [0, 0, 0] 0)
        (sampleFields 3 1) (sampleScratch 3) 0 0).ierr = 0 ∧
      (enthalpyAndDrainageStep (sampleModel false true 3 [1447 / 10, 130, 120] [0, 0, 0] 0)
        (sampleFields 3 1) (sampleScratch 3) 0 0).fields.Tb3 0 0 = [260, 260, 5397 / 20] ∧
      (enthalpyAndDrainageStep (sampleModel false true 3 [1447 / 10, 130, 120] [0, 0, 0] 0)
        (sampleFields 3 1) (sampleScratch 3) 0 0).fields.vHmelt 0 0 = 560003 / 400000 ∧
      (enthalpyAndDrainageStep (sampleModel false true 3 [1447 / 10, 130, 120] [0, 0, 0] 0)
        (sampleFields 3 0) (sampleScratch 3) 0 0).fields.vHmelt 0 0 = 160003 / 400000 := by
  refine ⟨by decide!, by decide!, by decide!, by decide!, by decide!⟩

/-- C15, amended: the step reads the previous enthalpy from `Enth3`, which it does not
write, and writes the new enthalpy to the separate field `Enthnew3`; the bedrock
temperature `Tb3` and the stored basal water `vHmelt` are updated in place.  The update in
place is safe: after a step that returns `0`, the four written fields hold at every owned
column `(i,j)` what the loop body returns for `(i,j)` when it reads `Tb3(i,j)` and
`vHmelt(i,j)` as they were before the step; no column reads a value of these fields that
the step has already written. -/
theorem in_place_fields_read_before_written (M : IceModel) (F : StepFields) (S : Scratch)
    (v lv : PetscScalar) (hok : (enthalpyAndDrainageStep M F S v lv).ierr = 0)
    (i j : Int) (hij : owned M i j) :
    ∃ cp S' v' l' r,
      M.surface = some (0, cp.artm) ∧
      M.ocean = some ((0, cp.shelfbmassflux), (0, cp.shelfbtemp)) ∧
      columnStep M M.get_fine_vertical_grid.2 cp F S' v' l' i j = .ok r ∧
      (enthalpyAndDrainageStep M F S v lv).fields.Enthnew3 i j = r.Enthnew3col ∧
      (enthalpyAndDrainageStep M F S v lv).fields.Tb3 i j = r.Tb3col ∧
      (enthalpyAndDrainageStep M F S v lv).fields.vbasalMeltRate i j = r.basalMeltRate ∧
      (enthalpyAndDrainageStep M F S v lv).fields.vHmelt i j = r.Hmelt := by
  obtain ⟨artm, massflux, temp, st', hs, ho, _, _, _, hloop, hfields, _, _⟩ :=
    enthalpyAndDrainageStep_ok M F S v lv hok
  obtain ⟨S', v', l', r, hr, h1, h2, h3, h4⟩ :=
    columnLoop_from_initial M _ _ (ownedColumns M) _ st' (ownedColumns_nodup M) hloop i j
      ((mem_ownedColumns M i j).mpr hij)
  rw [hfields]
  exact ⟨{ artm := artm, shelfbmassflux := massflux, shelfbtemp := temp }, S', v', l', r,
    hs, ho, hr, h1, h2, h3, h4⟩

/-- Witness for `in_place_fields_read_before_written`: the grounded sample column with a
warm base over three bedrock levels. -/
theorem in_place_fields_read_before_written_witness :
    ∃ (S' : Scratch) (v' : PetscScalar) (l' : Int) (r : ColumnResult),
      columnStep (sampleModel false true 3 [1447 / 10, 130, 120] [0, 0, 0] 0)
        (sampleModel false true 3 [1447 / 10, 130, 120] [0, 0, 0] 0).get_fine_vertical_grid.2
        sampleCouplers (sampleFields 3 1) S' v' l' 0 0 = .ok r ∧
      (enthalpyAndDrainageStep (sampleModel false true 3 [1447 / 10, 130, 120] [0, 0, 0] 0)
        (sampleFields 3 1) (sampleScratch 3) 0 0).fields.Tb3 0 0 = r.Tb3col := by
  obtain ⟨cp, S', v', l', r, hs, ho, hr, _, h2, _, _⟩ :=
    in_place_fields_read_before_written
      (sampleModel false true 3 [1447 / 10, 130, 120] [0, 0, 0] 0)
      (sampleFields 3 1) (sampleScratch 3) 0 0 (by decide!) 0 0 (by decide)
  have hcp : cp = sampleCouplers := by
    obtain ⟨a, m, t⟩ := cp
    simp only [sampleModel, Option.some.injEq, Prod.mk.injEq, true_and] at hs ho
    obtain ⟨hm, ht⟩ := ho
    subst hs hm ht
    rfl
  subst hcp
  exact ⟨S', v', l', r, hr, h2⟩

/-! ## The loop body does not depend on what the work arrays held before -/

theorem ExceptRel_bind {α β α' β' : Type} {R : α → α' → Prop} {Q : β → β' → Prop}
    {x : Except PetscErrorCode α} {y : Except PetscErrorCode α'}
    {f : α → Except PetscErrorCode β} {g : α' → Except PetscErrorCode β'}
    (hxy : ExceptRel R x y) (hfg : ∀ a a', R a a' → ExceptRel Q (f a) (g a')) :
    ExceptRel Q (x >>= f) (y >>= g) := by
  cases x with
  | error e =>
    cases y with
    | error e' => simpa [ExceptRel, bind, Except.bind] using hxy
    | ok b => simp [ExceptRel] at hxy
  | ok a =>
    cases y with
    | error e' => simp [ExceptRel] at hxy
    | ok b => exact hfg a b hxy

theorem ExceptRel_eq_self {α : Type} (x : Except PetscErrorCode α) : ExceptRel Eq x x := by
  cases x <;> simp [ExceptRel]

theorem ExceptRel_self_of {α : Type} (x : Except PetscErrorCode α) (P : α → Prop)
    (h : ∀ a, x = .ok a → P a) : ExceptRel (fun a a' => a = a' ∧ P a) x x := by
  cases x with
  | error e => simp [ExceptRel]
  | ok a => exact ⟨rfl, h a rfl⟩

theorem ExceptRel_pure {α β : Type} {R : α → β → Prop} (a : α) (b : β) (h : R a b) :
    ExceptRel R (pure a : Except PetscErrorCode α) (pure b : Except PetscErrorCode β) := h

theorem ExceptRel_ok_right {α β : Type} {R : α → β → Prop} {x : Except PetscErrorCode α}
    {b : β} (h : ExceptRel R x (.ok b)) : ∃ a, x = .ok a ∧ R a b := by
  cases x with
  | error e => simp [ExceptRel] at h
  | ok a => exact ⟨a, rfl, h⟩

theorem ExceptRel_ok_left {α β : Type} {R : α → β → Prop} {y : Except PetscErrorCode β}
    {a : α} (h : ExceptRel R (.ok a) y) : ∃ b, y = .ok b ∧ R a b := by
  cases y with
  | error e => simp [ExceptRel] at h
  | ok b => exact ⟨b, rfl, h⟩

theorem list_eq_of_getD (l l' : List PetscScalar) (hlen : l.length = l'.length)
    (h : ∀ k, k < l.length → l.getD k 0 = l'.getD k 0) : l = l' := by
  apply List.ext_getElem hlen
  intro k h1 h2
  have := h k h1
  rwa [List.getD_eq_getElem _ _ h1, List.getD_eq_getElem _ _ h2] at this

theorem fillFrom_getD_filled (lo : Int) (v : PetscScalar) (l : List PetscScalar) (n k : Nat)
    (hk : k < l.length) (h1 : lo ≤ (k : Int)) (h2 : (k : Int) < lo + (n : Int)) :
    (fillFrom lo v l n).getD k 0 = v := by
  induction n with
  | zero => omega
  | succ n ih =>
    simp only [fillFrom]
    by_cases hkn : (lo + (n : Int)).toNat = k
    · rw [hkn, getD_set_self _ _ _ (by rw [fillFrom_length]; exact hk)]
    · rw [getD_set_ne _ _ _ _ hkn]
      exact ih (by omega)

theorem ctsLoop_getD_congr (cfg : Config) (EC : EnthalpyConverter) (dzEQ : PetscScalar)
    (zlev : List PetscScalar) (thk : PetscScalar) (Enth w Enth_s Enth_s' : List PetscScalar)
    (h : Enth_s.length = Enth_s'.length) (k : Nat) :
    (ctsLoop cfg EC dzEQ zlev thk Enth w Enth_s (k + 1)).2.getD k 0 =
      (ctsLoop cfg EC dzEQ zlev thk Enth w Enth_s' (k + 1)).2.getD k 0 := by
  rw [ctsLoop_succ_snd, ctsLoop_succ_snd]
  exact getD_set_same_length _ _ _ _
    ((ctsLoop_length cfg EC dzEQ zlev thk Enth w Enth_s k).trans
      (h.trans (ctsLoop_length cfg EC dzEQ zlev thk Enth w Enth_s' k).symm))

/-- The result of `getEnthalpyCTSColumn` does not depend on what the buffer `Enth_s` of
`Mz` entries held before. -/
theorem getEnthalpyCTSColumn_congr (cfg : Config) (EC : EnthalpyConverter)
    (Mz : Int) (dzEQ : PetscScalar) (zlev : List PetscScalar) (thk : PetscScalar) (ks : Int)
    (Enth w Enth_s Enth_s' : List PetscScalar)
    (h : Enth_s.length = Mz.toNat) (h' : Enth_s'.length = Mz.toNat) :
    getEnthalpyCTSColumn cfg EC Mz dzEQ zlev thk ks Enth w Enth_s =
      getEnthalpyCTSColumn cfg EC Mz dzEQ zlev thk ks Enth w Enth_s' := by
  have hl : Enth_s.length = Enth_s'.length := h.trans h'.symm
  refine Prod.ext (ctsLoop_fst_congr _ _ _ _ _ _ _ _ _ hl _) ?_
  have hlen : ∀ E : List PetscScalar,
      (getEnthalpyCTSColumn cfg EC Mz dzEQ zlev thk ks Enth w E).2.length = E.length := by
    intro E
    simp only [getEnthalpyCTSColumn, fillFrom_length, ctsLoop_length]
  apply list_eq_of_getD _ _ ((hlen _).trans (hl.trans (hlen _).symm))
  intro k hk
  rw [hlen, h] at hk
  by_cases hks : (k : Int) ≤ ks
  · rw [getEnthalpyCTSColumn_getD _ _ _ _ _ _ _ _ _ _ k hks,
      getEnthalpyCTSColumn_getD _ _ _ _ _ _ _ _ _ _ k hks]
    exact ctsLoop_getD_congr _ _ _ _ _ _ _ _ _ hl k
  · simp only [getEnthalpyCTSColumn]
    rw [fillFrom_getD_filled _ _ _ _ k (by rw [ctsLoop_length, h]; exact hk) (by omega)
        (by omega),
      fillFrom_getD_filled _ _ _ _ k (by rw [ctsLoop_length, h']; exact hk) (by omega)
        (by omega)]

theorem copyFrom_length (src : List PetscScalar) (off : Int) (dest : List PetscScalar)
    (n : Nat) : (copyFrom src off dest n).length = dest.length := by
  induction n with
  | zero => rfl
  | succ n ih => simp only [copyFrom, List.length_set, ih]

theorem copyFrom_getD_copied (src : List PetscScalar) (off : Int) (dest : List PetscScalar)
    (n k : Nat) (hk : k < dest.length) (hkn : k < n) :
    (copyFrom src off dest n).getD k 0 = src.getD ((k : Int) + off).toNat 0 := by
  induction n with
  | zero => omega
  | succ n ih =>
    simp only [copyFrom]
    by_cases h : n = k
    · subst h
      rw [getD_set_self _ _ _ (by rw [copyFrom_length]; exact hk)]
    · rw [getD_set_ne _ _ _ _ h]
      exact ih (by omega)

/-- Copying `n` entries into a buffer of at most `n` entries gives a result that does not
depend on what the buffer held before. -/
theorem copyFrom_congr (src : List PetscScalar) (off : Int) (dest dest' : List PetscScalar)
    (n : Nat) (h : dest.length = dest'.length) (hn : dest.length ≤ n) :
    copyFrom src off dest n = copyFrom src off dest' n := by
  apply list_eq_of_getD _ _ (by rw [copyFrom_length, copyFrom_length, h])
  intro k hk
  rw [copyFrom_length] at hk
  rw [copyFrom_getD_copied _ _ _ _ k hk (by omega),
    copyFrom_getD_copied _ _ _ _ k (h ▸ hk) (by omega)]

theorem copyFrom_set_congr (src : List PetscScalar) (off : Int) (dest dest' : List PetscScalar)
    (n : Nat) (v : PetscScalar) (h : dest.length = dest'.length) (hn : dest.length ≤ n + 1) :
    (copyFrom src off dest n).set n v = (copyFrom src off dest' n).set n v := by
  apply list_eq_of_getD _ _
    (by rw [List.length_set, List.length_set, copyFrom_length, copyFrom_length, h])
  intro k hk
  rw [List.length_set, copyFrom_length] at hk
  by_cases hkn : n = k
  · subst hkn
    rw [getD_set_self _ _ _ (by rw [copyFrom_length]; exact hk),
      getD_set_self _ _ _ (by rw [copyFrom_length]; exact h ▸ hk)]
  · rw [getD_set_ne _ _ _ _ hkn, getD_set_ne _ _ _ _ hkn,
      copyFrom_getD_copied _ _ _ _ k hk (by omega),
      copyFrom_getD_copied _ _ _ _ k (h ▸ hk) (by omega)]

theorem combinedCase_rel (M : IceModel) (fg : FineGrid) (F : StepFields) (S S' : Scratch)
    (W : OverwritesBuffers M) (hS : Sized fg S) (hS' : Sized fg S')
    (l l' : Int) (i j : Int) (ks : Int) (isMarginal : Bool)
    (lambda Enth_ks p_basal : PetscScalar) (Enth Enth_s w : List PetscScalar)
    (hb : fg.fMbz > 1) :
    ExceptRel (SolveRel fg)
      (combinedCase M fg F S l i j ks isMarginal lambda Enth_ks p_basal Enth Enth_s w)
      (combinedCase M fg F S' l' i j ks isMarginal lambda Enth_ks p_basal Enth Enth_s w) := by
  obtain ⟨hE, hT, _, hx⟩ := hS
  obtain ⟨hE', hT', _, hx'⟩ := hS'
  unfold combinedCase
  refine ExceptRel_bind (ExceptRel_eq_self _) fun u u' hu => ?_
  subst hu
  refine ExceptRel_bind (ExceptRel_eq_self _) fun v v' hv => ?_
  subst hv
  refine ExceptRel_bind (ExceptRel_eq_self _) fun Sigma Sigma' hs => ?_
  subst hs
  refine ExceptRel_bind (ExceptRel_eq_self _) fun Tb Tb' ht => ?_
  subst ht
  dsimp only
  rw [W.combined _ S.xcombined S'.xcombined (hx.trans hx'.symm)]
  refine ExceptRel_bind (ExceptRel_self_of _
    (fun x : List PetscScalar => x.length = (fg.fMbz + fg.fMz - 1).toNat) ?_) fun x x' hxx => ?_
  · intro x hxe
    rw [CHK_eq_ok] at hxe
    rw [← hxe.2, W.combined_length, hx']
  obtain ⟨hxx, hxl⟩ := hxx
  subst hxx
  rw [W.absTemp _ _ ((copyFrom x 0 S.Tbnew (fg.fMbz - 1).toNat).getD (fg.fMbz - 1).toNat 0)
    ((copyFrom x 0 S'.Tbnew (fg.fMbz - 1).toNat).getD (fg.fMbz - 1).toNat 0)]
  split
  · refine ExceptRel_pure _ _ ⟨?_, ?_, rfl, ?_, ?_, ?_, hxl, hxl⟩
    · exact copyFrom_congr _ _ _ _ _ (hE.trans hE'.symm) (by omega)
    · rw [copyFrom_length, hE]
    · rw [List.length_set, copyFrom_length, hT]
    · rw [List.length_set, copyFrom_length, hT']
    · intro _
      exact copyFrom_set_congr _ _ _ _ _ _ (hT.trans hT'.symm) (by omega)
  · simp [ExceptRel, throw, throwThe, MonadExceptOf.throw]

theorem bedrockOnlySolve_rel (M : IceModel) (fg : FineGrid) (cp : Couplers) (F : StepFields)
    (S S' : Scratch) (W : OverwritesBuffers M) (hS : Sized fg S) (hS' : Sized fg S')
    (i j : Int) (p_basal : PetscScalar) :
    ExceptRel (fun b b' => b.1 = b'.1 ∧ b.2.1.length = fg.fMbz.toNat ∧
        b'.2.1.length = fg.fMbz.toNat ∧ (fg.fMbz ≠ 1 → b.2.1 = b'.2.1))
      (bedrockOnlySolve M fg cp F S i j p_basal) (bedrockOnlySolve M fg cp F S' i j p_basal) := by
  obtain ⟨_, hT, _, _⟩ := hS
  obtain ⟨_, hT', _, _⟩ := hS'
  unfold bedrockOnlySolve
  split
  · refine ExceptRel_bind (ExceptRel_eq_self _) fun Tb Tb' ht => ?_
    subst ht
    dsimp only
    rw [W.bedrock _ S.Tbnew S'.Tbnew (hT.trans hT'.symm)]
    refine ExceptRel_bind (ExceptRel_self_of _
      (fun x : List PetscScalar => x.length = fg.fMbz.toNat) ?_) fun x x' hxx => ?_
    · intro x hxe
      rw [CHK_eq_ok] at hxe
      rw [← hxe.2, W.bedrock_length, hT']
    obtain ⟨hxx, hxl⟩ := hxx
    subst hxx
    exact ExceptRel_pure _ _ ⟨rfl, hxl, hxl, fun _ => rfl⟩
  · rename_i hb
    refine ExceptRel_pure _ _ ⟨rfl, hT, hT', ?_⟩
    intro h1
    have h0 : fg.fMbz.toNat = 0 := by omega
    rw [h0] at hT hT'
    rw [List.length_eq_zero.mp hT, List.length_eq_zero.mp hT']

theorem otherCases_rel (M : IceModel) (fg : FineGrid) (cp : Couplers) (F : StepFields)
    (S S' : Scratch) (W : OverwritesBuffers M) (hS : Sized fg S) (hS' : Sized fg S')
    (l l' : Int) (i j : Int) (ks : Int) (isMarginal : Bool)
    (lambda Enth_ks p_basal : PetscScalar) (Enth Enth_s w : List PetscScalar) :
    ExceptRel (SolveRel fg)
      (otherCases M fg cp F S l i j ks isMarginal lambda Enth_ks p_basal Enth Enth_s w)
      (otherCases M fg cp F S' l' i j ks isMarginal lambda Enth_ks p_basal Enth Enth_s w) := by
  have hb := bedrockOnlySolve_rel M fg cp F S S' W hS hS' i j p_basal
  obtain ⟨hE, _, _, hx⟩ := hS
  obtain ⟨hE', _, _, hx'⟩ := hS'
  unfold otherCases
  refine ExceptRel_bind hb fun b b' hbb => ?_
  obtain ⟨hb1, hbl, hbl', hbe⟩ := hbb
  rw [hb1]
  refine ExceptRel_bind (ExceptRel_eq_self _) fun u u' hu => ?_
  subst hu
  refine ExceptRel_bind (ExceptRel_eq_self _) fun v v' hv => ?_
  subst hv
  refine ExceptRel_bind (ExceptRel_eq_self _) fun Sigma Sigma' hs => ?_
  subst hs
  dsimp only
  rw [W.iceenth _ S.Enthnew S'.Enthnew (hE.trans hE'.symm)]
  refine ExceptRel_bind (ExceptRel_self_of _
    (fun x : List PetscScalar => x.length = fg.fMz.toNat) ?_) fun x x' hxx => ?_
  · intro x hxe
    rw [CHK_eq_ok] at hxe
    rw [← hxe.2, W.iceenth_length, hE']
  obtain ⟨hxx, hxl⟩ := hxx
  subst hxx
  exact ExceptRel_pure _ _ ⟨rfl, hxl, rfl, hbl, hbl', hbe, hx, hx'⟩

theorem majorDecision_rel (M : IceModel) (fg : FineGrid) (cp : Couplers) (F : StepFields)
    (S S' : Scratch) (W : OverwritesBuffers M) (hS : Sized fg S) (hS' : Sized fg S')
    (l l' : Int) (i j : Int) (ks : Int) (isMarginal : Bool)
    (lambda Enth_ks p_basal : PetscScalar) (Enth Enth_s w : List PetscScalar) :
    ExceptRel (SolveRel fg)
      (majorDecision M fg cp F S l i j ks isMarginal lambda Enth_ks p_basal Enth Enth_s w)
      (majorDecision M fg cp F S' l' i j ks isMarginal lambda Enth_ks p_basal Enth Enth_s w) := by
  unfold majorDecision
  split
  · rename_i hc
    exact combinedCase_rel M fg F S S' W hS hS' l l' i j ks isMarginal lambda Enth_ks p_basal
      Enth Enth_s w ((coldGroundedWithBedrock_eq_true _ _ _ _ _ _).mp hc).2.2
  · exact otherCases_rel M fg cp F S S' W hS hS' l l' i j ks isMarginal lambda Enth_ks p_basal
      Enth Enth_s w

theorem drainLoop_rel (M : IceModel) (fg : FineGrid) (i j : Int) (st st' : DrainState)
    (hE : st.Enthnew = st'.Enthnew) (hH : st.Hdrainedtotal = st'.Hdrainedtotal) (n : Nat) :
    ExceptRel (fun ds ds' => ds.Enthnew = ds'.Enthnew ∧ ds.Hdrainedtotal = ds'.Hdrainedtotal)
      (drainLoop M fg i j st n) (drainLoop M fg i j st' n) := by
  induction n with
  | zero => exact ⟨hE, hH⟩
  | succ n ih =>
    simp only [drainLoop]
    cases h1 : drainLoop M fg i j st n with
    | error e =>
      cases h2 : drainLoop M fg i j st' n with
      | error e' =>
        rw [h1, h2] at ih
        exact ih
      | ok s' =>
        rw [h1, h2] at ih
        exact absurd ih (by simp [ExceptRel])
    | ok s =>
      cases h2 : drainLoop M fg i j st' n with
      | error e' =>
        rw [h1, h2] at ih
        exact absurd ih (by simp [ExceptRel])
      | ok s' =>
        rw [h1, h2] at ih
        obtain ⟨hsE, hsH⟩ := ih
        simp only [drainLevel, hsE, hsH]
        split
        · exact ⟨rfl, rfl⟩
        · rfl

theorem fillTbnew_congr (M : IceModel) (fg : FineGrid) (cp : Couplers) (i j : Int)
    (W : OverwritesBuffers M) (Enthnew Tbnew Tbnew' : List PetscScalar)
    (hl : Tbnew.length = fg.fMbz.toNat) (hl' : Tbnew'.length = fg.fMbz.toNat)
    (he : fg.fMbz ≠ 1 → Tbnew = Tbnew') :
    fillTbnew M fg cp i j Enthnew Tbnew = fillTbnew M fg cp i j Enthnew Tbnew' := by
  by_cases h1 : fg.fMbz = 1
  · have hset : ∀ T : PetscScalar, Tbnew.set 0 T = Tbnew'.set 0 T := by
      intro T
      apply list_eq_of_getD _ _ (by rw [List.length_set, List.length_set, hl, hl'])
      intro k hk
      rw [List.length_set, hl, h1] at hk
      have hk0 : k = 0 := by simpa using hk
      subst hk0
      rw [getD_set_self _ _ _ (by rw [hl, h1]; decide),
        getD_set_self _ _ _ (by rw [hl', h1]; decide)]
    unfold fillTbnew
    simp only [h1, if_true, hset, W.absTemp _ _ (Tbnew.getD 0 0) (Tbnew'.getD 0 0)]
  · rw [he h1]

theorem fillTbnew_length (M : IceModel) (fg : FineGrid) (cp : Couplers) (i j : Int)
    (Enthnew Tbnew T : List PetscScalar) (h : fillTbnew M fg cp i j Enthnew Tbnew = .ok T) :
    T.length = Tbnew.length := by
  unfold fillTbnew at h
  split at h
  · split at h
    · simp only [pure_eq_ok] at h
      rw [← h, List.length_set]
    · simp only [bind_eq_ok, CHK_eq_ok, pure_eq_ok] at h
      obtain ⟨_, _, h⟩ := h
      rw [← h, List.length_set]
  · simp only [pure_eq_ok] at h
    rw [h]

/-- Two passes of the loop body at the same column, started with work arrays of the
allocated sizes and with any values of the counters, agree: both fail with the same error
code, or both succeed, write the same values to the four fields and leave work arrays of
the allocated sizes. -/
theorem columnStep_rel (M : IceModel) (fg : FineGrid) (cp : Couplers) (F : StepFields)
    (S S' : Scratch) (W : OverwritesBuffers M) (hS : Sized fg S) (hS' : Sized fg S')
    (v v' : PetscScalar) (l l' : Int) (i j : Int) :
    ExceptRel (fun r r' => r.out = r'.out ∧ Sized fg r.scratch ∧ Sized fg r'.scratch)
      (columnStep M fg cp F S v l i j) (columnStep M fg cp F S' v' l' i j) := by
  have hmd := fun isMarginal lambda Enth_ks p_basal Enth Enth_s w =>
    majorDecision_rel M fg cp F S S' W hS hS' l l' i j ⌊M.vH i j / fg.fdz⌋ isMarginal lambda
      Enth_ks p_basal Enth Enth_s w
  obtain ⟨hE, hT, hEs, hx⟩ := hS
  obtain ⟨hE', hT', hEs', hx'⟩ := hS'
  unfold columnStep
  dsimp only
  refine ExceptRel_bind (ExceptRel_eq_self _) fun a a' ha => ?_
  subst ha
  refine ExceptRel_bind (ExceptRel_eq_self _) fun Enth_ks Enth_ks' hk => ?_
  subst hk
  refine ExceptRel_bind (ExceptRel_eq_self _) fun Enth Enth' he => ?_
  subst he
  refine ExceptRel_bind (ExceptRel_eq_self _) fun w w' hw => ?_
  subst hw
  rw [getEnthalpyCTSColumn_congr M.config M.EC fg.fMz fg.fdz fg.fzlev (M.vH i j)
    ⌊M.vH i j / fg.fdz⌋ Enth w S.Enth_s S'.Enth_s hEs hEs']
  refine ExceptRel_bind (hmd _ _ _ _ _ _ _) fun sr sr' hsr => ?_
  obtain ⟨hsE, hsEl, hsb, hsT, hsT', hsTe, hsx, hsx'⟩ := hsr
  refine ExceptRel_bind
    (R := fun ds ds' => (ds.Enthnew = ds'.Enthnew ∧ ds.Hdrainedtotal = ds'.Hdrainedtotal) ∧
      ds.Enthnew.length = fg.fMz.toNat) ?_ fun ds ds' hds => ?_
  · have h1 := drainLoop_rel M fg i j
      { Enthnew := sr.Enthnew, Hdrainedtotal := 0, liquifiedCount := sr.liquifiedCount }
      { Enthnew := sr'.Enthnew, Hdrainedtotal := 0, liquifiedCount := sr'.liquifiedCount }
      hsE rfl ⌊M.vH i j / fg.fdz⌋.toNat
    cases hd : drainLoop M fg i j
        { Enthnew := sr.Enthnew, Hdrainedtotal := 0, liquifiedCount := sr.liquifiedCount }
        ⌊M.vH i j / fg.fdz⌋.toNat with
    | error e =>
      rw [hd] at h1
      cases hd' : drainLoop M fg i j
          { Enthnew := sr'.Enthnew, Hdrainedtotal := 0, liquifiedCount := sr'.liquifiedCount }
          ⌊M.vH i j / fg.fdz⌋.toNat with
      | error e' => rw [hd'] at h1; exact h1
      | ok d' => rw [hd'] at h1; exact absurd h1 (by simp [ExceptRel])
    | ok d =>
      rw [hd] at h1
      cases hd' : drainLoop M fg i j
          { Enthnew := sr'.Enthnew, Hdrainedtotal := 0, liquifiedCount := sr'.liquifiedCount }
          ⌊M.vH i j / fg.fdz⌋.toNat with
      | error e' => rw [hd'] at h1; exact absurd h1 (by simp [ExceptRel])
      | ok d' =>
        rw [hd'] at h1
        exact ⟨h1, by rw [(drainLoop_keep M fg i j _ _ d hd).1]; exact hsEl⟩
  obtain ⟨⟨hdE, hdH⟩, hdl⟩ := hds
  rw [hdE]
  refine ExceptRel_bind (ExceptRel_eq_self _) fun col col' hc => ?_
  subst hc
  rw [fillTbnew_congr M fg cp i j W ds'.Enthnew sr.Tbnew sr'.Tbnew hsT hsT' hsTe]
  refine ExceptRel_bind (ExceptRel_self_of _
    (fun T : List PetscScalar => T.length = fg.fMbz.toNat) ?_) fun T T' hTT => ?_
  · intro T hTe
    rw [fillTbnew_length M fg cp i j _ _ T hTe, hsT']
  obtain ⟨hTT, hTl⟩ := hTT
  subst hTT
  refine ExceptRel_bind (ExceptRel_eq_self _) fun tcol tcol' htc => ?_
  subst htc
  refine ExceptRel_pure _ _ ⟨?_, ?_, ?_⟩
  · simp only [ColumnResult.out, hsb, hdH]
  · have hdl' : ds'.Enthnew.length = fg.fMz.toNat := hdE ▸ hdl
    refine ⟨?_, hTl, ?_, hsx⟩
    · exact hdl'
    · show (getEnthalpyCTSColumn M.config M.EC fg.fMz fg.fdz fg.fzlev (M.vH i j)
        ⌊M.vH i j / fg.fdz⌋ Enth w S'.Enth_s).2.length = fg.fMz.toNat
      simp only [getEnthalpyCTSColumn, fillFrom_length, ctsLoop_length, hEs']
  · have hdl' : ds'.Enthnew.length = fg.fMz.toNat := hdE ▸ hdl
    refine ⟨?_, hTl, ?_, hsx'⟩
    · exact hdl'
    · show (getEnthalpyCTSColumn M.config M.EC fg.fMz fg.fdz fg.fzlev (M.vH i j)
        ⌊M.vH i j / fg.fdz⌋ Enth w S'.Enth_s).2.length = fg.fMz.toNat
      simp only [getEnthalpyCTSColumn, fillFrom_length, ctsLoop_length, hEs']

/-! ## The fields after the loop do not depend on the order of the columns -/

theorem ColumnResult.out_eq (r r' : ColumnResult) (h : r.out = r'.out) :
    r.Enthnew3col = r'.Enthnew3col ∧ r.Tb3col = r'.Tb3col ∧
      r.basalMeltRate = r'.basalMeltRate ∧ r.Hmelt = r'.Hmelt := by
  simp only [ColumnResult.out, Prod.mk.injEq] at h
  exact h

/-- After a loop without error over distinct grid points, started with work arrays of the
allocated sizes, the four fields hold at every grid point of the loop what the loop body
returns there when it is given the fields as they were before the loop and any work
arrays of the allocated sizes and counters. -/
theorem columnLoop_sized_from_initial (M : IceModel) (fg : FineGrid) (cp : Couplers)
    (W : OverwritesBuffers M) (cols : List (Int × Int)) :
    ∀ (st st' : LoopState), cols.Nodup → Sized fg st.scratch →
      columnLoop M fg cp cols st = (0, st') →
      ∀ a b, (a, b) ∈ cols → ∀ S0 v0 l0, Sized fg S0 → ∃ r0,
        columnStep M fg cp st.fields S0 v0 l0 a b = .ok r0 ∧
        st'.fields.Enthnew3 a b = r0.Enthnew3col ∧ st'.fields.Tb3 a b = r0.Tb3col ∧
        st'.fields.vbasalMeltRate a b = r0.basalMeltRate ∧
        st'.fields.vHmelt a b = r0.Hmelt := by
  induction cols with
  | nil =>
    intro st st' _ _ _ a b hab
    simp at hab
  | cons p rest ih =>
    intro st st' hnd hS h a b hab S0 v0 l0 hS0
    obtain ⟨i, j⟩ := p
    obtain ⟨hnotin, hnd'⟩ := List.nodup_cons.mp hnd
    simp only [columnLoop] at h
    split at h
    · rename_i e he
      simp only [Prod.mk.injEq] at h
      exact absurd h.1 (columnStep_errors _ _ _ _ _ _ _ _ _ e he)
    · rename_i r hr
      have hrr := columnStep_rel M fg cp st.fields st.scratch st.scratch W hS hS
        st.vertSacrCount st.vertSacrCount st.liquifiedCount st.liquifiedCount i j
      rw [hr] at hrr
      have hSr : Sized fg r.scratch := hrr.2.1
      rcases List.mem_cons.mp hab with hab | hab
      · simp only [Prod.mk.injEq] at hab
        obtain ⟨rfl, rfl⟩ := hab
        have h0 := columnStep_rel M fg cp st.fields S0 st.scratch W hS0 hS
          v0 st.vertSacrCount l0 st.liquifiedCount a b
        rw [hr] at h0
        obtain ⟨r0, hr0, hout, _⟩ := ExceptRel_ok_right h0
        obtain ⟨o1, o2, o3, o4⟩ := ColumnResult.out_eq _ _ hout
        have hfr := columnLoop_frame M fg cp rest (st.store a b r) a b hnotin
        rw [h] at hfr
        obtain ⟨f1, f2, f3, f4⟩ := hfr
        refine ⟨r0, hr0, ?_, ?_, ?_, ?_⟩
        · rw [f1, o1]; simp [LoopState.store, IceModelVec3.writeColumn]
        · rw [f2, o2]; simp [LoopState.store, IceModelVec3.writeColumn]
        · rw [f3, o3]; simp [LoopState.store, IceModelVec2.write]
        · rw [f4, o4]; simp [LoopState.store, IceModelVec2.write]
      · obtain ⟨r0, hr0, hres⟩ :=
          ih (st.store i j r) st' hnd' hSr h a b hab S0 v0 l0 hS0
        have hne : ¬ (a = i ∧ b = j) := by
          rintro ⟨ha, hb⟩
          rw [ha, hb] at hab
          exact hnotin hab
        refine ⟨r0, ?_, hres⟩
        rw [← hr0]
        apply columnStep_fields_congr <;>
          simp [LoopState.store, IceModelVec2.write, IceModelVec3.writeColumn, hne]

/-- A loop over distinct grid points, started with work arrays of the allocated sizes,
ends without error if the loop body succeeds at each of its grid points when it is given
the fields as they were before the loop. -/
theorem columnLoop_succeeds (M : IceModel) (fg : FineGrid) (cp : Couplers)
    (W : OverwritesBuffers M) (cols : List (Int × Int)) :
    ∀ (st : LoopState), cols.Nodup → Sized fg st.scratch →
      (∀ a b, (a, b) ∈ cols → ∃ S0 v0 l0 r0, Sized fg S0 ∧
        columnStep M fg cp st.fields S0 v0 l0 a b = .ok r0) →
      (columnLoop M fg cp cols st).1 = 0 := by
  induction cols with
  | nil =>
    intro st _ _ _
    rfl
  | cons p rest ih =>
    intro st hnd hS hall
    obtain ⟨i, j⟩ := p
    obtain ⟨hnotin, hnd'⟩ := List.nodup_cons.mp hnd
    obtain ⟨S0, v0, l0, r0, hS0, hr0⟩ := hall i j (List.mem_cons_self _ _)
    have h0 := columnStep_rel M fg cp st.fields S0 st.scratch W hS0 hS
      v0 st.vertSacrCount l0 st.liquifiedCount i j
    rw [hr0] at h0
    obtain ⟨r, hr, _, _, hSr⟩ := ExceptRel_ok_left h0
    simp only [columnLoop, hr]
    apply ih (st.store i j r) hnd' hSr
    intro a b hab
    obtain ⟨S1, v1, l1, r1, hS1, hr1⟩ := hall a b (List.mem_cons_of_mem _ hab)
    have hne : ¬ (a = i ∧ b = j) := by
      rintro ⟨ha, hb⟩
      rw [ha, hb] at hab
      exact hnotin hab
    refine ⟨S1, v1, l1, r1, hS1, ?_⟩
    rw [← hr1]
    apply columnStep_fields_congr <;>
      simp [LoopState.store, IceModelVec2.write, IceModelVec3.writeColumn, hne]

/-- The sample systems that fill their buffer and the sample converter meet the contract
`OverwritesBuffers`. -/
theorem sampleModelTwo_overwrites : OverwritesBuffers sampleModelTwo where
  combined := by
    intro c x y h
    simp only [sampleModelTwo, sampleSystemsInPlace, h]
  bedrock := by
    intro c x y h
    simp only [sampleModelTwo, sampleSystemsInPlace, h]
  iceenth := by
    intro c x y h
    simp only [sampleModelTwo, sampleSystemsInPlace, h]
  combined_length := by
    intro c x
    simp [sampleModelTwo, sampleSystemsInPlace]
  bedrock_length := by
    intro c x
    simp [sampleModelTwo, sampleSystemsInPlace]
  iceenth_length := by
    intro c x
    simp [sampleModelTwo, sampleSystemsInPlace]
  absTemp := by
    intro E p a b
    rfl

/-- C14: provided that the routines which fill a buffer handed to them define all of it
(`solveThisColumn` of the three column systems, `getAbsTemp`) and the work arrays have
their allocated sizes, for a step that returns `0`: (1) at every owned column the four
written fields hold what the loop body returns for that column from the fields as they
were before the step and the coupler fields alone, whatever the work arrays and counters
hold when the column is processed; (2) processing the owned columns in any other order
also ends without error and leaves the same four fields `Enthnew3`, `Tb3`,
`vbasalMeltRate` and `vHmelt`. -/
theorem column_order_independent (M : IceModel) (F : StepFields) (S : Scratch)
    (v lv : PetscScalar) (cp : Couplers)
    (hs : M.surface = some (0, cp.artm))
    (ho : M.ocean = some ((0, cp.shelfbmassflux), (0, cp.shelfbtemp)))
    (W : OverwritesBuffers M) (hS : Sized M.get_fine_vertical_grid.2 S)
    (hok : (enthalpyAndDrainageStep M F S v lv).ierr = 0) :
    (∀ i j, owned M i j → ∀ S0 v0 l0, Sized M.get_fine_vertical_grid.2 S0 → ∃ r0,
      columnStep M M.get_fine_vertical_grid.2 cp F S0 v0 l0 i j = .ok r0 ∧
      (enthalpyAndDrainageStep M F S v lv).fields.Enthnew3 i j = r0.Enthnew3col ∧
      (enthalpyAndDrainageStep M F S v lv).fields.Tb3 i j = r0.Tb3col ∧
      (enthalpyAndDrainageStep M F S v lv).fields.vbasalMeltRate i j = r0.basalMeltRate ∧
      (enthalpyAndDrainageStep M F S v lv).fields.vHmelt i j = r0.Hmelt) ∧
    (∀ cols : List (Int × Int), (ownedColumns M).Perm cols →
      (columnLoop M M.get_fine_vertical_grid.2 cp cols
        { fields := F, scratch := S, vertSacrCount := v, liquifiedCount := 0 }).1 = 0 ∧
      ∀ a b,
        (columnLoop M M.get_fine_vertical_grid.2 cp cols
          { fields := F, scratch := S, vertSacrCount := v, liquifiedCount := 0 }).2.fields.Enthnew3
            a b = (enthalpyAndDrainageStep M F S v lv).fields.Enthnew3 a b ∧
        (columnLoop M M.get_fine_vertical_grid.2 cp cols
          { fields := F, scratch := S, vertSacrCount := v, liquifiedCount := 0 }).2.fields.Tb3
            a b = (enthalpyAndDrainageStep M F S v lv).fields.Tb3 a b ∧
        (columnLoop M M.get_fine_vertical_grid.2 cp cols
          { fields := F, scratch := S, vertSacrCount := v, liquifiedCount := 0
            }).2.fields.vbasalMeltRate a b =
          (enthalpyAndDrainageStep M F S v lv).fields.vbasalMeltRate a b ∧
        (columnLoop M M.get_fine_vertical_grid.2 cp cols
          { fields := F, scratch := S, vertSacrCount := v, liquifiedCount := 0 }).2.fields.vHmelt
            a b = (enthalpyAndDrainageStep M F S v lv).fields.vHmelt a b) := by
  obtain ⟨artm, massflux, temp, st', hs', ho', _, _, _, hloop, hfields, _, _⟩ :=
    enthalpyAndDrainageStep_ok M F S v lv hok
  have hcp : cp = { artm := artm, shelfbmassflux := massflux, shelfbtemp := temp } := by
    obtain ⟨a, m, t⟩ := cp
    rw [hs] at hs'
    rw [ho] at ho'
    simp only [Option.some.injEq, Prod.mk.injEq, true_and] at hs' ho'
    obtain ⟨hm, ht⟩ := ho'
    subst hs' hm ht
    rfl
  rw [← hcp] at hloop
  have hfirst := columnLoop_sized_from_initial M M.get_fine_vertical_grid.2 cp W
    (ownedColumns M) _ st' (ownedColumns_nodup M) hS hloop
  constructor
  · intro i j hij S0 v0 l0 hS0
    rw [hfields]
    exact hfirst i j ((mem_ownedColumns M i j).mpr hij) S0 v0 l0 hS0
  · intro cols hperm
    have hnd : cols.Nodup := hperm.nodup_iff.mp (ownedColumns_nodup M)
    have hsucc : (columnLoop M M.get_fine_vertical_grid.2 cp cols
        { fields := F, scratch := S, vertSacrCount := v, liquifiedCount := 0 }).1 = 0 := by
      apply columnLoop_succeeds M _ cp W cols _ hnd hS
      intro a b hab
      obtain ⟨r0, hr0, _⟩ := hfirst a b (hperm.mem_iff.mpr hab) S 0 0 hS
      exact ⟨S, 0, 0, r0, hS, hr0⟩
    refine ⟨hsucc, ?_⟩
    intro a b
    rw [hfields]
    by_cases hab : (a, b) ∈ cols
    · obtain ⟨r0, hr0, e1, e2, e3, e4⟩ :=
        hfirst a b (hperm.mem_iff.mpr hab) S 0 0 hS
      obtain ⟨r1, hr1, g1, g2, g3, g4⟩ :=
        columnLoop_sized_from_initial M M.get_fine_vertical_grid.2 cp W cols _ _ hnd hS
          (Prod.ext hsucc rfl) a b hab S 0 0 hS
      have hr : r1 = r0 := by
        have := hr1.symm.trans hr0
        injection this
      subst hr
      exact ⟨g1.trans e1.symm, g2.trans e2.symm, g3.trans e3.symm, g4.trans e4.symm⟩
    · obtain ⟨f1, f2, f3, f4⟩ := columnLoop_frame M M.get_fine_vertical_grid.2 cp cols
        { fields := F, scratch := S, vertSacrCount := v, liquifiedCount := 0 } a b hab
      obtain ⟨k1, k2, k3, k4⟩ := columnLoop_frame M M.get_fine_vertical_grid.2 cp
        (ownedColumns M)
        { fields := F, scratch := S, vertSacrCount := v, liquifiedCount := 0 } a b
        (fun hh => hab (hperm.mem_iff.mp hh))
      rw [hloop] at k1 k2 k3 k4
      exact ⟨f1.trans k1.symm, f2.trans k2.symm, f3.trans k3.symm, f4.trans k4.symm⟩

/-- The two-column sample model: visiting `(1,0)` before `(0,0)` ends without error and
leaves the bedrock temperature `[260, 260, 5397/20]` and the stored water
`560003/400000` at `(1,0)`, as the step does, and the loop body returns the same for
`(1,0)` when the work arrays hold other values. -/
theorem column_order_independent_witness :
    (enthalpyAndDrainageStep sampleModelTwo (sampleFields 3 1) (sampleScratch 3) 0 0).ierr = 0 ∧
    Sized sampleModelTwo.get_fine_vertical_grid.2 (sampleScratch 3) ∧
    (ownedColumns sampleModelTwo).Perm [(1, 0), (0, 0)] ∧
    (columnLoop sampleModelTwo sampleModelTwo.get_fine_vertical_grid.2 sampleCouplers
      [(1, 0), (0, 0)]
      { fields := sampleFields 3 1, scratch := sampleScratch 3, vertSacrCount := 0,
        liquifiedCount := 0 }).1 = 0 ∧
    (columnLoop sampleModelTwo sampleModelTwo.get_fine_vertical_grid.2 sampleCouplers
      [(1, 0), (0, 0)]
      { fields := sampleFields 3 1, scratch := sampleScratch 3, vertSacrCount := 0,
        liquifiedCount := 0 }).2.fields.Tb3 1 0 =
      (enthalpyAndDrainageStep sampleModelTwo (sampleFields 3 1) (sampleScratch 3) 0
        0).fields.Tb3 1 0 ∧
    (enthalpyAndDrainageStep sampleModelTwo (sampleFields 3 1) (sampleScratch 3) 0
      0).fields.Tb3 1 0 = [260, 260, 5397 / 20] ∧
    (enthalpyAndDrainageStep sampleModelTwo (sampleFields 3 1) (sampleScratch 3) 0
      0).fields.vHmelt 1 0 = 560003 / 400000 ∧
    ∃ r0, columnStep sampleModelTwo sampleModelTwo.get_fine_vertical_grid.2 sampleCouplers
        (sampleFields 3 1)
        { Enthnew := [7, 7, 7], Tbnew := [8, 8, 8], xcombined := [9, 9, 9, 9, 9],
          Enth_s := [1, 2, 3] } 5 6 1 0 = .ok r0 ∧
      (enthalpyAndDrainageStep sampleModelTwo (sampleFields 3 1) (sampleScratch 3) 0
        0).fields.Tb3 1 0 = r0.Tb3col :=
  have h := column_order_independent sampleModelTwo (sampleFields 3 1) (sampleScratch 3) 0 0
    sampleCouplers rfl rfl sampleModelTwo_overwrites (by decide) (by decide!)
  have hp : (ownedColumns sampleModelTwo).Perm [(1, 0), (0, 0)] := List.Perm.swap _ _ _
  have h1 := h.1 1 0 (by decide)
    { Enthnew := [7, 7, 7], Tbnew := [8, 8, 8], xcombined := [9, 9, 9, 9, 9],
      Enth_s := [1, 2, 3] } 5 6 (by decide)
  ⟨by decide!, by decide, hp, (h.2 _ hp).1, ((h.2 _ hp).2 1 0).2.1, by decide!, by decide!,
    h1.imp fun _ hr => ⟨hr.1, hr.2.2.1⟩⟩

/-! ## The call of the ice-only system -/

/-- What the ice-only system has been given when the non-combined path solves it. -/
theorem otherCases_call (M : IceModel) (fg : FineGrid) (cp : Couplers) (F : StepFields)
    (S : Scratch) (l : Int) (i j : Int) (ks : Int) (isMarginal : Bool)
    (lambda Enth_ks p_basal : PetscScalar) (Enth Enth_s w : List PetscScalar) (sr : SolveResult)
    (h : otherCases M fg cp F S l i j ks isMarginal lambda Enth_ks p_basal Enth Enth_s w
      = .ok sr) :
    ∃ b c, bedrockOnlySolve M fg cp F S i j p_basal = .ok b ∧
      sr.calls = b.2.2 ++ [SystemCall.iceenthOnly c] ∧
      c.isMarginal = isMarginal ∧ c.Enth = Enth ∧ c.Enth_s = Enth_s ∧ c.w = w ∧
      c.u = iosysU M fg i j ∧ c.v = iosysV M fg i j ∧ c.Sigma = iosysSigma M fg i j ∧
      (c.a0, c.a1, c.rhs) =
        (lowestLevelEqn M fg.fdz i j isMarginal b.1 Enth Enth_s w (iosysU M fg i j)
          (iosysV M fg i j) (iosysSigma M fg i j)
          (meltRateAtBase M cp.shelfbmassflux i j b.1 Enth Enth_s)).1 := by
  simp only [otherCases, bind_eq_ok, CHK_eq_ok, pure_eq_ok] at h
  obtain ⟨b, hb, u, ⟨_, hu⟩, v, ⟨_, hv⟩, Sigma, ⟨_, hSig⟩, Enthnew, _, h⟩ := h
  subst h
  have hu' : u = iosysU M fg i j := hu.symm
  have hv' : v = iosysV M fg i j := hv.symm
  have hS' : Sigma = iosysSigma M fg i j := hSig.symm
  subst hu' hv' hS'
  exact ⟨b, _, hb, rfl, rfl, rfl, rfl, rfl, rfl, rfl, rfl, rfl⟩

/-- The call of the ice-only system made by a pass of the loop body on the non-combined
path, with the heat flux `hf_base` it uses. -/
theorem columnStep_call (M : IceModel) (fg : FineGrid) (cp : Couplers)
    (F : StepFields) (S : Scratch) (v : PetscScalar) (l : Int) (i j : Int) (r : ColumnResult)
    (h : columnStep M fg cp F S v l i j = .ok r)
    (hn : ¬ ((iosysEnth M fg i j).getD 0 0 < (columnCTS M fg S.Enth_s i j).2.getD 0 0 ∧
      M.is_floating i j = false ∧ fg.fMbz > 1)) :
    ∃ (hf_base : PetscScalar) (c : IceColumn),
      r.calls.getLast? = some (SystemCall.iceenthOnly c) ∧
      (fg.fMbz > 1 → ∃ Tbnew,
        M.sys.bedrockSolve
          { i := i, j := j, ks := -1, Tb := (M.vec.getValColumn (F.Tb3 i j) fg.fMbz fg.fzblev).2,
            Tbtop := if M.is_floating i j = true then cp.shelfbtemp i j
              else M.EC.getMeltingTemp (M.EC.getPressureFromDepth (M.vH i j)),
            Ghf := M.vGhf i j } S.Tbnew = (0, Tbnew) ∧
          hf_base = M.sys.extractHeatFluxFromSoln Tbnew) ∧
      (fg.fMbz = 1 → hf_base = M.vGhf i j) ∧
      c.isMarginal = isMarginalAt M i j ∧ c.Enth = iosysEnth M fg i j ∧
      c.Enth_s = (columnCTS M fg S.Enth_s i j).2 ∧ c.w = iosysW M fg i j ∧
      c.u = iosysU M fg i j ∧ c.v = iosysV M fg i j ∧ c.Sigma = iosysSigma M fg i j ∧
      (c.a0, c.a1, c.rhs) =
        (lowestLevelEqn M fg.fdz i j (isMarginalAt M i j) hf_base (iosysEnth M fg i j)
          (columnCTS M fg S.Enth_s i j).2 (iosysW M fg i j) (iosysU M fg i j)
          (iosysV M fg i j) (iosysSigma M fg i j)
          (meltRateAtBase M cp.shelfbmassflux i j hf_base (iosysEnth M fg i j)
            (columnCTS M fg S.Enth_s i j).2)).1 := by
  simp only [columnStep, bind_eq_ok, pure_eq_ok, CHK_eq_ok] at h
  obtain ⟨_, _, Enth_ks, _, Enth, ⟨_, h3⟩, w, ⟨_, h4⟩, sr, hmd, ds, _, _, _, _, _, _, _, hr⟩ := h
  subst hr
  have hE : Enth = iosysEnth M fg i j := h3.symm
  have hw : w = iosysW M fg i j := h4.symm
  subst hE hw
  have hng : coldGroundedWithBedrock M fg i j (iosysEnth M fg i j)
      (columnCTS M fg S.Enth_s i j).2 ≠ true := by
    rw [Ne, coldGroundedWithBedrock_eq_true]
    exact hn
  have hmd' : majorDecision M fg cp F S l i j ⌊M.vH i j / fg.fdz⌋ (isMarginalAt M i j)
      (columnCTS M fg S.Enth_s i j).1 Enth_ks (M.EC.getPressureFromDepth (M.vH i j))
      (iosysEnth M fg i j) (columnCTS M fg S.Enth_s i j).2 (iosysW M fg i j) = .ok sr := hmd
  simp only [majorDecision, if_neg hng] at hmd'
  obtain ⟨b, c, hb, hcalls, hm, hcE, hcEs, hcw, hcu, hcv, hcS, hrow⟩ :=
    otherCases_call _ _ _ _ _ _ _ _ _ _ _ _ _ _ _ _ _ hmd'
  obtain ⟨hb1, hb2⟩ := bedrockOnlySolve_heat_flux _ _ _ _ _ _ _ _ b hb
  refine ⟨b.1, c, ?_, fun hgt => ⟨b.2.1, (hb1 hgt).1, (hb1 hgt).2⟩,
    fun h1 => hb2 (by omega), hm, hcE, hcEs, hcw, hcu, hcv, hcS, hrow⟩
  show sr.calls.getLast? = _
  rw [hcalls]
  simp

/-! ## The bottom row of the ice-only system -/

/-- C21: on the non-combined path of the loop body, the row `(a0, a1, rhs)` given to
`iosys.setLevel0EqnThisColumn` before `iosys.solveThisColumn` is, in the cold-base case
(`Enth[0] < Enth_s[0]`), the prescribed-flux row `(1, -1, C*(hf_base + Rb))` with
`C = ice_c*fdz/ice_k`; in the warm-base case it is
`(1 - alpha) * (b0, b1, r) + alpha * (1, -1, C*(hf_base + Rb))`, where `(b0, b1, r)` is
the outflow row `(1 - nu, nu, r_out)` with `nu = (dt/fdz)*w[0]` when `w[0] < 0` and the
Dirichlet row `(1, 0, Enth_s[0])` otherwise, and
`alpha = 1 - (Enth[0] - Enth_s[0])/warm_dE` when `Enth[0] < Enth_s[0] + warm_dE` and `0`
otherwise.  Here `hf_base` is the heat flux extracted from the bedrock-only solution when
`fMbz > 1` and `Ghf(i,j)` when `fMbz == 1`. -/
theorem ice_only_bottom_row (M : IceModel) (fg : FineGrid) (cp : Couplers)
    (F : StepFields) (S : Scratch) (v : PetscScalar) (l : Int) (i j : Int) (r : ColumnResult)
    (h : columnStep M fg cp F S v l i j = .ok r)
    (hn : ¬ ((iosysEnth M fg i j).getD 0 0 < (columnCTS M fg S.Enth_s i j).2.getD 0 0 ∧
      M.is_floating i j = false ∧ fg.fMbz > 1)) :
    ∃ (hf_base : PetscScalar) (c : IceColumn),
      r.calls.getLast? = some (SystemCall.iceenthOnly c) ∧
      (fg.fMbz > 1 → ∃ Tbnew,
        M.sys.bedrockSolve
          { i := i, j := j, ks := -1, Tb := (M.vec.getValColumn (F.Tb3 i j) fg.fMbz fg.fzblev).2,
            Tbtop := if M.is_floating i j = true then cp.shelfbtemp i j
              else M.EC.getMeltingTemp (M.EC.getPressureFromDepth (M.vH i j)),
            Ghf := M.vGhf i j } S.Tbnew = (0, Tbnew) ∧
          hf_base = M.sys.extractHeatFluxFromSoln Tbnew) ∧
      (fg.fMbz = 1 → hf_base = M.vGhf i j) ∧
      ((iosysEnth M fg i j).getD 0 0 < (columnCTS M fg S.Enth_s i j).2.getD 0 0 →
        c.a0 = 1 ∧ c.a1 = -1 ∧
        c.rhs = M.config.ice_specific_heat_capacity * fg.fdz /
          M.config.ice_thermal_conductivity * (hf_base + M.vRb i j)) ∧
      (¬ (iosysEnth M fg i j).getD 0 0 < (columnCTS M fg S.Enth_s i j).2.getD 0 0 →
        ∃ alpha b0 b1 rr : PetscScalar,
          alpha =
            (if (iosysEnth M fg i j).getD 0 0 <
                (columnCTS M fg S.Enth_s i j).2.getD 0 0 + warm_dE M.config
             then 1 - ((iosysEnth M fg i j).getD 0 0 -
                (columnCTS M fg S.Enth_s i j).2.getD 0 0) / warm_dE M.config
             else 0) ∧
          ((iosysW M fg i j).getD 0 0 < 0 →
            b0 = 1 - (M.dtTempAge / fg.fdz) * (iosysW M fg i j).getD 0 0 ∧
            b1 = (M.dtTempAge / fg.fdz) * (iosysW M fg i j).getD 0 0 ∧
            rr = outflowRhs M i j (isMarginalAt M i j) (iosysEnth M fg i j) (iosysU M fg i j)
              (iosysV M fg i j) (iosysSigma M fg i j)) ∧
          (¬ (iosysW M fg i j).getD 0 0 < 0 →
            b0 = 1 ∧ b1 = 0 ∧ rr = (columnCTS M fg S.Enth_s i j).2.getD 0 0) ∧
          c.a0 = (1 - alpha) * b0 + alpha * 1 ∧
          c.a1 = (1 - alpha) * b1 + alpha * (-1) ∧
          c.rhs = (1 - alpha) * rr + alpha *
            (M.config.ice_specific_heat_capacity * fg.fdz /
              M.config.ice_thermal_conductivity * (hf_base + M.vRb i j))) := by
  obtain ⟨hf_base, c, hlast, hf1, hf2, _, _, _, _, _, _, _, hrow⟩ :=
    columnStep_call M fg cp F S v l i j r h hn
  refine ⟨hf_base, c, hlast, hf1, hf2, ?_, ?_⟩
  · intro hcold
    simp only [lowestLevelEqn, if_pos hcold, Prod.mk.injEq, fluxC] at hrow
    exact hrow
  · intro hwarm
    simp only [lowestLevelEqn, if_neg hwarm, Prod.mk.injEq, fluxC] at hrow
    obtain ⟨h0, h1, h2⟩ := hrow
    refine ⟨warmBaseAlpha M.config ((iosysEnth M fg i j).getD 0 0)
        ((columnCTS M fg S.Enth_s i j).2.getD 0 0),
      (unblendedRow M fg.fdz i j (isMarginalAt M i j) (iosysEnth M fg i j)
        (columnCTS M fg S.Enth_s i j).2 (iosysW M fg i j) (iosysU M fg i j)
        (iosysV M fg i j) (iosysSigma M fg i j)).1,
      (unblendedRow M fg.fdz i j (isMarginalAt M i j) (iosysEnth M fg i j)
        (columnCTS M fg S.Enth_s i j).2 (iosysW M fg i j) (iosysU M fg i j)
        (iosysV M fg i j) (iosysSigma M fg i j)).2.1,
      (unblendedRow M fg.fdz i j (isMarginalAt M i j) (iosysEnth M fg i j)
        (columnCTS M fg S.Enth_s i j).2 (iosysW M fg i j) (iosysU M fg i j)
        (iosysV M fg i j) (iosysSigma M fg i j)).2.2, rfl, ?_, ?_, h0, h1, h2⟩
    · intro hw
      simp only [unblendedRow, if_pos hw, and_self]
    · intro hw
      simp only [unblendedRow, if_neg hw, and_self]

/-- Witness for `ice_only_bottom_row`: a grounded column over a single bedrock level with
a warm base in the middle of the blend window (`alpha = 1/2`), basal velocity `-1`
(outflow, `nu = -1/10`) and strain heating `20` at the base. -/
theorem ice_only_bottom_row_witness :
    ∃ r c, columnStep (sampleModel false true 1 [1447 / 10, 130, 120] [20, 0, 0] (-1))
        (sampleFineGrid 1) sampleCouplers (sampleFields 1 1) (sampleScratch 1) 0 0 0 0 = .ok r ∧
      r.calls.getLast? = some (SystemCall.iceenthOnly c) ∧
      c.a0 = 21 / 20 ∧ c.a1 = -11 / 20 ∧ c.rhs = 1617 / 20 := by
  have hx : ∃ r, columnStep (sampleModel false true 1 [1447 / 10, 130, 120] [20, 0, 0] (-1))
      (sampleFineGrid 1) sampleCouplers (sampleFields 1 1) (sampleScratch 1) 0 0 0 0 = .ok r :=
    exists_ok_of_toBool _ (by decide!)
  obtain ⟨r, hr⟩ := hx
  obtain ⟨hf, c, hlast, _, h1, _, hwarm⟩ :=
    ice_only_bottom_row _ _ _ _ _ _ _ _ _ r hr (by decide!)
  have hhf := h1 rfl
  subst hhf
  obtain ⟨alpha, b0, b1, rr, ha, hout, _, e0, e1, e2⟩ := hwarm (by decide!)
  obtain ⟨hb0, hb1, hrr⟩ := hout (by decide!)
  subst ha hb0 hb1 hrr
  exact ⟨r, c, hr, hlast, e0.trans (by decide!), e1.trans (by decide!), e2.trans (by decide!)⟩

/-- C22: on the non-combined path with a warm base and `w[0] < 0` (outflow), the row
given to the ice-only system is the blend of the prescribed-flux row with the outflow row
`(1 - nu, nu, X)`, `nu = (dt/fdz)*w[0]`, whose right-hand side `X` before blending is
exactly `Enth[0]` when `isMarginal` is true and
`Enth[0] + dt*(Sigma[0]/ice_rho - UpEnthu - UpEnthv)` when `isMarginal` is false, where
`UpEnthu` is `u[0]*(E(i+1,j) - E(i,j))/dx` if `u[0] < 0` and `u[0]*(E(i,j) - E(i-1,j))/dx`
otherwise, `UpEnthv` likewise in `j` with `v[0]` and `dy`, and `E` is `Enth3` at height
`0`.  The coefficients `a0`, `a1` do not depend on `isMarginal`. -/
theorem marginal_outflow_rhs (M : IceModel) (fg : FineGrid) (cp : Couplers)
    (F : StepFields) (S : Scratch) (v : PetscScalar) (l : Int) (i j : Int) (r : ColumnResult)
    (h : columnStep M fg cp F S v l i j = .ok r)
    (hn : ¬ ((iosysEnth M fg i j).getD 0 0 < (columnCTS M fg S.Enth_s i j).2.getD 0 0 ∧
      M.is_floating i j = false ∧ fg.fMbz > 1))
    (hwarm : ¬ (iosysEnth M fg i j).getD 0 0 < (columnCTS M fg S.Enth_s i j).2.getD 0 0)
    (hw : (iosysW M fg i j).getD 0 0 < 0) :
    ∃ (hf_base : PetscScalar) (c : IceColumn) (X : PetscScalar),
      r.calls.getLast? = some (SystemCall.iceenthOnly c) ∧
      (fg.fMbz > 1 → ∃ Tbnew,
        M.sys.bedrockSolve
          { i := i, j := j, ks := -1, Tb := (M.vec.getValColumn (F.Tb3 i j) fg.fMbz fg.fzblev).2,
            Tbtop := if M.is_floating i j = true then cp.shelfbtemp i j
              else M.EC.getMeltingTemp (M.EC.getPressureFromDepth (M.vH i j)),
            Ghf := M.vGhf i j } S.Tbnew = (0, Tbnew) ∧
          hf_base = M.sys.extractHeatFluxFromSoln Tbnew) ∧
      (fg.fMbz = 1 → hf_base = M.vGhf i j) ∧
      c.isMarginal =
        M.checkThinNeigh
          (M.vH (i+1) j) (M.vH (i+1) (j+1)) (M.vH i (j+1)) (M.vH (i-1) (j+1))
          (M.vH (i-1) j) (M.vH (i-1) (j-1)) (M.vH i (j-1)) (M.vH (i+1) (j-1)) ∧
      c.rhs =
        (1 - warmBaseAlpha M.config ((iosysEnth M fg i j).getD 0 0)
            ((columnCTS M fg S.Enth_s i j).2.getD 0 0)) * X +
          warmBaseAlpha M.config ((iosysEnth M fg i j).getD 0 0)
            ((columnCTS M fg S.Enth_s i j).2.getD 0 0) *
            (M.config.ice_specific_heat_capacity * fg.fdz /
              M.config.ice_thermal_conductivity * (hf_base + M.vRb i j)) ∧
      c.a0 =
        (1 - warmBaseAlpha M.config ((iosysEnth M fg i j).getD 0 0)
            ((columnCTS M fg S.Enth_s i j).2.getD 0 0)) *
          (1 - (M.dtTempAge / fg.fdz) * (iosysW M fg i j).getD 0 0) +
          warmBaseAlpha M.config ((iosysEnth M fg i j).getD 0 0)
            ((columnCTS M fg S.Enth_s i j).2.getD 0 0) * 1 ∧
      c.a1 =
        (1 - warmBaseAlpha M.config ((iosysEnth M fg i j).getD 0 0)
            ((columnCTS M fg S.Enth_s i j).2.getD 0 0)) *
          ((M.dtTempAge / fg.fdz) * (iosysW M fg i j).getD 0 0) +
          warmBaseAlpha M.config ((iosysEnth M fg i j).getD 0 0)
            ((columnCTS M fg S.Enth_s i j).2.getD 0 0) * (-1) ∧
      (c.isMarginal = true → X = (iosysEnth M fg i j).getD 0 0) ∧
      (c.isMarginal = false →
        X = (iosysEnth M fg i j).getD 0 0 + M.dtTempAge *
          ((iosysSigma M fg i j).getD 0 0 / M.config.ice_density -
            (if (iosysU M fg i j).getD 0 0 < 0 then
              (iosysU M fg i j).getD 0 0 *
                ((M.vec.getPlaneStarZ M.Enth3 i j 0).ip1 -
                  (M.vec.getPlaneStarZ M.Enth3 i j 0).ij) / M.dx
             else
              (iosysU M fg i j).getD 0 0 *
                ((M.vec.getPlaneStarZ M.Enth3 i j 0).ij -
                  (M.vec.getPlaneStarZ M.Enth3 i j 0).im1) / M.dx) -
            (if (iosysV M fg i j).getD 0 0 < 0 then
              (iosysV M fg i j).getD 0 0 *
                ((M.vec.getPlaneStarZ M.Enth3 i j 0).jp1 -
                  (M.vec.getPlaneStarZ M.Enth3 i j 0).ij) / M.dy
             else
              (iosysV M fg i j).getD 0 0 *
                ((M.vec.getPlaneStarZ M.Enth3 i j 0).ij -
                  (M.vec.getPlaneStarZ M.Enth3 i j 0).jm1) / M.dy))) := by
  obtain ⟨hf_base, c, hlast, hf1, hf2, hm, _, _, _, _, _, _, hrow⟩ :=
    columnStep_call M fg cp F S v l i j r h hn
  simp only [lowestLevelEqn, if_neg hwarm, unblendedRow, if_pos hw, Prod.mk.injEq, fluxC]
    at hrow
  obtain ⟨h0, h1, h2⟩ := hrow
  refine ⟨hf_base, c, outflowRhs M i j (isMarginalAt M i j) (iosysEnth M fg i j)
    (iosysU M fg i j) (iosysV M fg i j) (iosysSigma M fg i j), hlast, hf1, hf2, hm, h2, h0, h1,
    ?_, ?_⟩
  · intro ht
    rw [hm] at ht
    simp only [outflowRhs, ht, Bool.true_eq_false, if_false]
  · intro hf
    rw [hm] at hf
    simp only [outflowRhs, hf, if_true]

/-- Witness for `marginal_outflow_rhs`: the marginal sample column with a warm base in the
middle of the blend window (`alpha = 1/2`), basal velocity `-1` and strain heating `20` at
the base; the strain heating does not enter the row: `rhs = (1/2)*(1447/10) + (1/2)*15`. -/
theorem marginal_outflow_rhs_witness :
    ∃ r c, columnStep sampleModelMarginal (sampleFineGrid 1) sampleCouplers
        (sampleFields 1 1) (sampleScratch 1) 0 0 0 0 = .ok r ∧
      r.calls.getLast? = some (SystemCall.iceenthOnly c) ∧
      c.isMarginal = true ∧ c.rhs = 1597 / 20 := by
  have hx : ∃ r, columnStep sampleModelMarginal (sampleFineGrid 1) sampleCouplers
      (sampleFields 1 1) (sampleScratch 1) 0 0 0 0 = .ok r :=
    exists_ok_of_toBool _ (by decide!)
  obtain ⟨r, hr⟩ := hx
  obtain ⟨hf, c, X, hlast, _, h1, hm, hrhs, _, _, hX, _⟩ :=
    marginal_outflow_rhs _ _ _ _ _ _ _ _ _ r hr (by decide!) (by decide!) (by decide!)
  have hhf := h1 rfl
  have hmt : c.isMarginal = true := hm.trans (by decide!)
  have hXv := hX hmt
  subst hhf hXv
  exact ⟨r, c, hr, hlast, hmt, hrhs.trans (by decide!)⟩

/-! ## The water added to the stored basal water -/

/-- The drainage loop adds to `Hdrainedtotal` the thickness drained at each of its levels
from the enthalpy the level held before the loop. -/
theorem drainLoop_total (M : IceModel) (fg : FineGrid) (i j : Int) (st : DrainState)
    (n : Nat) (ds : DrainState) (h : drainLoop M fg i j st n = .ok ds) :
    ds.Hdrainedtotal = st.Hdrainedtotal +
      ((List.range n).map fun k => dHdrainedAt M fg i j (st.Enthnew.getD k 0) k).sum := by
  induction n generalizing ds with
  | zero =>
    simp only [drainLoop] at h
    injection h with h
    subst h
    simp
  | succ n ih =>
    obtain ⟨s, hs, hl⟩ := drainLoop_succ_ok M fg i j st ds n h
    obtain ⟨_, _, hH⟩ := drainLevel_ok M fg i j s ds n hl
    rw [hH, ih s hs, (drainLoop_keep M fg i j st n s hs).2 n (le_refl _)]
    simp only [List.range_succ, List.map_append, List.sum_append, List.map_cons, List.map_nil,
      List.sum_cons, List.sum_nil, add_zero, dHdrainedAt]
    ring

/-- C23: in a pass of the loop body that completes, `Hdrainedtotal` is the sum over the
levels `k = 0..ks-1` of the thickness `dHdrained` that `drainageToBaseModelEnth` returns
for the enthalpy `Enthnew[k]` left by the solve of the column.  For a grounded column the
local `Hmeltnew`, from which the final `vHmelt(i,j)` is determined by the clamp, is
`vHmelt(i,j) + (melt rate before drainage) * dt + Hdrainedtotal`, and the melt rate
written is the melt rate before drainage plus `Hdrainedtotal / dt`.  For a floating column
`Hmeltnew` stays the old `vHmelt(i,j)` and the melt rate is not changed by drainage. -/
theorem stored_water_before_clamp (M : IceModel) (fg : FineGrid) (cp : Couplers)
    (F : StepFields) (S : Scratch) (v : PetscScalar) (l : Int) (i j : Int) (r : ColumnResult)
    (h : columnStep M fg cp F S v l i j = .ok r) :
    (∃ isMarginal Enth_ks sr,
      majorDecision M fg cp F S l i j ⌊M.vH i j / fg.fdz⌋ isMarginal
          (columnCTS M fg S.Enth_s i j).1 Enth_ks (M.EC.getPressureFromDepth (M.vH i j))
          (iosysEnth M fg i j) (columnCTS M fg S.Enth_s i j).2 (iosysW M fg i j) = .ok sr ∧
        r.meltRateBeforeDrainage = sr.basalMeltRate ∧
        r.Hdrainedtotal =
          ((List.range ⌊M.vH i j / fg.fdz⌋.toNat).map fun k =>
            (drainageToBaseModelEnth M.EC M.allowAboveMelting
              M.config.liquid_water_fraction_max (M.vH i j) (fg.fzlev.getD k 0) fg.fdz
              (sr.Enthnew.getD k 0) 0).2.2).sum) ∧
      r.Hmelt = finalizeHmelt M i j ⌊M.vH i j / fg.fdz⌋ (F.vHmelt i j) r.Hmeltnew ∧
      (M.is_floating i j = false →
        r.Hmeltnew =
          F.vHmelt i j + r.meltRateBeforeDrainage * M.dtTempAge + r.Hdrainedtotal ∧
        r.basalMeltRate = r.meltRateBeforeDrainage + r.Hdrainedtotal / M.dtTempAge) ∧
      (M.is_floating i j = true →
        r.Hmeltnew = F.vHmelt i j ∧ r.basalMeltRate = r.meltRateBeforeDrainage) := by
  obtain ⟨isMarginal, Enth_ks, sr, ds, hmd, hdl, hbefore, hdr, hbmr, hnew, hfin, _, _, _, _⟩ :=
    columnStep_ok M fg cp F S v l i j r h
  refine ⟨⟨isMarginal, Enth_ks, sr, hmd, hbefore, ?_⟩, hfin, ?_, ?_⟩
  · rw [hdr, drainLoop_total M fg i j _ _ ds hdl]
    simp only [zero_add, dHdrainedAt]
  · intro hg
    rw [hnew, hbmr, hbefore, hdr]
    simp only [hg, if_true, and_self]
  · intro hf
    rw [hnew, hbmr, hbefore]
    simp only [hf, Bool.true_eq_false, if_false, and_self]

/-- Witness for `stored_water_before_clamp`: a grounded column whose solve leaves the
enthalpy `1467/10` at level `0`, with liquid fraction `7/100`; the level drains
`(7/100 - 1/100) * 10 = 3/5`; with the melt rate `3/4000` before drainage the stored
water `1` grows to `1 + 3/4000 + 3/5 = 6403/4000` before the clamp. -/
theorem stored_water_before_clamp_witness :
    ∃ r, columnStep (sampleModel false true 1 [1447 / 10, 130, 120] [20, 0, 0] 0)
        (sampleFineGrid 1) sampleCouplers (sampleFields 1 1) (sampleScratch 1) 0 0 0 0 = .ok r ∧
      r.Hdrainedtotal = 3 / 5 ∧ r.meltRateBeforeDrainage = 3 / 4000 ∧
      r.Hmeltnew = 6403 / 4000 := by
  have hx : ∃ r, columnStep (sampleModel false true 1 [1447 / 10, 130, 120] [20, 0, 0] 0)
      (sampleFineGrid 1) sampleCouplers (sampleFields 1 1) (sampleScratch 1) 0 0 0 0 = .ok r :=
    exists_ok_of_toBool _ (by decide!)
  obtain ⟨r, hr⟩ := hx
  obtain ⟨_, _, hg, _⟩ := stored_water_before_clamp _ _ _ _ _ _ _ _ _ r hr
  have hd : r.Hdrainedtotal = 3 / 5 := by
    have hrr : some r.Hdrainedtotal = some (3 / 5 : PetscScalar) := by
      have := congrArg (fun x => x.toOption.map ColumnResult.Hdrainedtotal) hr
      exact this.symm.trans (by decide!)
    exact Option.some.inj hrr
  have hm : r.meltRateBeforeDrainage = 3 / 4000 := by
    have hrr : some r.meltRateBeforeDrainage = some (3 / 4000 : PetscScalar) := by
      have := congrArg (fun x => x.toOption.map ColumnResult.meltRateBeforeDrainage) hr
      exact this.symm.trans (by decide!)
    exact Option.some.inj hrr
  obtain ⟨h1, _⟩ := hg rfl
  rw [hd, hm] at h1
  exact ⟨r, hr, hd, hm, h1.trans (by decide!)⟩

/-! ## When `lambda` is below one -/

theorem PetscMin_lt_iff (a b c : PetscScalar) : PetscMin a b < c ↔ a < c ∨ b < c := by
  unfold PetscMin
  split
  · constructor
    · exact fun h => Or.inl h
    · rintro (h | h)
      · exact h
      · linarith
  · constructor
    · exact fun h => Or.inr h
    · rintro (h | h)
      · linarith
      · exact h

theorem ctsLoop_fst_lt_one_iff (cfg : Config) (EC : EnthalpyConverter) (dzEQ : PetscScalar)
    (zlev : List PetscScalar) (thk : PetscScalar) (Enth w Enth_s : List PetscScalar) (n : Nat) :
    (ctsLoop cfg EC dzEQ zlev thk Enth w Enth_s n).1 < 1 ↔
      ∃ k, k < n ∧
        (Enth.getD k 0 > (ctsLoop cfg EC dzEQ zlev thk Enth w Enth_s (k + 1)).2.getD k 0 ∨
          lambdaRatio cfg dzEQ (w.getD k 0) < 1) := by
  induction n with
  | zero => simp [ctsLoop]
  | succ n ih =>
    rw [ctsLoop_succ_fst]
    split
    · rename_i ht
      exact ⟨fun _ => ⟨n, by omega, Or.inl ht⟩, fun _ => by norm_num⟩
    · rename_i ht
      rw [PetscMin_lt_iff, ih]
      constructor
      · rintro (⟨k, hk, h⟩ | h)
        · exact ⟨k, by omega, h⟩
        · exact ⟨n, by omega, Or.inr h⟩
      · rintro ⟨k, hk, h⟩
        by_cases hkn : k = n
        · subst hkn
          rcases h with h | h
          · exact absurd h ht
          · exact Or.inr h
        · exact Or.inl ⟨k, by omega, h⟩

theorem ctsLoop_fst_min (cfg : Config) (EC : EnthalpyConverter) (dzEQ : PetscScalar)
    (zlev : List PetscScalar) (thk : PetscScalar) (Enth w Enth_s : List PetscScalar) (n : Nat)
    (hcold : ∀ k, k < n →
      ¬ Enth.getD k 0 > (ctsLoop cfg EC dzEQ zlev thk Enth w Enth_s (k + 1)).2.getD k 0) :
    (ctsLoop cfg EC dzEQ zlev thk Enth w Enth_s n).1 ≤ 1 ∧
      (∀ k, k < n →
        (ctsLoop cfg EC dzEQ zlev thk Enth w Enth_s n).1 ≤ lambdaRatio cfg dzEQ (w.getD k 0)) ∧
      ((ctsLoop cfg EC dzEQ zlev thk Enth w Enth_s n).1 = 1 ∨
        ∃ k, k < n ∧
          (ctsLoop cfg EC dzEQ zlev thk Enth w Enth_s n).1 =
            lambdaRatio cfg dzEQ (w.getD k 0)) := by
  induction n with
  | zero => simp [ctsLoop]
  | succ n ih =>
    obtain ⟨h1, h2, h3⟩ := ih (fun k hk => hcold k (by omega))
    rw [ctsLoop_succ_fst, if_neg (hcold n (by omega))]
    unfold PetscMin
    split
    · rename_i hlt
      refine ⟨h1, ?_, ?_⟩
      · intro k hk
        by_cases hkn : k = n
        · subst hkn
          exact hlt.le
        · exact h2 k (by omega)
      · rcases h3 with h3 | ⟨k, hk, h3⟩
        · exact Or.inl h3
        · exact Or.inr ⟨k, by omega, h3⟩
    · rename_i hge
      have hge' := not_lt.mp hge
      refine ⟨by linarith, ?_, Or.inr ⟨n, by omega, rfl⟩⟩
      intro k hk
      by_cases hkn : k = n
      · subst hkn
        exact le_refl _
      · exact le_trans hge' (h2 k (by omega))

theorem ctsLoop_snd_indep (cfg : Config) (EC : EnthalpyConverter) (dzEQ : PetscScalar)
    (zlev : List PetscScalar) (thk : PetscScalar) (Enth w Enth' w' Enth_s : List PetscScalar)
    (n : Nat) :
    (ctsLoop cfg EC dzEQ zlev thk Enth w Enth_s n).2 =
      (ctsLoop cfg EC dzEQ zlev thk Enth' w' Enth_s n).2 := by
  induction n with
  | zero => rfl
  | succ n ih => rw [ctsLoop_succ_snd, ctsLoop_succ_snd, ih]

theorem ctsLoop_fst_levels (cfg : Config) (EC : EnthalpyConverter) (dzEQ : PetscScalar)
    (zlev : List PetscScalar) (thk : PetscScalar) (Enth w Enth' w' Enth_s : List PetscScalar)
    (n : Nat)
    (h : ∀ k, k < n → Enth'.getD k 0 = Enth.getD k 0 ∧ w'.getD k 0 = w.getD k 0) :
    (ctsLoop cfg EC dzEQ zlev thk Enth' w' Enth_s n).1 =
      (ctsLoop cfg EC dzEQ zlev thk Enth w Enth_s n).1 := by
  induction n with
  | zero => rfl
  | succ n ih =>
    rw [ctsLoop_succ_fst, ctsLoop_succ_fst, ih (fun k hk => h k (by omega)),
      (h n (by omega)).1, (h n (by omega)).2,
      ctsLoop_snd_indep cfg EC dzEQ zlev thk Enth' w' Enth w Enth_s (n + 1)]

/-- C24: for density times heat capacity, level spacing and `secpera` `> 0` the divisor
`denom` of the quotient is positive at every level, and `getEnthalpyCTSColumn` returns
`lambda < 1` if and only if some level `k` in `0..ks` either holds temperate ice
(`Enth[k] > Enth_s[k]`) or has advection dominating diffusion,
`2*ice_k / ((|w[k]| + 1e-6/secpera) * ice_density * ice_specific_heat_capacity * dzEQ) < 1`.
When no level in `0..ks` is temperate, `lambda` is the minimum of `1` and that quotient
over `k = 0..ks`: it is at most `1` and at most every quotient, and it equals `1` or one of
the quotients.  Levels above `ks` do not influence `lambda`: two columns that agree in
`Enth[k]` and `w[k]` for `k` in `0..ks` get the same `lambda`. -/
theorem lambda_lt_one_iff (cfg : Config) (EC : EnthalpyConverter)
    (Mz : Int) (dzEQ : PetscScalar) (zlev : List PetscScalar) (thk : PetscScalar) (ks : Int)
    (Enth w Enth_s : List PetscScalar)
    (hrc : 0 < cfg.ice_density * cfg.ice_specific_heat_capacity)
    (hdz : 0 < dzEQ) (hs : 0 < cfg.secpera) :
    (∀ k : Nat, 0 < (PetscAbs (w.getD k 0) + (1 / 1000000) / cfg.secpera)
      * (cfg.ice_density * cfg.ice_specific_heat_capacity) * dzEQ) ∧
    ((getEnthalpyCTSColumn cfg EC Mz dzEQ zlev thk ks Enth w Enth_s).1 < 1 ↔
      ∃ k : Nat, (k : Int) ≤ ks ∧
        (Enth.getD k 0 >
            (getEnthalpyCTSColumn cfg EC Mz dzEQ zlev thk ks Enth w Enth_s).2.getD k 0 ∨
          2 * cfg.ice_thermal_conductivity /
            ((PetscAbs (w.getD k 0) + (1 / 1000000) / cfg.secpera)
              * (cfg.ice_density * cfg.ice_specific_heat_capacity) * dzEQ) < 1)) ∧
    ((∀ k : Nat, (k : Int) ≤ ks →
        ¬ Enth.getD k 0 >
          (getEnthalpyCTSColumn cfg EC Mz dzEQ zlev thk ks Enth w Enth_s).2.getD k 0) →
      (getEnthalpyCTSColumn cfg EC Mz dzEQ zlev thk ks Enth w Enth_s).1 ≤ 1 ∧
      (∀ k : Nat, (k : Int) ≤ ks →
        (getEnthalpyCTSColumn cfg EC Mz dzEQ zlev thk ks Enth w Enth_s).1 ≤
          2 * cfg.ice_thermal_conductivity /
            ((PetscAbs (w.getD k 0) + (1 / 1000000) / cfg.secpera)
              * (cfg.ice_density * cfg.ice_specific_heat_capacity) * dzEQ)) ∧
      ((getEnthalpyCTSColumn cfg EC Mz dzEQ zlev thk ks Enth w Enth_s).1 = 1 ∨
        ∃ k : Nat, (k : Int) ≤ ks ∧
          (getEnthalpyCTSColumn cfg EC Mz dzEQ zlev thk ks Enth w Enth_s).1 =
            2 * cfg.ice_thermal_conductivity /
              ((PetscAbs (w.getD k 0) + (1 / 1000000) / cfg.secpera)
                * (cfg.ice_density * cfg.ice_specific_heat_capacity) * dzEQ))) ∧
    (∀ Enth' w' : List PetscScalar,
      (∀ k : Nat, (k : Int) ≤ ks →
        Enth'.getD k 0 = Enth.getD k 0 ∧ w'.getD k 0 = w.getD k 0) →
      (getEnthalpyCTSColumn cfg EC Mz dzEQ zlev thk ks Enth' w' Enth_s).1 =
        (getEnthalpyCTSColumn cfg EC Mz dzEQ zlev thk ks Enth w Enth_s).1) := by
  have hfst : ∀ E W : List PetscScalar,
      (getEnthalpyCTSColumn cfg EC Mz dzEQ zlev thk ks E W Enth_s).1 =
        (ctsLoop cfg EC dzEQ zlev thk E W Enth_s (ks + 1).toNat).1 := fun _ _ => rfl
  have hratio : ∀ wk, lambdaRatio cfg dzEQ wk =
      2 * cfg.ice_thermal_conductivity /
        ((PetscAbs wk + (1 / 1000000) / cfg.secpera)
          * (cfg.ice_density * cfg.ice_specific_heat_capacity) * dzEQ) := fun _ => rfl
  refine ⟨?_, ?_, ?_, ?_⟩
  · intro k
    have h1 : 0 < PetscAbs (w.getD k 0) + (1 / 1000000) / cfg.secpera := by
      have := PetscAbs_nonneg (w.getD k 0)
      have : 0 < (1 / 1000000 : PetscScalar) / cfg.secpera := by positivity
      linarith
    positivity
  · rw [hfst, ctsLoop_fst_lt_one_iff]
    constructor
    · rintro ⟨k, hk, h⟩
      have hk2 : (k : Int) ≤ ks := by omega
      refine ⟨k, hk2, ?_⟩
      rw [getEnthalpyCTSColumn_getD cfg EC Mz dzEQ zlev thk ks Enth w Enth_s k hk2]
      exact h
    · rintro ⟨k, hk, h⟩
      refine ⟨k, by omega, ?_⟩
      rw [getEnthalpyCTSColumn_getD cfg EC Mz dzEQ zlev thk ks Enth w Enth_s k hk] at h
      exact h
  · intro hcold
    rw [hfst]
    obtain ⟨h1, h2, h3⟩ := ctsLoop_fst_min cfg EC dzEQ zlev thk Enth w Enth_s (ks + 1).toNat
      (by
        intro k hk
        have hk2 : (k : Int) ≤ ks := by omega
        rw [← getEnthalpyCTSColumn_getD cfg EC Mz dzEQ zlev thk ks Enth w Enth_s k hk2]
        exact hcold k hk2)
    refine ⟨h1, fun k hk => h2 k (by omega), ?_⟩
    rcases h3 with h3 | ⟨k, hk, h3⟩
    · exact Or.inl h3
    · exact Or.inr ⟨k, by omega, h3⟩
  · intro Enth' w' hagree
    rw [hfst, hfst]
    exact ctsLoop_fst_levels cfg EC dzEQ zlev thk Enth w Enth' w' Enth_s _
      (fun k hk => hagree k (by omega))

/-- Witness for `lambda_lt_one_iff`: a cold column with basal velocity `-1` and `ks = 1`,
where advection dominates at level `0`, so that `lambda < 1`; changing the enthalpy and
the velocity at level `2` above `ks` leaves `lambda` as it is. -/
theorem lambda_lt_one_iff_witness :
    (getEnthalpyCTSColumn sampleConfig sampleEC 3 10 [0, 10, 20] 15 1
        [130, 130, 120] [-1, 0, 0] [0, 0, 0]).1 < 1 ∧
      (getEnthalpyCTSColumn sampleConfig sampleEC 3 10 [0, 10, 20] 15 1
        [130, 130, 500] [-1, 0, 7] [0, 0, 0]).1 =
      (getEnthalpyCTSColumn sampleConfig sampleEC 3 10 [0, 10, 20] 15 1
        [130, 130, 120] [-1, 0, 0] [0, 0, 0]).1 :=
  have h := lambda_lt_one_iff sampleConfig sampleEC 3 10 [0, 10, 20] 15 1
    [130, 130, 120] [-1, 0, 0] [0, 0, 0] (by decide!) (by decide!) (by decide!)
  ⟨h.2.1.mpr ⟨0, by decide, Or.inr (by decide!)⟩,
    h.2.2.2 [130, 130, 500] [-1, 0, 7] (by
      intro k hk
      have hk1 : k ≤ 1 := by omega
      interval_cases k <;> exact ⟨rfl, rfl⟩)⟩

/-! ## The blend fraction and the water balance of a grounded column -/

/-- C25: in the warm-base branch (`Enth[0] >= Enth_s[0]`) with `warm_dE > 0`, the blend
fraction `alpha` lies in `[0, 1]`; `alpha = 1` exactly when `Enth[0] = Enth_s[0]`,
`0 < alpha <= 1` when `Enth[0] < Enth_s[0] + warm_dE`, and `alpha = 0` when
`Enth[0] >= Enth_s[0] + warm_dE`.  The lowest-level equation multiplies the melt rate by
`1 - alpha`, which also lies in `[0, 1]`. -/
theorem warm_base_alpha_in_unit_interval (M : IceModel) (fdz : PetscScalar) (i j : Int)
    (isMarginal : Bool) (hf_base : PetscScalar) (Enth Enth_s w u v Sigma : List PetscScalar)
    (basalMeltRate : PetscScalar)
    (hdE : 0 < warm_dE M.config) (hwarm : ¬ Enth.getD 0 0 < Enth_s.getD 0 0) :
    0 ≤ warmBaseAlpha M.config (Enth.getD 0 0) (Enth_s.getD 0 0) ∧
      warmBaseAlpha M.config (Enth.getD 0 0) (Enth_s.getD 0 0) ≤ 1 ∧
      (warmBaseAlpha M.config (Enth.getD 0 0) (Enth_s.getD 0 0) = 1 ↔
        Enth.getD 0 0 = Enth_s.getD 0 0) ∧
      (Enth.getD 0 0 < Enth_s.getD 0 0 + warm_dE M.config →
        0 < warmBaseAlpha M.config (Enth.getD 0 0) (Enth_s.getD 0 0) ∧
        warmBaseAlpha M.config (Enth.getD 0 0) (Enth_s.getD 0 0) =
          1 - (Enth.getD 0 0 - Enth_s.getD 0 0) / warm_dE M.config) ∧
      (Enth.getD 0 0 ≥ Enth_s.getD 0 0 + warm_dE M.config →
        warmBaseAlpha M.config (Enth.getD 0 0) (Enth_s.getD 0 0) = 0) ∧
      (lowestLevelEqn M fdz i j isMarginal hf_base Enth Enth_s w u v Sigma basalMeltRate).2 =
        basalMeltRate * (1 - warmBaseAlpha M.config (Enth.getD 0 0) (Enth_s.getD 0 0)) ∧
      0 ≤ 1 - warmBaseAlpha M.config (Enth.getD 0 0) (Enth_s.getD 0 0) ∧
      1 - warmBaseAlpha M.config (Enth.getD 0 0) (Enth_s.getD 0 0) ≤ 1 := by
  have hd : 0 ≤ Enth.getD 0 0 - Enth_s.getD 0 0 := by linarith [not_lt.mp hwarm]
  have hlow : (lowestLevelEqn M fdz i j isMarginal hf_base Enth Enth_s w u v Sigma
      basalMeltRate).2 =
      basalMeltRate * (1 - warmBaseAlpha M.config (Enth.getD 0 0) (Enth_s.getD 0 0)) := by
    rw [lowestLevelEqn_snd, if_neg hwarm]
  by_cases hin : Enth.getD 0 0 < Enth_s.getD 0 0 + warm_dE M.config
  · have ha : warmBaseAlpha M.config (Enth.getD 0 0) (Enth_s.getD 0 0) =
        1 - (Enth.getD 0 0 - Enth_s.getD 0 0) / warm_dE M.config := by
      simp only [warmBaseAlpha, if_pos hin]
    have hq0 : 0 ≤ (Enth.getD 0 0 - Enth_s.getD 0 0) / warm_dE M.config :=
      div_nonneg hd hdE.le
    have hq1 : (Enth.getD 0 0 - Enth_s.getD 0 0) / warm_dE M.config < 1 := by
      rw [div_lt_one hdE]
      linarith
    refine ⟨by rw [ha]; linarith, by rw [ha]; linarith, ?_, fun _ => ⟨by rw [ha]; linarith, ha⟩,
      fun hge => absurd hin (not_lt.mpr hge), hlow, by rw [ha]; linarith, by rw [ha]; linarith⟩
    rw [ha]
    constructor
    · intro h1
      have hz : (Enth.getD 0 0 - Enth_s.getD 0 0) / warm_dE M.config = 0 := by linarith
      rcases div_eq_zero_iff.mp hz with h | h
      · linarith
      · exact absurd h hdE.ne'
    · intro he
      rw [he, sub_self, zero_div, sub_zero]
  · have ha : warmBaseAlpha M.config (Enth.getD 0 0) (Enth_s.getD 0 0) = 0 := by
      simp only [warmBaseAlpha, if_neg hin]
    refine ⟨by rw [ha], by rw [ha]; norm_num, ?_, fun h => absurd h hin, fun _ => ha, hlow,
      by rw [ha]; norm_num, by rw [ha]; norm_num⟩
    rw [ha]
    constructor
    · intro h
      norm_num at h
    · intro he
      exact absurd (by rw [he]; linarith) hin

/-- Witness for `warm_base_alpha_in_unit_interval`: the sample column with a warm base in
the middle of the blend window: `Enth[0] - Enth_s[0] = 5`, `warm_dE = 10`, `alpha = 1/2`,
and the melt rate `3/2000` is halved. -/
theorem warm_base_alpha_in_unit_interval_witness :
    warmBaseAlpha sampleConfig (1447 / 10) (1397 / 10) = 1 / 2 ∧
      (lowestLevelEqn (sampleModel false true 1 [1447 / 10, 130, 120] [0, 0, 0] 0) 10 0 0 false
        (1 / 2) [1447 / 10, 130, 120] [1397 / 10, 1399 / 10, 140] [0, 0, 0] [0, 0, 0] [0, 0, 0]
        [0, 0, 0] (3 / 2000)).2 = 3 / 4000 :=
  have h := warm_base_alpha_in_unit_interval
    (sampleModel false true 1 [1447 / 10, 130, 120] [0, 0, 0] 0) 10 0 0 false
    (1 / 2) [1447 / 10, 130, 120] [1397 / 10, 1399 / 10, 140] [0, 0, 0] [0, 0, 0] [0, 0, 0]
    [0, 0, 0] (3 / 2000) (by decide!) (by decide!)
  ⟨(h.2.2.2.1 (by decide!)).2.trans (by decide!), h.2.2.2.2.2.1.trans (by decide!)⟩

/-- C27: in the combined branch (cold base, grounded, `fMbz > 1`) with `fMz >= 1`, work
arrays of their allocated sizes and routines that fill what they are handed
(`cbsys.solveThisColumn`, `getAbsTemp`), the split of the solution `xcombined` of length
`fMbz + fMz - 1` stays in bounds and defines every entry of `Tbnew` and `Enthnew`:
`Tbnew[k] = xcombined[k]` for `k < fMbz-1`, `Tbnew[fMbz-1]` is what `getAbsTemp` returns
for `xcombined[fMbz-1]` at the basal pressure, and `Enthnew[k] = xcombined[k + fMbz-1]`
for `k < fMz`; so `xcombined[fMbz-1]` is both `Enthnew[0]` and the source of the top
bedrock temperature.  No entry keeps an earlier value: started with any other content of
the work arrays the branch returns the same `Tbnew` and `Enthnew`. -/
theorem combined_solution_split (M : IceModel) (fg : FineGrid) (cp : Couplers)
    (F : StepFields) (S : Scratch) (W : OverwritesBuffers M) (hS : Sized fg S)
    (hz : 1 ≤ fg.fMz) (l : Int) (i j : Int) (ks : Int) (isMarginal : Bool)
    (lambda Enth_ks p_basal : PetscScalar) (Enth Enth_s w : List PetscScalar) (sr : SolveResult)
    (hc : coldGroundedWithBedrock M fg i j Enth Enth_s = true)
    (h : majorDecision M fg cp F S l i j ks isMarginal lambda Enth_ks p_basal Enth Enth_s w
      = .ok sr) :
    sr.calls.map SystemCall.kind = [SystemKind.combined] ∧
    sr.xcombined.length = (fg.fMbz + fg.fMz - 1).toNat ∧
    sr.Tbnew.length = fg.fMbz.toNat ∧ sr.Enthnew.length = fg.fMz.toNat ∧
    (∀ k : Nat, (k : Int) < fg.fMbz - 1 →
      k < sr.xcombined.length ∧ k < sr.Tbnew.length ∧
      sr.Tbnew.getD k 0 = sr.xcombined.getD k 0) ∧
    ((fg.fMbz - 1).toNat < sr.xcombined.length ∧ (fg.fMbz - 1).toNat < sr.Tbnew.length ∧
      ∀ old, sr.Tbnew.getD (fg.fMbz - 1).toNat 0 =
        (M.EC.getAbsTemp (sr.xcombined.getD (fg.fMbz - 1).toNat 0) p_basal old).2) ∧
    (∀ k : Nat, (k : Int) < fg.fMz →
      ((k : Int) + (fg.fMbz - 1)).toNat < sr.xcombined.length ∧ k < sr.Enthnew.length ∧
      sr.Enthnew.getD k 0 = sr.xcombined.getD ((k : Int) + (fg.fMbz - 1)).toNat 0) ∧
    sr.Enthnew.getD 0 0 = sr.xcombined.getD (fg.fMbz - 1).toNat 0 ∧
    (∀ (S' : Scratch) (l' : Int), Sized fg S' →
      ∃ sr', majorDecision M fg cp F S' l' i j ks isMarginal lambda Enth_ks p_basal Enth
          Enth_s w = .ok sr' ∧
        sr'.Tbnew = sr.Tbnew ∧ sr'.Enthnew = sr.Enthnew) := by
  have hb : fg.fMbz > 1 := ((coldGroundedWithBedrock_eq_true _ _ _ _ _ _).mp hc).2.2
  have hrel : ∀ (S' : Scratch) (l' : Int), Sized fg S' →
      ∃ sr', majorDecision M fg cp F S' l' i j ks isMarginal lambda Enth_ks p_basal Enth
          Enth_s w = .ok sr' ∧
        sr'.Tbnew = sr.Tbnew ∧ sr'.Enthnew = sr.Enthnew := by
    intro S' l' hS'
    have hr := majorDecision_rel M fg cp F S S' W hS hS' l l' i j ks isMarginal lambda Enth_ks
      p_basal Enth Enth_s w
    rw [h] at hr
    obtain ⟨sr', hsr', hE, _, _, _, _, hT, _, _⟩ := ExceptRel_ok_left hr
    exact ⟨sr', hsr', (hT (by omega)).symm, hE.symm⟩
  obtain ⟨hSE, hST, _, hSx⟩ := hS
  simp only [majorDecision, if_pos hc] at h
  have hcalls := (combinedCase_ok _ _ _ _ _ _ _ _ _ _ _ _ _ _ _ sr h).2
  simp only [combinedCase, bind_eq_ok, CHK_eq_ok] at h
  obtain ⟨u, _, v, _, Sigma, _, Tb, _, x, ⟨_, hx⟩, h⟩ := h
  have hxl : x.length = (fg.fMbz + fg.fMz - 1).toNat := by
    rw [← hx, W.combined_length, hSx]
  split at h
  · simp only [pure_eq_ok] at h
    subst h
    dsimp only
    have hTl : (copyFrom x 0 S.Tbnew (fg.fMbz - 1).toNat).length = fg.fMbz.toNat := by
      rw [copyFrom_length, hST]
    have hEl : (copyFrom x (fg.fMbz - 1) S.Enthnew fg.fMz.toNat).length = fg.fMz.toNat := by
      rw [copyFrom_length, hSE]
    have hEk : ∀ k : Nat, (k : Int) < fg.fMz →
        (copyFrom x (fg.fMbz - 1) S.Enthnew fg.fMz.toNat).getD k 0 =
          x.getD ((k : Int) + (fg.fMbz - 1)).toNat 0 := by
      intro k hk
      exact copyFrom_getD_copied _ _ _ _ k (by rw [hSE]; omega) (by omega)
    refine ⟨hcalls, hxl, by rw [List.length_set, hTl], hEl, ?_, ?_, ?_, ?_, hrel⟩
    · intro k hk
      refine ⟨by rw [hxl]; omega, by rw [List.length_set, hTl]; omega, ?_⟩
      rw [getD_set_ne _ _ _ _ (by omega),
        copyFrom_getD_copied _ _ _ _ k (by rw [hST]; omega) (by omega)]
      simp
    · refine ⟨by rw [hxl]; omega, by rw [List.length_set, hTl]; omega, ?_⟩
      intro old
      rw [getD_set_self _ _ _ (by rw [hTl]; omega)]
      rw [W.absTemp _ _ _ old]
    · intro k hk
      exact ⟨by rw [hxl]; omega, by rw [hEl]; omega, hEk k hk⟩
    · have := hEk 0 (by omega)
      simpa using this
  · exact absurd h (by simp [throw, throwThe, MonadExceptOf.throw])

/-- Witness for `combined_solution_split`: the cold grounded column `(0,0)` of the
two-column sample model over three bedrock levels.  The solution is
`[260, 260, 130, 130, 120]`; the split gives `Tbnew = [260, 260, 265]`, where `265` is the
temperature of the enthalpy `130` at the base, and `Enthnew = [130, 130, 120]`, although
the work arrays held zeros before. -/
theorem combined_solution_split_witness :
    ∃ sr, majorDecision sampleModelTwo (sampleFineGrid 3) sampleCouplers (sampleFields 3 1)
        (sampleScratch 3) 0 0 0 1 false 1 100 15 [130, 130, 120] [1397 / 10, 1399 / 10, 140]
        [0, 0, 0] = .ok sr ∧
      sr.xcombined = [260, 260, 130, 130, 120] ∧ sr.Tbnew = [260, 260, 265] ∧
      sr.Enthnew = [130, 130, 120] ∧
      sr.Enthnew.getD 0 0 = sr.xcombined.getD 2 0 ∧
      sr.Tbnew.getD 2 0 = (sampleEC.getAbsTemp (sr.xcombined.getD 2 0) 15 0).2 := by
  have hx : ∃ sr, majorDecision sampleModelTwo (sampleFineGrid 3) sampleCouplers
      (sampleFields 3 1) (sampleScratch 3) 0 0 0 1 false 1 100 15 [130, 130, 120]
      [1397 / 10, 1399 / 10, 140] [0, 0, 0] = .ok sr :=
    exists_ok_of_toBool _ (by decide!)
  obtain ⟨sr, hsr⟩ := hx
  have hv : ∀ f : SolveResult → List PetscScalar, ∀ xs : List PetscScalar,
      (Except.toOption (majorDecision sampleModelTwo (sampleFineGrid 3) sampleCouplers
        (sampleFields 3 1) (sampleScratch 3) 0 0 0 1 false 1 100 15 [130, 130, 120]
        [1397 / 10, 1399 / 10, 140] [0, 0, 0])).map f = some xs → f sr = xs := by
    intro f xs hf
    rw [hsr] at hf
    exact Option.some.inj hf
  obtain ⟨_, _, _, _, _, hT, _, hE, _⟩ :=
    combined_solution_split sampleModelTwo (sampleFineGrid 3) sampleCouplers (sampleFields 3 1)
      (sampleScratch 3) sampleModelTwo_overwrites (by decide) (by decide) 0 0 0 1 false 1 100
      15 [130, 130, 120] [1397 / 10, 1399 / 10, 140] [0, 0, 0] sr (by decide!) hsr
  exact ⟨sr, hsr, hv SolveResult.xcombined _ (by decide!), hv SolveResult.Tbnew _ (by decide!),
    hv SolveResult.Enthnew _ (by decide!), hE, hT.2.2 0⟩

end PISM
